import Mathlib

/-!
# Data self-heal of the AFR translator

A shallow embedding of `xlators/cluster/afr/src/afr-self-heal-data.c`.

The C code is a chain of callbacks driven by the replies of the backend
children.  Here the frame (`frame->local`, `local->self_heal` and the parts of
`this->private` that the file reads) is one record, `Frame`.  A `STACK_WIND`
appends a request to the list of requests in flight, and `deliver` answers one
request in flight by running the callback that the wind registered for it.
Requests are answered after the function that wound them has returned, one
callback at a time, in any order and with any reply.

Besides the fields of the C structures the record carries what an observer of
the backends sees: every request wound so far (`trace`), every reply delivered
so far (`answered`) and how many times `completion_cbk` has been called.

`call_count`, `op_ret`, the sizes and the offset are integers: the C types are
`int`, `int32_t`, `size_t` and `off_t`, and the runs considered stay within
their ranges.  An array of `child_count` entries is a list read with a default
(`0`, `false`, no xattr) past its end.
-/

namespace AfrSelfHealData

/-! ## Requests and replies -/

/-- The `l_type` of the `struct flock` passed to `inodelk`. -/
inductive LockType where
  | F_WRLCK
  | F_UNLCK
  deriving DecidableEq

/-- The file operations this file winds to a child, with the arguments that
vary.  `open_` stands for `fops->open`. -/
inductive Fop where
  | lookup
  | stat
  | inodelk (l_type : LockType)
  | open_
  | readv (size : Int) (offset : Int)
  | writev (vector : List Nat) (offset : Int)
  | flush
  deriving DecidableEq

/-- One wound request: the index of the child in `priv->children` and the
operation.  In this file the operation determines the callback. -/
structure Request where
  child : Nat
  fop : Fop
  deriving DecidableEq

/-- What a child hands to the callback: `op_ret`, the xattr dictionary of a
lookup (the data-pending counters, one per replica, `none` for a null
dictionary), `st_blksize` and `st_size` of a stat, the bytes of a readv. -/
structure Response where
  op_ret : Int
  xattr : Option (List Int)
  st_blksize : Int
  st_size : Int
  vector : List Nat

/-! ## The frame -/

/-- The state of one heal: `priv->child_count`, `local->child_up`,
`local->call_count`, the fields of `local->self_heal`, and the observations. -/
structure Frame where
  child_count : Nat
  child_up : List Bool
  call_count : Int
  xattr : List (Option (List Int))
  pending_matrix : List (List Int)
  sources : List Int
  source : Int
  file_size : Int
  block_size : Int
  offset : Int
  healing_fd : Bool
  outstanding : List Request
  trace : List Request
  answered : List (Request × Int)
  completions : Nat
  cleanups : Nat
  fault : Bool

/-- The frame the caller prepares: `child_up`, an allocated `sources` vector
with the contents the caller left in it, no xattr yet, a zeroed matrix. -/
def Frame.fresh (child_count : Nat) (child_up : List Bool) (sources : List Int) : Frame :=
  { child_count := child_count
    child_up := child_up
    call_count := 0
    xattr := List.replicate child_count none
    pending_matrix := List.replicate child_count (List.replicate child_count 0)
    sources := sources
    source := 0
    file_size := 0
    block_size := 0
    offset := 0
    healing_fd := false
    outstanding := []
    trace := []
    answered := []
    completions := 0
    cleanups := 0
    fault := false }

/-! ## Helpers of `afr-self-heal-common.c` and `afr.c` -/

/-- Modelled from the spec: `up_children_count` is not in this file; the join
counter of the probe "is initialised to the count of up children". -/
def up_children_count (child_count : Nat) (child_up : List Bool) : Int :=
  (((List.range child_count).filter fun i => child_up.getD i false).length : Int)

/-- Modelled from the spec: `afr_sh_sink_count` is not in this file; a sink is
a replica with `sources[i] = 0` and the counters are "1 + (number of sinks)". -/
def afr_sh_sink_count (sources : List Int) (child_count : Nat) : Int :=
  (((List.range child_count).filter fun i => sources.getD i 0 == 0).length : Int)

/-- Modelled from the spec: `afr_sh_select_source` is not in this file; the
election chooses "the lowest-indexed candidate" and the source is -1 if there
is none. -/
def afr_sh_select_source (sources : List Int) (child_count : Nat) : Int :=
  match (List.range child_count).find? fun i => sources.getD i 0 != 0 with
  | some i => (i : Int)
  | none => -1

/-- Modelled from the spec: `afr_sh_build_pending_matrix` is not in this file;
row i holds the counters replica i has recorded against each replica j, and a
replica whose xattr is absent contributes an all-zero row. -/
def afr_sh_build_pending_matrix (xattr : List (Option (List Int))) (child_count : Nat) :
    List (List Int) :=
  (List.range child_count).map fun i =>
    match xattr.getD i none with
    | some pending => (List.range child_count).map fun j => pending.getD j 0
    | none => List.replicate child_count 0

/-- Modelled from the spec: `afr_sh_is_matrix_zero` is not in this file; it
tells whether "the entire matrix is zero". -/
def afr_sh_is_matrix_zero (pending_matrix : List (List Int)) (child_count : Nat) : Bool :=
  (List.range child_count).all fun i =>
    (List.range child_count).all fun j => (pending_matrix.getD i []).getD j 0 == 0

/-! ## Winding -/

/-- Requests wound, in order, to the children of `idxs` (indices below
`child_count`), all with the same operation. -/
def wind_children (s : Frame) (idxs : List Nat) (fop : Fop) : Frame :=
  { s with
    outstanding := s.outstanding ++ idxs.map fun i => Request.mk i fop
    trace := s.trace ++ idxs.map fun i => Request.mk i fop }

/-- A wind to `priv->children[source]`.  With `source` outside the array the C
code reads a pointer that is not there: the frame is marked faulty and nothing
is wound. -/
def wind_source (s : Frame) (source : Int) (fop : Fop) : Frame :=
  if 0 ≤ source ∧ source < (s.child_count : Int) then
    wind_children s [source.toNat] fop
  else
    { s with fault := true }

/-- The shape shared by the loops of `sh_unlock_inode`, `sh_close_fds`,
`sh_read_cbk` and `sh_open_source_and_sinks`:
`for (i ...) { if (pred i) { wind; call_count--; } if (call_count == 0) break; }`.
Returns the indices wound; `k` counts the iterations left. -/
def wind_loop (pred : Nat → Bool) : Nat → Nat → Int → List Nat
  | 0, _, _ => []
  | k + 1, i, call_count =>
    if pred i then
      i :: (if call_count - 1 = 0 then [] else wind_loop pred k (i + 1) (call_count - 1))
    else
      (if call_count = 0 then [] else wind_loop pred k (i + 1) call_count)

/-- The test `(i == source) || (sources[i] == 0)` of the fan-outs. -/
def is_target (s : Frame) (i : Nat) : Bool :=
  ((i : Int) == s.source) || (s.sources.getD i 0 == 0)

/-- The test `sources[i] == 0` of the write fan-out. -/
def is_sink (s : Frame) (i : Nat) : Bool :=
  s.sources.getD i 0 == 0

/-! ## The functions of `afr-self-heal-data.c` -/

/-- The caller's `sh->completion_cbk (frame, this)`. -/
def completion_cbk (s : Frame) : Frame :=
  { s with completions := s.completions + 1 }

/-- Releases the matrix rows, the xattr dictionaries, the heal descriptor and
the sources vector, then calls the completion function.  The release is
counted in `cleanups` and the values stay in the record: a frame with
`cleanups = 0` is a context that has not been released.  Past a release the C
code that carries on (as `sh_open_source_and_sinks_cbk` does after a failed
open) reads freed memory, and a second call frees it twice; of a frame with
`cleanups ≠ 0` the model gives the control flow only, as it would be if the
freed memory still read as before. -/
def sh_cleanup_and_terminate (s : Frame) : Frame :=
  completion_cbk { s with cleanups := s.cleanups + 1 }

def sh_unlock_inode_cbk (s : Frame) (_child_index : Nat) (_r : Response) : Frame :=
  let call_count := s.call_count - 1
  let s := { s with call_count := call_count }
  if call_count = 0 then sh_cleanup_and_terminate s else s

def sh_unlock_inode (s : Frame) : Frame :=
  let call_count := afr_sh_sink_count s.sources s.child_count + 1
  let s := { s with call_count := call_count }
  wind_children s (wind_loop (is_target s) s.child_count 0 call_count)
    (Fop.inodelk LockType.F_UNLCK)

def sh_erase_pending (s : Frame) : Frame :=
  sh_unlock_inode s

def sh_close_fds_cbk (s : Frame) (_child_index : Nat) (_r : Response) : Frame :=
  let call_count := s.call_count - 1
  let s := { s with call_count := call_count }
  if call_count = 0 then sh_erase_pending s else s

def sh_close_fds (s : Frame) : Frame :=
  let call_count := afr_sh_sink_count s.sources s.child_count + 1
  let s := { s with call_count := call_count }
  wind_children s (wind_loop (is_target s) s.child_count 0 call_count) Fop.flush

def sh_read_write (s : Frame) : Frame :=
  wind_source s s.source (Fop.readv s.block_size s.offset)

def sh_write_cbk (s : Frame) (_child_index : Nat) (_r : Response) : Frame :=
  let call_count := s.call_count - 1
  let s := { s with call_count := call_count }
  if call_count = 0 then
    if s.offset < s.file_size then sh_read_write s else sh_close_fds s
  else s

def sh_read_cbk (s : Frame) (_child_index : Nat) (r : Response) : Frame :=
  let call_count := afr_sh_sink_count s.sources s.child_count
  let s := { s with call_count := call_count }
  let offset := s.offset
  let s := { s with offset := s.offset + r.op_ret }
  wind_children s (wind_loop (is_sink s) s.child_count 0 call_count)
    (Fop.writev r.vector offset)

def sh_open_source_and_sinks_cbk (s : Frame) (_child_index : Nat) (r : Response) : Frame :=
  let s := if r.op_ret = -1 then sh_cleanup_and_terminate s else s
  let s := if r.op_ret = 0 ∧ s.healing_fd = false then { s with healing_fd := true } else s
  let s := { s with call_count := s.call_count - 1 }
  if s.call_count = 0 then sh_read_write s else s

def sh_open_source_and_sinks (s : Frame) : Frame :=
  let call_count := afr_sh_sink_count s.sources s.child_count + 1
  let s := { s with call_count := call_count }
  wind_children s (wind_loop (is_target s) s.child_count 0 call_count) Fop.open_

def sh_lock_inode_cbk (s : Frame) (_child_index : Nat) (_r : Response) : Frame :=
  let s := { s with call_count := s.call_count - 1 }
  if s.call_count = 0 then sh_open_source_and_sinks s else s

def sh_lock_inode (s : Frame) : Frame :=
  let call_count := afr_sh_sink_count s.sources s.child_count + 1
  let s := { s with call_count := call_count }
  wind_children s ((List.range s.child_count).filter (is_target s))
    (Fop.inodelk LockType.F_WRLCK)

def sh_source_stat_cbk (s : Frame) (r : Response) : Frame :=
  if r.op_ret = -1 then
    sh_cleanup_and_terminate s
  else
    sh_lock_inode { s with block_size := r.st_blksize, file_size := r.st_size }

def sh_get_source_stat (s : Frame) (source : Int) : Frame :=
  wind_source s source Fop.stat

def sh_sync_source_and_sinks (s : Frame) (sources : List Int) : Frame :=
  let s := { s with source := afr_sh_select_source sources s.child_count }
  sh_get_source_stat s s.source

def sh_do_data_self_heal (s : Frame) : Frame :=
  let nsources : Int := -1
  let s := { s with pending_matrix := afr_sh_build_pending_matrix s.xattr s.child_count }
  if afr_sh_is_matrix_zero s.pending_matrix s.child_count then
    completion_cbk s
  else if nsources = 0 then
    completion_cbk s
  else
    sh_sync_source_and_sinks s s.sources

def afr_inode_data_self_heal_lookup_cbk (s : Frame) (child_index : Nat) (r : Response) :
    Frame :=
  let call_count := s.call_count - 1
  let s := { s with call_count := call_count }
  let s := if r.op_ret ≠ -1 then { s with xattr := s.xattr.set child_index r.xattr } else s
  if call_count = 0 then sh_do_data_self_heal s else s

def afr_self_heal_data (s : Frame) : Frame :=
  let s := { s with call_count := up_children_count s.child_count s.child_up }
  wind_children s ((List.range s.child_count).filter fun i => s.child_up.getD i false)
    Fop.lookup

/-! ## Answering requests -/

/-- The callback registered by the wind of `req`, run on the reply `r`. -/
def callback (s : Frame) (req : Request) (r : Response) : Frame :=
  match req.fop with
  | Fop.lookup => afr_inode_data_self_heal_lookup_cbk s req.child r
  | Fop.stat => sh_source_stat_cbk s r
  | Fop.inodelk LockType.F_WRLCK => sh_lock_inode_cbk s req.child r
  | Fop.inodelk LockType.F_UNLCK => sh_unlock_inode_cbk s req.child r
  | Fop.open_ => sh_open_source_and_sinks_cbk s req.child r
  | Fop.readv _ _ => sh_read_cbk s req.child r
  | Fop.writev _ _ => sh_write_cbk s req.child r
  | Fop.flush => sh_close_fds_cbk s req.child r

/-- One of the requests in flight is answered with `r`: the one at position
`k` modulo their number, so that every `k` picks one and every order of replies
is some sequence of picks.  With nothing in flight, or in a faulty frame,
nothing happens. -/
def deliver (s : Frame) (k : Nat) (r : Response) : Frame :=
  if s.fault then s
  else
    match s.outstanding[k % s.outstanding.length]? with
    | none => s
    | some req =>
      callback
        { s with
          outstanding := s.outstanding.eraseIdx (k % s.outstanding.length)
          answered := s.answered ++ [(req, r.op_ret)] }
        req r

/-- A run: the replies of `sched` delivered one after the other. -/
def run (s : Frame) (sched : List (Nat × Response)) : Frame :=
  sched.foldl (fun s e => deliver s e.1 e.2) s

/-- The children that were sent a request satisfying `p`, in order. -/
def children_of (p : Fop → Bool) (trace : List Request) : List Nat :=
  (trace.filter fun req => p req.fop).map Request.child

/-- The replicas the fan-outs of lock, open, flush and unlock address. -/
def targets (s : Frame) : List Nat :=
  (List.range s.child_count).filter (is_target s)

/-- The replicas the write fan-out addresses. -/
def sinks (s : Frame) : List Nat :=
  (List.range s.child_count).filter (is_sink s)


/-! ## Observations on a run -/

/-- The write-lock request of `sh_lock_inode`. -/
def Fop.is_wrlck : Fop → Bool
  | Fop.inodelk LockType.F_WRLCK => true
  | _ => false

/-- The unlock request of `sh_unlock_inode`. -/
def Fop.is_unlck : Fop → Bool
  | Fop.inodelk LockType.F_UNLCK => true
  | _ => false

def Fop.is_open : Fop → Bool
  | Fop.open_ => true
  | _ => false

def Fop.is_flush : Fop → Bool
  | Fop.flush => true
  | _ => false

def Fop.is_lookup : Fop → Bool
  | Fop.lookup => true
  | _ => false

def Fop.is_stat : Fop → Bool
  | Fop.stat => true
  | _ => false

def Fop.is_readv : Fop → Bool
  | Fop.readv _ _ => true
  | _ => false

def Fop.is_writev : Fop → Bool
  | Fop.writev _ _ => true
  | _ => false

/-- The number of open requests answered with `op_ret = -1`. -/
def open_failures (answered : List (Request × Int)) : Nat :=
  (answered.filter fun e => e.1.fop.is_open && (e.2 == -1)).length

/-- Whether a stat request was answered with `op_ret = -1`. -/
def stat_failed (answered : List (Request × Int)) : Bool :=
  answered.any fun e => e.1.fop.is_stat && (e.2 == -1)

/-- The lookups of the probe: one per replica that is up, in index order. -/
def lookups (child_count : Nat) (child_up : List Bool) : List Request :=
  ((List.range child_count).filter fun i => child_up.getD i false).map
    fun i => Request.mk i Fop.lookup

/-- The start of a run: `afr_self_heal_data` on the frame the caller prepared. -/
def start (child_count : Nat) (child_up : List Bool) (sources : List Int) : Frame :=
  afr_self_heal_data (Frame.fresh child_count child_up sources)

/-- The replicas selected by `(i == source) || (sources[i] == 0)`. -/
def targets_of (n : Nat) (sources : List Int) (source : Int) : List Nat :=
  (List.range n).filter fun i => ((i : Int) == source) || (sources.getD i 0 == 0)

/-- The replicas selected by `sources[i] == 0`. -/
def sinks_of (n : Nat) (sources : List Int) : List Nat :=
  (List.range n).filter fun i => sources.getD i 0 == 0

/-! ## Where a run stands -/

/-- The stages a run passes through.  `idle`: no replica was up and nothing was
wound.  `noop`: the matrix was zero.  `faulted`: no source could be elected and
the stat was wound to `children[-1]`.  `aborted`: the stat failed.  `stalled`:
a read was answered and there is no sink to write to.  `done`: the unlock
fan-out has joined. -/
inductive Phase where
  | idle | probe | noop | faulted | sizer | aborted | lock | opening
  | reading | writing | stalled | flushing | unlocking | done
  deriving DecidableEq

/-- The kind of request in flight during a phase. -/
def Phase.expects : Phase → Fop → Bool
  | Phase.probe, f => f.is_lookup
  | Phase.sizer, f => f.is_stat
  | Phase.lock, f => f.is_wrlck
  | Phase.opening, f => f.is_open
  | Phase.reading, f => f.is_readv
  | Phase.writing, f => f.is_writev
  | Phase.flushing, f => f.is_flush
  | Phase.unlocking, f => f.is_unlck
  | _, _ => false

/-- The phases that wait for a fan-out to join on `call_count`. -/
def Phase.joins : Phase → Bool
  | Phase.probe | Phase.lock | Phase.opening | Phase.writing | Phase.flushing
  | Phase.unlocking => true
  | _ => false

/-- The phases that wait for the single reply of the source. -/
def Phase.single : Phase → Bool
  | Phase.sizer | Phase.reading => true
  | _ => false

/-- The phases in which a source has been elected and is a replica. -/
def Phase.elected : Phase → Bool
  | Phase.idle | Phase.probe | Phase.noop | Phase.faulted => false
  | _ => true

def Phase.locked : Phase → Bool
  | Phase.lock | Phase.opening | Phase.reading | Phase.writing | Phase.stalled
  | Phase.flushing | Phase.unlocking | Phase.done => true
  | _ => false

def Phase.opened : Phase → Bool
  | Phase.opening | Phase.reading | Phase.writing | Phase.stalled
  | Phase.flushing | Phase.unlocking | Phase.done => true
  | _ => false

def Phase.flushed : Phase → Bool
  | Phase.flushing | Phase.unlocking | Phase.done => true
  | _ => false

def Phase.unlocked : Phase → Bool
  | Phase.unlocking | Phase.done => true
  | _ => false

/-- The calls of `completion_cbk` that do not come from a failed open. -/
def Phase.finished : Phase → Nat
  | Phase.noop | Phase.aborted | Phase.done => 1
  | _ => 0

/-- What holds of the frame in each phase of a run started on `n` replicas
with `up` and the caller's `src`. -/
structure PhaseFacts (n : Nat) (up : List Bool) (src : List Int) (ph : Phase) (s : Frame) :
    Prop where
  h_count : s.child_count = n
  h_src : s.sources = src
  h_fault : s.fault = decide (ph = Phase.faulted)
  h_kind : ∀ req ∈ s.outstanding, ph.expects req.fop = true
  h_join : ph.joins = true → s.call_count = (s.outstanding.length : Int) ∧ 0 < s.outstanding.length
  h_single : ph.single = true → s.outstanding.length = 1
  h_source : ph.elected = true →
    s.source = afr_sh_select_source src n ∧ 0 ≤ s.source
  h_lock : children_of Fop.is_wrlck s.trace =
    if ph.locked then targets_of n src (afr_sh_select_source src n) else []
  h_open : children_of Fop.is_open s.trace =
    if ph.opened then targets_of n src (afr_sh_select_source src n) else []
  h_flush : children_of Fop.is_flush s.trace =
    if ph.flushed then targets_of n src (afr_sh_select_source src n) else []
  h_unlck : children_of Fop.is_unlck s.trace =
    if ph.unlocked then targets_of n src (afr_sh_select_source src n) else []
  h_compl : s.completions = open_failures s.answered + ph.finished
  h_statf : stat_failed s.answered = decide (ph = Phase.aborted)
  h_nofail : ph.opened = false → open_failures s.answered = 0
  h_probe : ph.elected = false → s.trace = lookups n up
  h_stat : ph = Phase.sizer ∨ ph = Phase.aborted →
    s.trace = lookups n up ++ [Request.mk s.source.toNat Fop.stat]
  h_zero : ph = Phase.noop → afr_sh_is_matrix_zero s.pending_matrix n = true
  h_nonzero : ph.elected = true ∨ ph = Phase.faulted →
    afr_sh_is_matrix_zero s.pending_matrix n = false
  h_idle : ph = Phase.idle → lookups n up = []

/-! ## Replies used in the concrete runs -/

/-- A reply with `op_ret = 0` and nothing else. -/
def Response.ok : Response :=
  { op_ret := 0, xattr := none, st_blksize := 0, st_size := 0, vector := [] }

/-- A reply with `op_ret = -1`. -/
def Response.failed : Response :=
  { op_ret := -1, xattr := none, st_blksize := 0, st_size := 0, vector := [] }

/-- A successful lookup reply carrying the data-pending counters `pending`. -/
def Response.lookup_ok (pending : List Int) : Response :=
  { op_ret := 0, xattr := some pending, st_blksize := 0, st_size := 0, vector := [] }

/-- A successful stat reply. -/
def Response.stat_ok (st_blksize st_size : Int) : Response :=
  { op_ret := 0, xattr := none, st_blksize := st_blksize, st_size := st_size, vector := [] }

/-- A successful readv reply returning the bytes `vector`. -/
def Response.read_ok (vector : List Nat) : Response :=
  { op_ret := (vector.length : Int), xattr := none, st_blksize := 0, st_size := 0,
    vector := vector }

/-! ## One fan-out -/

/-- What holds of a frame `s` while the fan-out that began in frame `s0` is
being answered: the requests in flight are all of the kind `K` of the fan-out
and `call_count` counts them; what the fan-outs read is as it was in `s0`;
nothing has been wound since; and `completion_cbk` has been called once for
every open answered with -1 since. -/
structure Joining (K : Fop → Bool) (s0 s : Frame) : Prop where
  j_fault : s.fault = false
  j_kind : ∀ req ∈ s.outstanding, K req.fop = true
  j_count : s.call_count = (s.outstanding.length : Int)
  j_nodes : s.child_count = s0.child_count
  j_sources : s.sources = s0.sources
  j_source : s.source = s0.source
  j_block : s.block_size = s0.block_size
  j_size : s.file_size = s0.file_size
  j_offset : s.offset = s0.offset
  j_trace : s.trace = s0.trace
  j_compl : s.completions + open_failures s0.answered
    = s0.completions + open_failures s.answered
  j_fails : K Fop.open_ = false → open_failures s.answered = open_failures s0.answered

/-- The fan-out in flight in `s` joins on its last reply and not before.
`call_count` is the number of requests in flight; while fewer replies than
that have been delivered, in any order and whatever they are, nothing is wound
and `call_count` is the number still unanswered; and, when the fan-out is not
empty, the reply that answers the last of them winds exactly `next`. -/
def JoinsOnLast (s : Frame) (next : List Request) : Prop :=
  s.call_count = (s.outstanding.length : Int) ∧
  (∀ sched : List (Nat × Response), sched.length < s.outstanding.length →
    (run s sched).trace = s.trace ∧
    (run s sched).call_count = s.call_count - (sched.length : Int)) ∧
  (∀ sched : List (Nat × Response), sched.length = s.outstanding.length →
    s.outstanding ≠ [] →
    (run s sched).trace = s.trace ++ next ∧ (run s sched).outstanding = next)

/-- The fan-out in flight in `s` joins on its last reply and not before, in a
context that has not been released (`cleanups = 0`), the callbacks being run
one at a time and every reply being one of `allowed`.  `call_count` is the
number of requests in flight; while fewer replies than that have been
delivered, in any order, nothing is wound, `call_count` is the number still
unanswered, `completion_cbk` is not called and nothing is released; and, when
the fan-out is not empty, the reply that answers the last of them winds exactly
`next`, calling `sh_cleanup_and_terminate` (and through it `completion_cbk`)
`finishes` times. -/
def JoinsQuietly (s : Frame) (next : List Request) (allowed : Response → Prop)
    (finishes : Nat) : Prop :=
  s.cleanups = 0 ∧
  s.call_count = (s.outstanding.length : Int) ∧
  (∀ sched : List (Nat × Response), (∀ e ∈ sched, allowed e.2) →
    sched.length < s.outstanding.length →
    (run s sched).trace = s.trace ∧
    (run s sched).call_count = s.call_count - (sched.length : Int) ∧
    (run s sched).completions = s.completions ∧
    (run s sched).cleanups = 0) ∧
  (∀ sched : List (Nat × Response), (∀ e ∈ sched, allowed e.2) →
    sched.length = s.outstanding.length → s.outstanding ≠ [] →
    (run s sched).trace = s.trace ++ next ∧ (run s sched).outstanding = next ∧
    (run s sched).completions = s.completions + finishes ∧
    (run s sched).cleanups = finishes)

/-- Any reply. -/
def any_reply (_r : Response) : Prop := True

/-- A reply that does not report a failure: `op_ret` is not -1. -/
def not_failed (r : Response) : Prop := r.op_ret ≠ -1

/-! ## Frames used in the concrete statements -/

/-- The short-read example: two replicas, replica 0 the source and replica 1 a
sink, a file of 10000 bytes read in blocks of 4096, the first readv in flight. -/
def short_read_frame : Frame :=
  sh_read_write { Frame.fresh 2 [true, true] [1, 0] with file_size := 10000, block_size := 4096 }

/-- Three replicas with sources {1,1,0}, replica 0 elected, nothing in flight. -/
def elected_frame : Frame :=
  { Frame.fresh 3 [true, true, true] [1, 1, 0] with file_size := 10000, block_size := 4096 }

/-! ## The backend of the copy: files as byte sequences -/

/-- The heal together with the files of the replicas, by replica index. -/
structure World where
  frame : Frame
  files : Nat → List Nat

/-- A writev that succeeds: the bytes of `vector` placed at `offset` over what
was there, the file growing as needed (a gap before `offset` reads as zeros). -/
def overwrite (file : List Nat) (offset : Nat) (vector : List Nat) : List Nat :=
  file.take offset ++ List.replicate (offset - file.length) 0 ++ vector
    ++ file.drop (offset + vector.length)

/-- A readv that succeeds: at an offset before the end of the file, between 1
and `size` of the bytes that start at `offset` (`pick` chooses how many, so a
read may be short); elsewhere no bytes. -/
def read_bytes (file : List Nat) (size offset : Int) (pick : Nat) : List Nat :=
  if 0 ≤ offset ∧ 0 < size ∧ offset < (file.length : Int) then
    (file.drop offset.toNat).take
      (1 + pick % min size.toNat (file.length - offset.toNat))
  else []

/-- The reply of the backend to a request, and the files after it: a readv
returns bytes of the file of the child it was wound to, a writev overwrites
that file and returns the number of bytes written, every other request
succeeds and changes no file. -/
def backend_reply (files : Nat → List Nat) (req : Request) (pick : Nat) :
    Response × (Nat → List Nat) :=
  match req.fop with
  | Fop.readv size offset =>
    ({ op_ret := ((read_bytes (files req.child) size offset pick).length : Int)
       xattr := none, st_blksize := 0, st_size := 0
       vector := read_bytes (files req.child) size offset pick }, files)
  | Fop.writev vector offset =>
    ({ op_ret := (vector.length : Int), xattr := none, st_blksize := 0, st_size := 0
       vector := [] },
      fun i => if i = req.child then overwrite (files i) offset.toNat vector else files i)
  | _ => (Response.ok, files)

/-- One step of the heal against the backend: the request in flight at
position `k` modulo their number is served and its reply delivered. -/
def World.step (w : World) (k pick : Nat) : World :=
  if w.frame.fault then w
  else
    match w.frame.outstanding[k % w.frame.outstanding.length]? with
    | none => w
    | some req =>
      { frame := deliver w.frame k (backend_reply w.files req pick).1
        files := (backend_reply w.files req pick).2 }

/-- The steps chosen by `choices`, one after the other. -/
def World.run (w : World) (choices : List (Nat × Nat)) : World :=
  choices.foldl (fun w c => w.step c.1 c.2) w

/-- The first `t` choices of an unending sequence of choices. -/
def first_choices (ch : Nat → Nat × Nat) (t : Nat) : List (Nat × Nat) :=
  (List.range t).map ch

/-- The file of a sink once the first `o` bytes of the source `src` have been
copied over its initial content `old`. -/
def copied (src old : List Nat) (o : Nat) : List Nat :=
  src.take o ++ old.drop o

/-- Where a copy stands, with a bound `m` on the steps it still takes.  The
copy began in frame `f` with the files `files0`; `src` is the source file. -/
inductive Copying (f : Frame) (files0 : Nat → List Nat) : World → Nat → Prop
  | reading (w : World) (m o : Nat)
      (h_out : w.frame.outstanding
        = [Request.mk f.source.toNat (Fop.readv f.block_size (o : Int))])
      (h_off : w.frame.offset = (o : Int))
      (h_le : o ≤ (files0 f.source.toNat).length)
      (h_fault : w.frame.fault = false)
      (h_nodes : w.frame.child_count = f.child_count)
      (h_sources : w.frame.sources = f.sources)
      (h_source : w.frame.source = f.source)
      (h_block : w.frame.block_size = f.block_size)
      (h_size : w.frame.file_size = f.file_size)
      (h_compl : w.frame.completions = f.completions)
      (h_files : ∀ i, w.files i =
        if i ∈ sinks f then copied (files0 f.source.toNat) (files0 i) o else files0 i)
      (h_m : m = 2 * (targets f).length
        + ((files0 f.source.toNat).length - o) * ((sinks f).length + 1)
        + (sinks f).length + 1) :
      Copying f files0 w m
  | writing (w : World) (m o : Nat) (v : List Nat)
      (h_kind : ∀ req ∈ w.frame.outstanding,
        req.fop = Fop.writev v (o : Int) ∧ req.child ∈ sinks f)
      (h_nodup : w.frame.outstanding.Nodup)
      (h_ne : w.frame.outstanding ≠ [])
      (h_few : w.frame.outstanding.length ≤ (sinks f).length)
      (h_count : w.frame.call_count = (w.frame.outstanding.length : Int))
      (h_off : w.frame.offset = ((o + v.length : Nat) : Int))
      (h_le : o + v.length ≤ (files0 f.source.toNat).length)
      (h_some : o < (files0 f.source.toNat).length → 1 ≤ v.length)
      (h_v : v = ((files0 f.source.toNat).drop o).take v.length)
      (h_fault : w.frame.fault = false)
      (h_nodes : w.frame.child_count = f.child_count)
      (h_sources : w.frame.sources = f.sources)
      (h_source : w.frame.source = f.source)
      (h_block : w.frame.block_size = f.block_size)
      (h_size : w.frame.file_size = f.file_size)
      (h_compl : w.frame.completions = f.completions)
      (h_files : ∀ i, w.files i =
        if i ∈ sinks f then
          (if Request.mk i (Fop.writev v (o : Int)) ∈ w.frame.outstanding then
            copied (files0 f.source.toNat) (files0 i) o
          else copied (files0 f.source.toNat) (files0 i) (o + v.length))
        else files0 i)
      (h_m : m = 2 * (targets f).length
        + ((files0 f.source.toNat).length - o) * ((sinks f).length + 1)
        + w.frame.outstanding.length) :
      Copying f files0 w m
  | flushing (w : World) (m : Nat)
      (h_kind : ∀ req ∈ w.frame.outstanding, req.fop = Fop.flush)
      (h_ne : w.frame.outstanding ≠ [])
      (h_few : w.frame.outstanding.length ≤ (targets f).length)
      (h_count : w.frame.call_count = (w.frame.outstanding.length : Int))
      (h_fault : w.frame.fault = false)
      (h_nodes : w.frame.child_count = f.child_count)
      (h_sources : w.frame.sources = f.sources)
      (h_source : w.frame.source = f.source)
      (h_compl : w.frame.completions = f.completions)
      (h_files : ∀ i, w.files i =
        if i ∈ sinks f then
          copied (files0 f.source.toNat) (files0 i) (files0 f.source.toNat).length
        else files0 i)
      (h_m : m = (targets f).length + w.frame.outstanding.length) :
      Copying f files0 w m
  | unlocking (w : World) (m : Nat)
      (h_kind : ∀ req ∈ w.frame.outstanding, req.fop = Fop.inodelk LockType.F_UNLCK)
      (h_ne : w.frame.outstanding ≠ [])
      (h_count : w.frame.call_count = (w.frame.outstanding.length : Int))
      (h_fault : w.frame.fault = false)
      (h_compl : w.frame.completions = f.completions)
      (h_files : ∀ i, w.files i =
        if i ∈ sinks f then
          copied (files0 f.source.toNat) (files0 i) (files0 f.source.toNat).length
        else files0 i)
      (h_m : m = w.frame.outstanding.length) :
      Copying f files0 w m
  | finished (w : World) (m : Nat)
      (h_out : w.frame.outstanding = [])
      (h_compl : w.frame.completions = f.completions + 1)
      (h_files : ∀ i, w.files i =
        if i ∈ sinks f then
          copied (files0 f.source.toNat) (files0 i) (files0 f.source.toNat).length
        else files0 i)
      (h_m : m = 0) :
      Copying f files0 w m

/-- The copy example: two replicas, replica 0 the source with a file of 2
bytes, replica 1 a sink, blocks of 4 bytes, nothing in flight. -/
def copy_frame : Frame :=
  { Frame.fresh 2 [true, true] [1, 0] with file_size := 2, block_size := 4 }

/-- The files of the copy example: the source holds 2 bytes, the sink 3. -/
def copy_files : Nat → List Nat :=
  fun i => if i = 0 then [1, 2] else [9, 9, 9]
/-! ## The loops wind to the replicas their test selects -/

theorem wind_loop_eq_filter (pred : Nat → Bool) :
    ∀ (k i : Nat) (c : Int), (((List.range' i k).filter pred).length : Int) ≤ c →
      wind_loop pred k i c = (List.range' i k).filter pred := by
  intro k
  induction k with
  | zero => intro i c _; simp [wind_loop]
  | succ k ih =>
    intro i c h
    rw [List.range'_succ] at h ⊢
    by_cases hp : pred i = true
    · simp only [wind_loop, hp, if_true, List.filter_cons_of_pos] at h ⊢
      simp only [List.length_cons, Nat.cast_add, Nat.cast_one] at h
      by_cases hc : c - 1 = 0
      · have h0 : ((List.range' (i + 1) k).filter pred).length = 0 := by omega
        simp [hc, List.length_eq_zero.mp h0]
      · simp only [hc, if_false]
        rw [ih (i + 1) (c - 1) (by omega)]
    · have hp2 : pred i = false := by simpa using hp
      simp only [wind_loop, hp2, List.filter_cons, Bool.false_eq_true, if_false] at h ⊢
      by_cases hc : c = 0
      · have h0 : ((List.range' (i + 1) k).filter pred).length = 0 := by omega
        simp [hc, List.length_eq_zero.mp h0]
      · simp only [hc, if_false]
        exact ih (i + 1) c h

theorem filter_or_length_le (a : Nat) (q : Nat → Bool) :
    ∀ l : List Nat, l.Nodup →
      (l.filter fun (i : Nat) => ((i : Int) == (a : Int)) || q i).length ≤ (l.filter q).length + 1 ∧
      (a ∉ l → (l.filter fun (i : Nat) => ((i : Int) == (a : Int)) || q i) = l.filter q) := by
  intro l
  induction l with
  | nil => intro _; simp
  | cons x l ih =>
    intro hnd
    obtain ⟨hx, hl⟩ := List.nodup_cons.mp hnd
    obtain ⟨ih1, ih2⟩ := ih hl
    by_cases hxa : x = a
    · subst hxa
      have := ih2 hx
      constructor
      · simp only [List.filter_cons, beq_self_eq_true, Bool.true_or, if_true, List.length_cons,
          this]
        by_cases hq : q x = true <;> simp [hq]
      · intro hmem; simp at hmem
    · have hne : ((x : Int) == (a : Int)) = false := by
        simp only [beq_eq_false_iff_ne, ne_eq, Nat.cast_inj]; exact hxa
      constructor
      · simp only [List.filter_cons, hne, Bool.false_or]
        by_cases hq : q x = true
        · simp only [hq, if_true, List.length_cons]; omega
        · simp only [hq, Bool.false_eq_true, if_false]; exact ih1
      · intro hmem
        have hal : a ∉ l := fun h => hmem (List.mem_cons_of_mem _ h)
        simp only [List.filter_cons, hne, Bool.false_or, ih2 hal]

theorem filter_or_length_eq (a : Nat) (q : Nat → Bool) (hq : q a = false) :
    ∀ l : List Nat, l.Nodup → a ∈ l →
      (l.filter fun (i : Nat) => ((i : Int) == (a : Int)) || q i).length = (l.filter q).length + 1 := by
  intro l
  induction l with
  | nil => intro _ h; simp at h
  | cons x l ih =>
    intro hnd hmem
    obtain ⟨hx, hl⟩ := List.nodup_cons.mp hnd
    by_cases hxa : x = a
    · subst hxa
      have := (filter_or_length_le x q l hl).2 hx
      simp [List.filter_cons, hq, this]
    · have hne : ((x : Int) == (a : Int)) = false := by
        simp only [beq_eq_false_iff_ne, ne_eq, Nat.cast_inj]; exact hxa
      have hal : a ∈ l := by
        rcases List.mem_cons.mp hmem with h | h
        · exact absurd h.symm hxa
        · exact h
      simp only [List.filter_cons, hne, Bool.false_or]
      by_cases hqx : q x = true
      · simp only [hqx, if_true, List.length_cons, ih hl hal]
      · simp only [hqx, Bool.false_eq_true, if_false, ih hl hal]

theorem sink_count_eq (s : Frame) :
    afr_sh_sink_count s.sources s.child_count = ((sinks s).length : Int) := by
  rfl

theorem targets_length_le (s : Frame) : (targets s).length ≤ (sinks s).length + 1 := by
  unfold targets sinks
  by_cases h0 : 0 ≤ s.source
  · obtain ⟨a, ha⟩ := Int.eq_ofNat_of_zero_le h0
    have := (filter_or_length_le a (is_sink s) (List.range s.child_count)
      (List.nodup_range _)).1
    have he : is_target s = fun (i : Nat) => ((i : Int) == (a : Int)) || is_sink s i := by
      funext i; simp [is_target, is_sink, ha]
    rw [he]; exact this
  · have he : is_target s = is_sink s := by
      funext i
      have : ((i : Int) == s.source) = false := by
        simp only [beq_eq_false_iff_ne, ne_eq]; omega
      simp [is_target, is_sink, this]
    rw [he]; omega

theorem targets_length (s : Frame) (h0 : 0 ≤ s.source) (h1 : s.source < (s.child_count : Int))
    (h2 : s.sources.getD s.source.toNat 0 ≠ 0) :
    (targets s).length = (sinks s).length + 1 := by
  unfold targets sinks
  obtain ⟨a, ha⟩ := Int.eq_ofNat_of_zero_le h0
  have he : is_target s = fun (i : Nat) => ((i : Int) == (a : Int)) || is_sink s i := by
    funext i; simp [is_target, is_sink, ha]
  rw [he]
  apply filter_or_length_eq a (is_sink s) _ _ (List.nodup_range _)
  · rw [List.mem_range]; rw [ha] at h1; exact_mod_cast h1
  · rw [ha] at h2; simpa [is_sink] using h2

theorem loop_targets (s : Frame) :
    wind_loop (is_target s) s.child_count 0 (afr_sh_sink_count s.sources s.child_count + 1)
      = targets s := by
  rw [wind_loop_eq_filter, ← List.range_eq_range']
  · rfl
  · rw [← List.range_eq_range', sink_count_eq]
    have := targets_length_le s
    unfold targets at this
    exact_mod_cast this

theorem loop_sinks (s : Frame) :
    wind_loop (is_sink s) s.child_count 0 (afr_sh_sink_count s.sources s.child_count)
      = sinks s := by
  rw [wind_loop_eq_filter, ← List.range_eq_range']
  · rfl
  · rw [← List.range_eq_range', sink_count_eq]
    rfl

theorem select_source_valid (sources : List Int) (n : Nat)
    (h : 0 ≤ afr_sh_select_source sources n) :
    afr_sh_select_source sources n < (n : Int) ∧
      sources.getD (afr_sh_select_source sources n).toNat 0 ≠ 0 := by
  unfold afr_sh_select_source at h ⊢
  cases hf : (List.range n).find? fun i => sources.getD i 0 != 0 with
  | none => rw [hf] at h; simp at h
  | some i =>
    simp only []
    have h1 := List.mem_of_find?_eq_some hf
    have h2 := List.find?_some hf
    rw [List.mem_range] at h1
    constructor
    · exact_mod_cast h1
    · simpa using h2


theorem targets_eq (s : Frame) : targets s = targets_of s.child_count s.sources s.source := rfl

theorem sinks_eq (s : Frame) : sinks s = sinks_of s.child_count s.sources := rfl

theorem targets_of_length (n : Nat) (sources : List Int) (source : Int) (h0 : 0 ≤ source)
    (h1 : source < (n : Int)) (h2 : sources.getD source.toNat 0 ≠ 0) :
    (targets_of n sources source).length = (sinks_of n sources).length + 1 := by
  have := targets_length
    { Frame.fresh n [] sources with source := source } h0 h1 h2
  exact this

theorem elected_targets_length (n : Nat) (sources : List Int)
    (h0 : 0 ≤ afr_sh_select_source sources n) :
    (targets_of n sources (afr_sh_select_source sources n)).length
      = (sinks_of n sources).length + 1 :=
  targets_of_length n sources _ h0 (select_source_valid sources n h0).1
    (select_source_valid sources n h0).2

/-! ## The fan-outs in closed form -/

theorem sh_lock_inode_eq (s : Frame) :
    sh_lock_inode s =
      wind_children { s with call_count := ((sinks s).length : Int) + 1 } (targets s)
        (Fop.inodelk LockType.F_WRLCK) := rfl

theorem sh_open_source_and_sinks_eq (s : Frame) :
    sh_open_source_and_sinks s =
      wind_children { s with call_count := ((sinks s).length : Int) + 1 } (targets s)
        Fop.open_ := by
  show wind_children _ (wind_loop (is_target s) s.child_count 0
    (afr_sh_sink_count s.sources s.child_count + 1)) _ = _
  rw [loop_targets, sink_count_eq]

theorem sh_close_fds_eq (s : Frame) :
    sh_close_fds s =
      wind_children { s with call_count := ((sinks s).length : Int) + 1 } (targets s)
        Fop.flush := by
  show wind_children _ (wind_loop (is_target s) s.child_count 0
    (afr_sh_sink_count s.sources s.child_count + 1)) _ = _
  rw [loop_targets, sink_count_eq]

theorem sh_unlock_inode_eq (s : Frame) :
    sh_unlock_inode s =
      wind_children { s with call_count := ((sinks s).length : Int) + 1 } (targets s)
        (Fop.inodelk LockType.F_UNLCK) := by
  show wind_children _ (wind_loop (is_target s) s.child_count 0
    (afr_sh_sink_count s.sources s.child_count + 1)) _ = _
  rw [loop_targets, sink_count_eq]

theorem sh_read_cbk_eq (s : Frame) (c : Nat) (r : Response) :
    sh_read_cbk s c r =
      wind_children
        { s with call_count := ((sinks s).length : Int), offset := s.offset + r.op_ret }
        (sinks s) (Fop.writev r.vector s.offset) := by
  show wind_children _ (wind_loop (is_sink s) s.child_count 0
    (afr_sh_sink_count s.sources s.child_count)) _ = _
  rw [loop_sinks, sink_count_eq]

theorem sh_read_write_eq (s : Frame) (h0 : 0 ≤ s.source) (h1 : s.source < (s.child_count : Int)) :
    sh_read_write s =
      wind_children s [s.source.toNat] (Fop.readv s.block_size s.offset) := by
  simp [sh_read_write, wind_source, h0, h1]

theorem sh_open_source_and_sinks_cbk_eq (s : Frame) (c : Nat) (r : Response) :
    sh_open_source_and_sinks_cbk s c r =
      if s.call_count - 1 = 0 then
        sh_read_write
          { s with
            call_count := s.call_count - 1
            completions := s.completions + (if r.op_ret = -1 then 1 else 0)
            cleanups := s.cleanups + (if r.op_ret = -1 then 1 else 0)
            healing_fd := s.healing_fd || decide (r.op_ret = 0) }
      else
        { s with
          call_count := s.call_count - 1
          completions := s.completions + (if r.op_ret = -1 then 1 else 0)
          cleanups := s.cleanups + (if r.op_ret = -1 then 1 else 0)
          healing_fd := s.healing_fd || decide (r.op_ret = 0) } := by
  unfold sh_open_source_and_sinks_cbk sh_cleanup_and_terminate completion_cbk
  by_cases h1 : r.op_ret = -1
  · have h0 : ¬ r.op_ret = 0 := by omega
    simp [h1]
  · by_cases h0 : r.op_ret = 0
    · cases hfd : s.healing_fd <;> simp [h0, hfd]
    · simp [h1, h0]

theorem afr_inode_data_self_heal_lookup_cbk_eq (s : Frame) (c : Nat) (r : Response) :
    afr_inode_data_self_heal_lookup_cbk s c r =
      if s.call_count - 1 = 0 then
        sh_do_data_self_heal
          { s with
            call_count := s.call_count - 1
            xattr := if r.op_ret ≠ -1 then s.xattr.set c r.xattr else s.xattr }
      else
        { s with
          call_count := s.call_count - 1
          xattr := if r.op_ret ≠ -1 then s.xattr.set c r.xattr else s.xattr } := by
  unfold afr_inode_data_self_heal_lookup_cbk
  by_cases h1 : r.op_ret = -1 <;> simp [h1]

theorem sh_do_data_self_heal_zero (s : Frame)
    (h : afr_sh_is_matrix_zero (afr_sh_build_pending_matrix s.xattr s.child_count)
      s.child_count = true) :
    sh_do_data_self_heal s =
      completion_cbk
        { s with pending_matrix := afr_sh_build_pending_matrix s.xattr s.child_count } := by
  simp [sh_do_data_self_heal, h]

theorem sh_do_data_self_heal_nonzero (s : Frame)
    (h : afr_sh_is_matrix_zero (afr_sh_build_pending_matrix s.xattr s.child_count)
      s.child_count = false) :
    sh_do_data_self_heal s =
      wind_source
        { s with
          pending_matrix := afr_sh_build_pending_matrix s.xattr s.child_count
          source := afr_sh_select_source s.sources s.child_count }
        (afr_sh_select_source s.sources s.child_count) Fop.stat := by
  simp [sh_do_data_self_heal, h, sh_sync_source_and_sinks, sh_get_source_stat]

/-! ## One reply at a time -/

theorem deliver_of_fault (s : Frame) (k : Nat) (r : Response) (h : s.fault = true) :
    deliver s k r = s := by
  simp [deliver, h]

theorem deliver_of_quiet (s : Frame) (k : Nat) (r : Response) (h : s.outstanding = []) :
    deliver s k r = s := by
  simp [deliver, h]

theorem run_of_quiet (s : Frame) (h : s.outstanding = []) :
    ∀ sched : List (Nat × Response), run s sched = s := by
  intro sched
  induction sched with
  | nil => rfl
  | cons e rest ih =>
    simp only [run, List.foldl_cons] at ih ⊢
    rw [deliver_of_quiet s e.1 e.2 h]; exact ih

theorem run_of_fault (s : Frame) (h : s.fault = true) :
    ∀ sched : List (Nat × Response), run s sched = s := by
  intro sched
  induction sched with
  | nil => rfl
  | cons e rest ih =>
    simp only [run, List.foldl_cons] at ih ⊢
    rw [deliver_of_fault s e.1 e.2 h]; exact ih

theorem run_append (s : Frame) (a b : List (Nat × Response)) :
    run s (a ++ b) = run (run s a) b := by
  simp [run, List.foldl_append]

theorem run_snoc (s : Frame) (a : List (Nat × Response)) (k : Nat) (r : Response) :
    run s (a ++ [(k, r)]) = deliver (run s a) k r := by
  simp [run, List.foldl_append]

/-- A frame with requests in flight answers one of them: the callback runs on
the frame without that request. -/
theorem deliver_of_live (s : Frame) (k : Nat) (r : Response) (hf : s.fault = false)
    (hne : s.outstanding ≠ []) :
    ∃ req, req ∈ s.outstanding ∧
      (s.outstanding.eraseIdx (k % s.outstanding.length)).length + 1 = s.outstanding.length ∧
      deliver s k r =
        callback
          { s with
            outstanding := s.outstanding.eraseIdx (k % s.outstanding.length)
            answered := s.answered ++ [(req, r.op_ret)] }
          req r := by
  have hpos : 0 < s.outstanding.length := List.length_pos.mpr hne
  have hlt : k % s.outstanding.length < s.outstanding.length := Nat.mod_lt _ hpos
  refine ⟨s.outstanding[k % s.outstanding.length], List.getElem_mem _, ?_, ?_⟩
  · exact List.length_eraseIdx_add_one hlt
  · simp [deliver, hf, List.getElem?_eq_getElem hlt]

theorem children_of_append (p : Fop → Bool) (t : List Request) (l : List Nat) (fop : Fop) :
    children_of p (t ++ l.map fun i => Request.mk i fop)
      = children_of p t ++ if p fop then l else [] := by
  unfold children_of
  rw [List.filter_append, List.map_append]
  congr 1
  by_cases h : p fop = true
  · simp only [h, if_true]
    induction l with
    | nil => rfl
    | cons x l ih => simpa [List.filter_cons, h] using ih
  · simp only [h, Bool.false_eq_true, if_false]
    induction l with
    | nil => rfl
    | cons x l ih => simp [List.filter_cons, h]

theorem children_of_snoc (p : Fop → Bool) (t : List Request) (c : Nat) (fop : Fop) :
    children_of p (t ++ [Request.mk c fop])
      = children_of p t ++ if p fop then [c] else [] :=
  children_of_append p t [c] fop

theorem open_failures_snoc (a : List (Request × Int)) (req : Request) (v : Int) :
    open_failures (a ++ [(req, v)])
      = open_failures a + if req.fop.is_open = true ∧ v = -1 then 1 else 0 := by
  unfold open_failures
  rw [List.filter_append, List.length_append]
  congr 1
  by_cases h1 : req.fop.is_open = true <;> by_cases h2 : v = -1 <;>
    simp [List.filter_cons, h1, h2]

theorem stat_failed_snoc (a : List (Request × Int)) (req : Request) (v : Int) :
    stat_failed (a ++ [(req, v)])
      = (stat_failed a || (req.fop.is_stat && (v == -1))) := by
  unfold stat_failed
  simp [List.any_append]

set_option linter.unusedTactic false
set_option linter.unreachableTactic false

theorem targets_congr (a b : Frame) (h1 : a.child_count = b.child_count)
    (h2 : a.source = b.source) (h3 : a.sources = b.sources) : targets a = targets b := by
  unfold targets is_target
  rw [h1, h2, h3]

theorem sinks_congr (a b : Frame) (h1 : a.child_count = b.child_count)
    (h3 : a.sources = b.sources) : sinks a = sinks b := by
  unfold sinks is_sink
  rw [h1, h3]

theorem is_lookup_eq {f : Fop} (h : f.is_lookup = true) : f = Fop.lookup := by
  cases f <;> simp [Fop.is_lookup] at h ⊢

theorem is_stat_eq {f : Fop} (h : f.is_stat = true) : f = Fop.stat := by
  cases f <;> simp [Fop.is_stat] at h ⊢

theorem is_wrlck_eq {f : Fop} (h : f.is_wrlck = true) : f = Fop.inodelk LockType.F_WRLCK := by
  cases f with
  | inodelk l => cases l <;> simp [Fop.is_wrlck] at h ⊢
  | _ => simp [Fop.is_wrlck] at h

theorem is_unlck_eq {f : Fop} (h : f.is_unlck = true) : f = Fop.inodelk LockType.F_UNLCK := by
  cases f with
  | inodelk l => cases l <;> simp [Fop.is_unlck] at h ⊢
  | _ => simp [Fop.is_unlck] at h

theorem is_open_eq {f : Fop} (h : f.is_open = true) : f = Fop.open_ := by
  cases f <;> simp [Fop.is_open] at h ⊢

theorem is_flush_eq {f : Fop} (h : f.is_flush = true) : f = Fop.flush := by
  cases f <;> simp [Fop.is_flush] at h ⊢

theorem is_readv_eq {f : Fop} (h : f.is_readv = true) : ∃ a b, f = Fop.readv a b := by
  cases f <;> simp [Fop.is_readv] at h ⊢

theorem is_writev_eq {f : Fop} (h : f.is_writev = true) : ∃ a b, f = Fop.writev a b := by
  cases f <;> simp [Fop.is_writev] at h ⊢


theorem step_lock (n : Nat) (up : List Bool) (src : List Int) (s : Frame) (k : Nat)
    (r : Response) (H : PhaseFacts n up src Phase.lock s) :
    ∃ ph, PhaseFacts n up src ph (deliver s k r) := by
  have hf : s.fault = false := by simpa using H.h_fault
  have h1 := H.h_count
  have h2 := H.h_src
  have h3 := H.h_lock
  have h4 := H.h_open
  have h5 := H.h_flush
  have h6 := H.h_unlck
  have h7 := H.h_compl
  have h8 := H.h_statf
  have h11 := H.h_nofail
  obtain ⟨hcc, hpos⟩ := H.h_join rfl
  obtain ⟨req, hmem, hlen, heq⟩ := deliver_of_live s k r hf (List.length_pos.mp hpos)
  have hfop := is_wrlck_eq (H.h_kind req hmem)
  have hkind : ∀ x ∈ s.outstanding.eraseIdx (k % s.outstanding.length),
      Phase.lock.expects x.fop = true :=
    fun x hx => H.h_kind x (List.mem_of_mem_eraseIdx hx)
  obtain ⟨hsrc, hsrc0⟩ := H.h_source rfl
  rw [hsrc] at hsrc0
  have hv := select_source_valid src n hsrc0
  have hT := elected_targets_length n src hsrc0
  have h10 := H.h_nonzero (Or.inl rfl)
  rw [heq]
  simp only [callback, hfop, sh_lock_inode_cbk]
  by_cases hlast : s.call_count - 1 = 0
  · have hnil : s.outstanding.eraseIdx (k % s.outstanding.length) = [] := by
      apply List.length_eq_zero.mp; omega
    refine ⟨Phase.opening, ?_⟩
    simp only [hlast, if_true, sh_open_source_and_sinks_eq, hnil]
    clear hkind hnil hlen hmem heq hpos hcc hlast
    constructor
    all_goals first
      | assumption
      | (intro _; constructor <;> simp only [] <;> omega)
      | (intro _; simp only [wind_children, targets_eq, sinks_eq, List.nil_append,
          List.length_map, List.length_cons, List.length_nil, h1, h2, hsrc]; constructor <;> omega)
      | (simp_all [Phase.expects, Phase.joins, Phase.single, Phase.elected, Phase.locked, Phase.opened, Phase.flushed, Phase.unlocked, Phase.finished, open_failures_snoc, stat_failed_snoc, children_of_append, children_of_snoc, wind_children, targets_eq, sinks_eq, completion_cbk, sh_cleanup_and_terminate, Fop.is_open, Fop.is_stat, Fop.is_wrlck, Fop.is_unlck, Fop.is_flush, Fop.is_lookup, Fop.is_readv, Fop.is_writev])
  · refine ⟨Phase.lock, ?_⟩
    simp only [hlast, if_false]
    constructor
    all_goals first
      | assumption
      | (intro _; constructor <;> simp only [] <;> omega)
      | (simp_all [Phase.expects, Phase.joins, Phase.single, Phase.elected, Phase.locked, Phase.opened, Phase.flushed, Phase.unlocked, Phase.finished, open_failures_snoc, stat_failed_snoc, children_of_append, children_of_snoc, wind_children, targets_eq, sinks_eq, completion_cbk, sh_cleanup_and_terminate, Fop.is_open, Fop.is_stat, Fop.is_wrlck, Fop.is_unlck, Fop.is_flush, Fop.is_lookup, Fop.is_readv, Fop.is_writev])

theorem step_flushing (n : Nat) (up : List Bool) (src : List Int) (s : Frame) (k : Nat)
    (r : Response) (H : PhaseFacts n up src Phase.flushing s) :
    ∃ ph, PhaseFacts n up src ph (deliver s k r) := by
  have hf : s.fault = false := by simpa using H.h_fault
  have h1 := H.h_count
  have h2 := H.h_src
  have h3 := H.h_lock
  have h4 := H.h_open
  have h5 := H.h_flush
  have h6 := H.h_unlck
  have h7 := H.h_compl
  have h8 := H.h_statf
  have h11 := H.h_nofail
  obtain ⟨hcc, hpos⟩ := H.h_join rfl
  obtain ⟨req, hmem, hlen, heq⟩ := deliver_of_live s k r hf (List.length_pos.mp hpos)
  have hfop := is_flush_eq (H.h_kind req hmem)
  have hkind : ∀ x ∈ s.outstanding.eraseIdx (k % s.outstanding.length),
      Phase.flushing.expects x.fop = true :=
    fun x hx => H.h_kind x (List.mem_of_mem_eraseIdx hx)
  obtain ⟨hsrc, hsrc0⟩ := H.h_source rfl
  rw [hsrc] at hsrc0
  have hv := select_source_valid src n hsrc0
  have hT := elected_targets_length n src hsrc0
  have h10 := H.h_nonzero (Or.inl rfl)
  rw [heq]
  simp only [callback, hfop, sh_close_fds_cbk, sh_erase_pending]
  by_cases hlast : s.call_count - 1 = 0
  ·
    have hnil : s.outstanding.eraseIdx (k % s.outstanding.length) = [] := by
      apply List.length_eq_zero.mp; omega
    refine ⟨Phase.unlocking, ?_⟩
    simp only [hlast, if_true, sh_unlock_inode_eq, hnil]
    clear hkind hnil hlen hmem heq hpos hcc hlast
    constructor
    all_goals first
      | assumption
      | (intro _; constructor <;> simp only [] <;> omega)
      | (intro _; simp only [wind_children, targets_eq, sinks_eq, List.nil_append,
          List.length_map, List.length_cons, List.length_nil, h1, h2, hsrc]; constructor <;> omega)
      | (simp_all [Phase.expects, Phase.joins, Phase.single, Phase.elected, Phase.locked, Phase.opened, Phase.flushed, Phase.unlocked, Phase.finished, open_failures_snoc, stat_failed_snoc, children_of_append, children_of_snoc, wind_children, targets_eq, sinks_eq, completion_cbk, sh_cleanup_and_terminate, Fop.is_open, Fop.is_stat, Fop.is_wrlck, Fop.is_unlck, Fop.is_flush, Fop.is_lookup, Fop.is_readv, Fop.is_writev])
  · refine ⟨Phase.flushing, ?_⟩
    simp only [hlast, if_false]
    constructor
    all_goals first
      | assumption
      | (intro _; constructor <;> simp only [] <;> omega)
      | (simp_all [Phase.expects, Phase.joins, Phase.single, Phase.elected, Phase.locked, Phase.opened, Phase.flushed, Phase.unlocked, Phase.finished, open_failures_snoc, stat_failed_snoc, children_of_append, children_of_snoc, wind_children, targets_eq, sinks_eq, completion_cbk, sh_cleanup_and_terminate, Fop.is_open, Fop.is_stat, Fop.is_wrlck, Fop.is_unlck, Fop.is_flush, Fop.is_lookup, Fop.is_readv, Fop.is_writev])

theorem step_unlocking (n : Nat) (up : List Bool) (src : List Int) (s : Frame) (k : Nat)
    (r : Response) (H : PhaseFacts n up src Phase.unlocking s) :
    ∃ ph, PhaseFacts n up src ph (deliver s k r) := by
  have hf : s.fault = false := by simpa using H.h_fault
  have h1 := H.h_count
  have h2 := H.h_src
  have h3 := H.h_lock
  have h4 := H.h_open
  have h5 := H.h_flush
  have h6 := H.h_unlck
  have h7 := H.h_compl
  have h8 := H.h_statf
  have h11 := H.h_nofail
  obtain ⟨hcc, hpos⟩ := H.h_join rfl
  obtain ⟨req, hmem, hlen, heq⟩ := deliver_of_live s k r hf (List.length_pos.mp hpos)
  have hfop := is_unlck_eq (H.h_kind req hmem)
  have hkind : ∀ x ∈ s.outstanding.eraseIdx (k % s.outstanding.length),
      Phase.unlocking.expects x.fop = true :=
    fun x hx => H.h_kind x (List.mem_of_mem_eraseIdx hx)
  obtain ⟨hsrc, hsrc0⟩ := H.h_source rfl
  rw [hsrc] at hsrc0
  have hv := select_source_valid src n hsrc0
  have hT := elected_targets_length n src hsrc0
  have h10 := H.h_nonzero (Or.inl rfl)
  rw [heq]
  simp only [callback, hfop, sh_unlock_inode_cbk]
  by_cases hlast : s.call_count - 1 = 0
  ·
    have hnil : s.outstanding.eraseIdx (k % s.outstanding.length) = [] := by
      apply List.length_eq_zero.mp; omega
    refine ⟨Phase.done, ?_⟩
    simp only [hlast, if_true, hnil]
    clear hkind hnil hlen hmem heq hpos hcc hlast
    constructor
    all_goals first
      | assumption
      | (intro _; constructor <;> simp only [] <;> omega)
      | (intro _; simp only [wind_children, targets_eq, sinks_eq, List.nil_append,
          List.length_map, List.length_cons, List.length_nil, h1, h2, hsrc]; constructor <;> omega)
      | (simp_all [Phase.expects, Phase.joins, Phase.single, Phase.elected, Phase.locked, Phase.opened, Phase.flushed, Phase.unlocked, Phase.finished, open_failures_snoc, stat_failed_snoc, children_of_append, children_of_snoc, wind_children, targets_eq, sinks_eq, completion_cbk, sh_cleanup_and_terminate, Fop.is_open, Fop.is_stat, Fop.is_wrlck, Fop.is_unlck, Fop.is_flush, Fop.is_lookup, Fop.is_readv, Fop.is_writev])
  · refine ⟨Phase.unlocking, ?_⟩
    simp only [hlast, if_false]
    constructor
    all_goals first
      | assumption
      | (intro _; constructor <;> simp only [] <;> omega)
      | (simp_all [Phase.expects, Phase.joins, Phase.single, Phase.elected, Phase.locked, Phase.opened, Phase.flushed, Phase.unlocked, Phase.finished, open_failures_snoc, stat_failed_snoc, children_of_append, children_of_snoc, wind_children, targets_eq, sinks_eq, completion_cbk, sh_cleanup_and_terminate, Fop.is_open, Fop.is_stat, Fop.is_wrlck, Fop.is_unlck, Fop.is_flush, Fop.is_lookup, Fop.is_readv, Fop.is_writev])

theorem step_writing (n : Nat) (up : List Bool) (src : List Int) (s : Frame) (k : Nat)
    (r : Response) (H : PhaseFacts n up src Phase.writing s) :
    ∃ ph, PhaseFacts n up src ph (deliver s k r) := by
  have hf : s.fault = false := by simpa using H.h_fault
  have h1 := H.h_count
  have h2 := H.h_src
  have h3 := H.h_lock
  have h4 := H.h_open
  have h5 := H.h_flush
  have h6 := H.h_unlck
  have h7 := H.h_compl
  have h8 := H.h_statf
  have h11 := H.h_nofail
  obtain ⟨hcc, hpos⟩ := H.h_join rfl
  obtain ⟨req, hmem, hlen, heq⟩ := deliver_of_live s k r hf (List.length_pos.mp hpos)
  have hfop := is_writev_eq (H.h_kind req hmem)
  have hkind : ∀ x ∈ s.outstanding.eraseIdx (k % s.outstanding.length),
      Phase.writing.expects x.fop = true :=
    fun x hx => H.h_kind x (List.mem_of_mem_eraseIdx hx)
  obtain ⟨hsrc, hsrc0⟩ := H.h_source rfl
  rw [hsrc] at hsrc0
  have hv := select_source_valid src n hsrc0
  have hT := elected_targets_length n src hsrc0
  have h10 := H.h_nonzero (Or.inl rfl)
  obtain ⟨wv, wo, hfop⟩ := hfop
  rw [heq]
  simp only [callback, hfop, sh_write_cbk]
  by_cases hlast : s.call_count - 1 = 0
  ·
    have hnil : s.outstanding.eraseIdx (k % s.outstanding.length) = [] := by
      apply List.length_eq_zero.mp; omega
    by_cases hoff : s.offset < s.file_size
    · refine ⟨Phase.reading, ?_⟩
      simp only [hlast, if_true, hoff, hnil]
      rw [sh_read_write_eq _ (by simp only [hsrc]; exact hsrc0)
        (by simp only [hsrc, h1]; exact hv.1)]
      clear hkind hnil hlen hmem heq hpos hcc hlast
      constructor
      all_goals first
        | assumption
        | (intro _; constructor <;> simp only [] <;> omega)
        | (intro _; simp only [wind_children, targets_eq, sinks_eq, List.nil_append,
            List.length_map, List.length_cons, List.length_nil, h1, h2, hsrc]; constructor <;> omega)
        | (simp_all [Phase.expects, Phase.joins, Phase.single, Phase.elected, Phase.locked, Phase.opened, Phase.flushed, Phase.unlocked, Phase.finished, open_failures_snoc, stat_failed_snoc, children_of_append, children_of_snoc, wind_children, targets_eq, sinks_eq, completion_cbk, sh_cleanup_and_terminate, Fop.is_open, Fop.is_stat, Fop.is_wrlck, Fop.is_unlck, Fop.is_flush, Fop.is_lookup, Fop.is_readv, Fop.is_writev])
    · refine ⟨Phase.flushing, ?_⟩
      simp only [hlast, if_true, hoff, if_false, sh_close_fds_eq, hnil]
      clear hkind hnil hlen hmem heq hpos hcc hlast
      constructor
      all_goals first
        | assumption
        | (intro _; constructor <;> simp only [] <;> omega)
        | (intro _; simp only [wind_children, targets_eq, sinks_eq, List.nil_append,
            List.length_map, List.length_cons, List.length_nil, h1, h2, hsrc]; constructor <;> omega)
        | (simp_all [Phase.expects, Phase.joins, Phase.single, Phase.elected, Phase.locked, Phase.opened, Phase.flushed, Phase.unlocked, Phase.finished, open_failures_snoc, stat_failed_snoc, children_of_append, children_of_snoc, wind_children, targets_eq, sinks_eq, completion_cbk, sh_cleanup_and_terminate, Fop.is_open, Fop.is_stat, Fop.is_wrlck, Fop.is_unlck, Fop.is_flush, Fop.is_lookup, Fop.is_readv, Fop.is_writev])
  · refine ⟨Phase.writing, ?_⟩
    simp only [hlast, if_false]
    constructor
    all_goals first
      | assumption
      | (intro _; constructor <;> simp only [] <;> omega)
      | (simp_all [Phase.expects, Phase.joins, Phase.single, Phase.elected, Phase.locked, Phase.opened, Phase.flushed, Phase.unlocked, Phase.finished, open_failures_snoc, stat_failed_snoc, children_of_append, children_of_snoc, wind_children, targets_eq, sinks_eq, completion_cbk, sh_cleanup_and_terminate, Fop.is_open, Fop.is_stat, Fop.is_wrlck, Fop.is_unlck, Fop.is_flush, Fop.is_lookup, Fop.is_readv, Fop.is_writev])

theorem step_reading (n : Nat) (up : List Bool) (src : List Int) (s : Frame) (k : Nat)
    (r : Response) (H : PhaseFacts n up src Phase.reading s) :
    ∃ ph, PhaseFacts n up src ph (deliver s k r) := by
  have hf : s.fault = false := by simpa using H.h_fault
  have h1 := H.h_count
  have h2 := H.h_src
  have h3 := H.h_lock
  have h4 := H.h_open
  have h5 := H.h_flush
  have h6 := H.h_unlck
  have h7 := H.h_compl
  have h8 := H.h_statf
  have h11 := H.h_nofail
  have hone := H.h_single rfl
  have hpos : 0 < s.outstanding.length := by omega
  obtain ⟨req, hmem, hlen, heq⟩ := deliver_of_live s k r hf (List.length_pos.mp hpos)
  have hfop := is_readv_eq (H.h_kind req hmem)
  have hkind : ∀ x ∈ s.outstanding.eraseIdx (k % s.outstanding.length),
      Phase.reading.expects x.fop = true :=
    fun x hx => H.h_kind x (List.mem_of_mem_eraseIdx hx)
  obtain ⟨hsrc, hsrc0⟩ := H.h_source rfl
  rw [hsrc] at hsrc0
  have hv := select_source_valid src n hsrc0
  have hT := elected_targets_length n src hsrc0
  have h10 := H.h_nonzero (Or.inl rfl)
  obtain ⟨ra, rb, hfop⟩ := hfop
  have hnil : s.outstanding.eraseIdx (k % s.outstanding.length) = [] := by
    apply List.length_eq_zero.mp; omega
  rw [heq]
  simp only [callback, hfop, sh_read_cbk_eq, hnil]
  clear hkind hnil hlen hmem heq hpos hone
  by_cases hs : sinks_of n src = []
  · refine ⟨Phase.stalled, ?_⟩
    constructor
    all_goals first
      | assumption
      | (simp_all [Phase.expects, Phase.joins, Phase.single, Phase.elected, Phase.locked, Phase.opened, Phase.flushed, Phase.unlocked, Phase.finished, open_failures_snoc, stat_failed_snoc, children_of_append, children_of_snoc, wind_children, targets_eq, sinks_eq, completion_cbk, sh_cleanup_and_terminate, Fop.is_open, Fop.is_stat, Fop.is_wrlck, Fop.is_unlck, Fop.is_flush, Fop.is_lookup, Fop.is_readv, Fop.is_writev])
  · refine ⟨Phase.writing, ?_⟩
    have hsp : 0 < (sinks_of n src).length := List.length_pos.mpr hs
    constructor
    all_goals first
      | assumption
      | (intro _; constructor <;> simp only [] <;> omega)
      | (intro _; simp only [wind_children, targets_eq, sinks_eq, List.nil_append,
          List.length_map, List.length_cons, List.length_nil, h1, h2, hsrc]; constructor <;> omega)
      | (simp_all [Phase.expects, Phase.joins, Phase.single, Phase.elected, Phase.locked, Phase.opened, Phase.flushed, Phase.unlocked, Phase.finished, open_failures_snoc, stat_failed_snoc, children_of_append, children_of_snoc, wind_children, targets_eq, sinks_eq, completion_cbk, sh_cleanup_and_terminate, Fop.is_open, Fop.is_stat, Fop.is_wrlck, Fop.is_unlck, Fop.is_flush, Fop.is_lookup, Fop.is_readv, Fop.is_writev])

theorem step_sizer (n : Nat) (up : List Bool) (src : List Int) (s : Frame) (k : Nat)
    (r : Response) (H : PhaseFacts n up src Phase.sizer s) :
    ∃ ph, PhaseFacts n up src ph (deliver s k r) := by
  have hf : s.fault = false := by simpa using H.h_fault
  have h1 := H.h_count
  have h2 := H.h_src
  have h3 := H.h_lock
  have h4 := H.h_open
  have h5 := H.h_flush
  have h6 := H.h_unlck
  have h7 := H.h_compl
  have h8 := H.h_statf
  have h11 := H.h_nofail
  have hone := H.h_single rfl
  have hpos : 0 < s.outstanding.length := by omega
  obtain ⟨req, hmem, hlen, heq⟩ := deliver_of_live s k r hf (List.length_pos.mp hpos)
  have hfop := is_stat_eq (H.h_kind req hmem)
  have hkind : ∀ x ∈ s.outstanding.eraseIdx (k % s.outstanding.length),
      Phase.sizer.expects x.fop = true :=
    fun x hx => H.h_kind x (List.mem_of_mem_eraseIdx hx)
  obtain ⟨hsrc, hsrc0⟩ := H.h_source rfl
  rw [hsrc] at hsrc0
  have hv := select_source_valid src n hsrc0
  have hT := elected_targets_length n src hsrc0
  have h10 := H.h_nonzero (Or.inl rfl)
  have hnil : s.outstanding.eraseIdx (k % s.outstanding.length) = [] := by
    apply List.length_eq_zero.mp; omega
  rw [heq]
  simp only [callback, hfop, sh_source_stat_cbk, hnil]
  clear hkind hnil hlen hmem heq hpos hone
  by_cases hr : r.op_ret = -1
  · refine ⟨Phase.aborted, ?_⟩
    have h9 := H.h_stat (Or.inl rfl)
    simp only [hr, if_true]
    constructor
    all_goals first
      | assumption
      | (simp_all [Phase.expects, Phase.joins, Phase.single, Phase.elected, Phase.locked, Phase.opened, Phase.flushed, Phase.unlocked, Phase.finished, open_failures_snoc, stat_failed_snoc, children_of_append, children_of_snoc, wind_children, targets_eq, sinks_eq, completion_cbk, sh_cleanup_and_terminate, Fop.is_open, Fop.is_stat, Fop.is_wrlck, Fop.is_unlck, Fop.is_flush, Fop.is_lookup, Fop.is_readv, Fop.is_writev])
  · refine ⟨Phase.lock, ?_⟩
    simp only [hr, if_false, sh_lock_inode_eq]
    constructor
    all_goals first
      | assumption
      | (intro _; constructor <;> simp only [] <;> omega)
      | (intro _; simp only [wind_children, targets_eq, sinks_eq, List.nil_append,
          List.length_map, List.length_cons, List.length_nil, h1, h2, hsrc]; constructor <;> omega)
      | (simp_all [Phase.expects, Phase.joins, Phase.single, Phase.elected, Phase.locked, Phase.opened, Phase.flushed, Phase.unlocked, Phase.finished, open_failures_snoc, stat_failed_snoc, children_of_append, children_of_snoc, wind_children, targets_eq, sinks_eq, completion_cbk, sh_cleanup_and_terminate, Fop.is_open, Fop.is_stat, Fop.is_wrlck, Fop.is_unlck, Fop.is_flush, Fop.is_lookup, Fop.is_readv, Fop.is_writev])

theorem step_opening (n : Nat) (up : List Bool) (src : List Int) (s : Frame) (k : Nat)
    (r : Response) (H : PhaseFacts n up src Phase.opening s) :
    ∃ ph, PhaseFacts n up src ph (deliver s k r) := by
  have hf : s.fault = false := by simpa using H.h_fault
  have h1 := H.h_count
  have h2 := H.h_src
  have h3 := H.h_lock
  have h4 := H.h_open
  have h5 := H.h_flush
  have h6 := H.h_unlck
  have h7 := H.h_compl
  have h8 := H.h_statf
  have h11 := H.h_nofail
  obtain ⟨hcc, hpos⟩ := H.h_join rfl
  obtain ⟨req, hmem, hlen, heq⟩ := deliver_of_live s k r hf (List.length_pos.mp hpos)
  have hfop := is_open_eq (H.h_kind req hmem)
  have hkind : ∀ x ∈ s.outstanding.eraseIdx (k % s.outstanding.length),
      Phase.opening.expects x.fop = true :=
    fun x hx => H.h_kind x (List.mem_of_mem_eraseIdx hx)
  obtain ⟨hsrc, hsrc0⟩ := H.h_source rfl
  rw [hsrc] at hsrc0
  have hv := select_source_valid src n hsrc0
  have hT := elected_targets_length n src hsrc0
  have h10 := H.h_nonzero (Or.inl rfl)
  rw [heq]
  simp only [callback, hfop, sh_open_source_and_sinks_cbk_eq]
  by_cases hlast : s.call_count - 1 = 0
  ·
    have hnil : s.outstanding.eraseIdx (k % s.outstanding.length) = [] := by
      apply List.length_eq_zero.mp; omega
    refine ⟨Phase.reading, ?_⟩
    simp only [hlast, if_true, hnil]
    rw [sh_read_write_eq _ (by simp only [hsrc]; exact hsrc0)
      (by simp only [hsrc, h1]; exact hv.1)]
    clear hkind hnil hlen hmem heq hpos hcc hlast
    constructor
    all_goals first
      | assumption
      | (intro _; constructor <;> simp only [] <;> omega)
      | (intro _; simp only [wind_children, targets_eq, sinks_eq, List.nil_append,
          List.length_map, List.length_cons, List.length_nil, h1, h2, hsrc]; constructor <;> omega)
      | (simp_all [Phase.expects, Phase.joins, Phase.single, Phase.elected, Phase.locked, Phase.opened, Phase.flushed, Phase.unlocked, Phase.finished, open_failures_snoc, stat_failed_snoc, children_of_append, children_of_snoc, wind_children, targets_eq, sinks_eq, completion_cbk, sh_cleanup_and_terminate, Fop.is_open, Fop.is_stat, Fop.is_wrlck, Fop.is_unlck, Fop.is_flush, Fop.is_lookup, Fop.is_readv, Fop.is_writev])
  · refine ⟨Phase.opening, ?_⟩
    simp only [hlast, if_false]
    constructor
    all_goals first
      | assumption
      | (intro _; constructor <;> simp only [] <;> omega)
      | (simp_all [Phase.expects, Phase.joins, Phase.single, Phase.elected, Phase.locked, Phase.opened, Phase.flushed, Phase.unlocked, Phase.finished, open_failures_snoc, stat_failed_snoc, children_of_append, children_of_snoc, wind_children, targets_eq, sinks_eq, completion_cbk, sh_cleanup_and_terminate, Fop.is_open, Fop.is_stat, Fop.is_wrlck, Fop.is_unlck, Fop.is_flush, Fop.is_lookup, Fop.is_readv, Fop.is_writev])

theorem step_probe (n : Nat) (up : List Bool) (src : List Int) (s : Frame) (k : Nat)
    (r : Response) (H : PhaseFacts n up src Phase.probe s) :
    ∃ ph, PhaseFacts n up src ph (deliver s k r) := by
  have hf : s.fault = false := by simpa using H.h_fault
  have h1 := H.h_count
  have h2 := H.h_src
  have h3 := H.h_lock
  have h4 := H.h_open
  have h5 := H.h_flush
  have h6 := H.h_unlck
  have h7 := H.h_compl
  have h8 := H.h_statf
  have h11 := H.h_nofail
  obtain ⟨hcc, hpos⟩ := H.h_join rfl
  obtain ⟨req, hmem, hlen, heq⟩ := deliver_of_live s k r hf (List.length_pos.mp hpos)
  have hfop := is_lookup_eq (H.h_kind req hmem)
  have hkind : ∀ x ∈ s.outstanding.eraseIdx (k % s.outstanding.length),
      Phase.probe.expects x.fop = true :=
    fun x hx => H.h_kind x (List.mem_of_mem_eraseIdx hx)
  have h9 := H.h_probe rfl
  rw [heq]
  simp only [callback, hfop, afr_inode_data_self_heal_lookup_cbk_eq]
  by_cases hlast : s.call_count - 1 = 0
  ·
    have hnil : s.outstanding.eraseIdx (k % s.outstanding.length) = [] := by
      apply List.length_eq_zero.mp; omega
    simp only [hlast, if_true, hnil]
    clear hkind hnil hlen hmem heq hpos hcc hlast
    cases hz : afr_sh_is_matrix_zero
        (afr_sh_build_pending_matrix
          (if r.op_ret ≠ -1 then s.xattr.set req.child r.xattr else s.xattr) s.child_count)
        s.child_count
    · rw [sh_do_data_self_heal_nonzero _ hz]
      rw [h1] at hz
      by_cases hv : 0 ≤ afr_sh_select_source s.sources s.child_count ∧
          afr_sh_select_source s.sources s.child_count < (s.child_count : Int)
      · refine ⟨Phase.sizer, ?_⟩
        simp only [wind_source, hv, and_self, if_true]
        rw [h1, h2] at hv
        constructor
        all_goals first
          | assumption
          | (simp_all [Phase.expects, Phase.joins, Phase.single, Phase.elected, Phase.locked, Phase.opened, Phase.flushed, Phase.unlocked, Phase.finished, open_failures_snoc, stat_failed_snoc, children_of_append, children_of_snoc, wind_children, targets_eq, sinks_eq, completion_cbk, sh_cleanup_and_terminate, Fop.is_open, Fop.is_stat, Fop.is_wrlck, Fop.is_unlck, Fop.is_flush, Fop.is_lookup, Fop.is_readv, Fop.is_writev])
      · refine ⟨Phase.faulted, ?_⟩
        simp only [wind_source, hv, if_false]
        constructor
        all_goals first
          | assumption
          | (simp_all [Phase.expects, Phase.joins, Phase.single, Phase.elected, Phase.locked, Phase.opened, Phase.flushed, Phase.unlocked, Phase.finished, open_failures_snoc, stat_failed_snoc, children_of_append, children_of_snoc, wind_children, targets_eq, sinks_eq, completion_cbk, sh_cleanup_and_terminate, Fop.is_open, Fop.is_stat, Fop.is_wrlck, Fop.is_unlck, Fop.is_flush, Fop.is_lookup, Fop.is_readv, Fop.is_writev])
    · rw [sh_do_data_self_heal_zero _ hz]
      rw [h1] at hz
      refine ⟨Phase.noop, ?_⟩
      constructor
      all_goals first
        | assumption
        | (simp_all [Phase.expects, Phase.joins, Phase.single, Phase.elected, Phase.locked, Phase.opened, Phase.flushed, Phase.unlocked, Phase.finished, open_failures_snoc, stat_failed_snoc, children_of_append, children_of_snoc, wind_children, targets_eq, sinks_eq, completion_cbk, sh_cleanup_and_terminate, Fop.is_open, Fop.is_stat, Fop.is_wrlck, Fop.is_unlck, Fop.is_flush, Fop.is_lookup, Fop.is_readv, Fop.is_writev])
  · refine ⟨Phase.probe, ?_⟩
    simp only [hlast, if_false]
    constructor
    all_goals first
      | assumption
      | (intro _; constructor <;> simp only [] <;> omega)
      | (simp_all [Phase.expects, Phase.joins, Phase.single, Phase.elected, Phase.locked, Phase.opened, Phase.flushed, Phase.unlocked, Phase.finished, open_failures_snoc, stat_failed_snoc, children_of_append, children_of_snoc, wind_children, targets_eq, sinks_eq, completion_cbk, sh_cleanup_and_terminate, Fop.is_open, Fop.is_stat, Fop.is_wrlck, Fop.is_unlck, Fop.is_flush, Fop.is_lookup, Fop.is_readv, Fop.is_writev])

theorem step_idle (n : Nat) (up : List Bool) (src : List Int) (s : Frame) (k : Nat)
    (r : Response) (H : PhaseFacts n up src Phase.idle s) :
    ∃ ph, PhaseFacts n up src ph (deliver s k r) := by
  have hq : s.outstanding = [] := by
    apply List.eq_nil_iff_forall_not_mem.mpr
    intro x hx
    have := H.h_kind x hx
    simp [Phase.expects] at this
  rw [deliver_of_quiet s k r hq]
  exact ⟨Phase.idle, H⟩

theorem step_noop (n : Nat) (up : List Bool) (src : List Int) (s : Frame) (k : Nat)
    (r : Response) (H : PhaseFacts n up src Phase.noop s) :
    ∃ ph, PhaseFacts n up src ph (deliver s k r) := by
  have hq : s.outstanding = [] := by
    apply List.eq_nil_iff_forall_not_mem.mpr
    intro x hx
    have := H.h_kind x hx
    simp [Phase.expects] at this
  rw [deliver_of_quiet s k r hq]
  exact ⟨Phase.noop, H⟩

theorem step_faulted (n : Nat) (up : List Bool) (src : List Int) (s : Frame) (k : Nat)
    (r : Response) (H : PhaseFacts n up src Phase.faulted s) :
    ∃ ph, PhaseFacts n up src ph (deliver s k r) := by
  have hq : s.outstanding = [] := by
    apply List.eq_nil_iff_forall_not_mem.mpr
    intro x hx
    have := H.h_kind x hx
    simp [Phase.expects] at this
  rw [deliver_of_quiet s k r hq]
  exact ⟨Phase.faulted, H⟩

theorem step_aborted (n : Nat) (up : List Bool) (src : List Int) (s : Frame) (k : Nat)
    (r : Response) (H : PhaseFacts n up src Phase.aborted s) :
    ∃ ph, PhaseFacts n up src ph (deliver s k r) := by
  have hq : s.outstanding = [] := by
    apply List.eq_nil_iff_forall_not_mem.mpr
    intro x hx
    have := H.h_kind x hx
    simp [Phase.expects] at this
  rw [deliver_of_quiet s k r hq]
  exact ⟨Phase.aborted, H⟩

theorem step_stalled (n : Nat) (up : List Bool) (src : List Int) (s : Frame) (k : Nat)
    (r : Response) (H : PhaseFacts n up src Phase.stalled s) :
    ∃ ph, PhaseFacts n up src ph (deliver s k r) := by
  have hq : s.outstanding = [] := by
    apply List.eq_nil_iff_forall_not_mem.mpr
    intro x hx
    have := H.h_kind x hx
    simp [Phase.expects] at this
  rw [deliver_of_quiet s k r hq]
  exact ⟨Phase.stalled, H⟩

theorem step_done (n : Nat) (up : List Bool) (src : List Int) (s : Frame) (k : Nat)
    (r : Response) (H : PhaseFacts n up src Phase.done s) :
    ∃ ph, PhaseFacts n up src ph (deliver s k r) := by
  have hq : s.outstanding = [] := by
    apply List.eq_nil_iff_forall_not_mem.mpr
    intro x hx
    have := H.h_kind x hx
    simp [Phase.expects] at this
  rw [deliver_of_quiet s k r hq]
  exact ⟨Phase.done, H⟩

/-- One reply keeps the run in one of the phases. -/
theorem step_phase (n : Nat) (up : List Bool) (src : List Int) (ph : Phase) (s : Frame)
    (k : Nat) (r : Response) (H : PhaseFacts n up src ph s) :
    ∃ ph2, PhaseFacts n up src ph2 (deliver s k r) := by
  cases ph with
  | idle => exact step_idle n up src s k r H
  | probe => exact step_probe n up src s k r H
  | noop => exact step_noop n up src s k r H
  | faulted => exact step_faulted n up src s k r H
  | sizer => exact step_sizer n up src s k r H
  | aborted => exact step_aborted n up src s k r H
  | lock => exact step_lock n up src s k r H
  | opening => exact step_opening n up src s k r H
  | reading => exact step_reading n up src s k r H
  | writing => exact step_writing n up src s k r H
  | stalled => exact step_stalled n up src s k r H
  | flushing => exact step_flushing n up src s k r H
  | unlocking => exact step_unlocking n up src s k r H
  | done => exact step_done n up src s k r H

/-! ## Every run stays in the phases -/

theorem phase_of_start (n : Nat) (up : List Bool) (src : List Int) :
    ∃ ph, PhaseFacts n up src ph (start n up src) := by
  have ht : (start n up src).trace = lookups n up := by
    simp [start, afr_self_heal_data, Frame.fresh, wind_children, lookups]
  have ho : (start n up src).outstanding = lookups n up := by
    simp [start, afr_self_heal_data, Frame.fresh, wind_children, lookups]
  have hc : (start n up src).call_count = ((lookups n up).length : Int) := by
    simp [start, afr_self_heal_data, Frame.fresh, wind_children, lookups, up_children_count]
  have ha : (start n up src).answered = [] := rfl
  have h3 : ∀ req ∈ lookups n up, req.fop = Fop.lookup := by
    intro req hreq
    simp only [lookups, List.mem_map] at hreq
    obtain ⟨i, _, rfl⟩ := hreq
    rfl
  have h4 : ∀ p : Fop → Bool, p Fop.lookup = false →
      children_of p (start n up src).trace = [] := by
    intro p hp
    have := children_of_append p [] ((List.range n).filter fun i => up.getD i false)
      Fop.lookup
    rw [ht]
    simpa [hp, children_of, lookups] using this
  by_cases h : lookups n up = []
  · exact ⟨Phase.idle,
      { h_count := rfl
        h_src := rfl
        h_fault := rfl
        h_kind := by rw [ho, h]; intro req hreq; simp at hreq
        h_join := by intro hh; simp [Phase.joins] at hh
        h_single := by intro hh; simp [Phase.single] at hh
        h_source := by intro hh; simp [Phase.elected] at hh
        h_lock := h4 _ rfl
        h_open := h4 _ rfl
        h_flush := h4 _ rfl
        h_unlck := h4 _ rfl
        h_compl := rfl
        h_statf := rfl
        h_nofail := fun _ => rfl
        h_probe := fun _ => ht
        h_stat := by intro hh; simp at hh
        h_zero := by intro hh; simp at hh
        h_nonzero := by intro hh; simp [Phase.elected] at hh
        h_idle := fun _ => h }⟩
  · exact ⟨Phase.probe,
      { h_count := rfl
        h_src := rfl
        h_fault := rfl
        h_kind := by
          rw [ho]; intro req hreq
          simp [Phase.expects, h3 req hreq, Fop.is_lookup]
        h_join := by
          intro _
          rw [hc, ho]
          exact ⟨rfl, List.length_pos.mpr h⟩
        h_single := by intro hh; simp [Phase.single] at hh
        h_source := by intro hh; simp [Phase.elected] at hh
        h_lock := h4 _ rfl
        h_open := h4 _ rfl
        h_flush := h4 _ rfl
        h_unlck := h4 _ rfl
        h_compl := rfl
        h_statf := rfl
        h_nofail := fun _ => rfl
        h_probe := fun _ => ht
        h_stat := by intro hh; simp at hh
        h_zero := by intro hh; simp at hh
        h_nonzero := by intro hh; simp [Phase.elected] at hh
        h_idle := by intro hh; simp at hh }⟩

theorem phase_of_run_from (n : Nat) (up : List Bool) (src : List Int) :
    ∀ (sched : List (Nat × Response)) (s : Frame),
      (∃ ph, PhaseFacts n up src ph s) → ∃ ph, PhaseFacts n up src ph (run s sched) := by
  intro sched
  induction sched with
  | nil => intro s h; exact h
  | cons e rest ih =>
    intro s h
    obtain ⟨ph, H⟩ := h
    exact ih (deliver s e.1 e.2) (step_phase n up src ph s e.1 e.2 H)

/-- Every state of every run from `start` is in one of the phases. -/
theorem phase_of_run (n : Nat) (up : List Bool) (src : List Int)
    (sched : List (Nat × Response)) :
    ∃ ph, PhaseFacts n up src ph (run (start n up src) sched) :=
  phase_of_run_from n up src sched _ (phase_of_start n up src)

/-! ## A fan-out joins on its last reply -/

theorem join_stay_lock (s0 s : Frame) (k : Nat) (r : Response)
    (J : Joining Fop.is_wrlck s0 s) (hn : 2 ≤ s.outstanding.length) :
    Joining Fop.is_wrlck s0 (deliver s k r) ∧
      (deliver s k r).outstanding.length + 1 = s.outstanding.length := by
  have hne : s.outstanding ≠ [] := by
    intro h; rw [h] at hn; simp at hn
  obtain ⟨req, hmem, hlen, heq⟩ := deliver_of_live s k r J.j_fault hne
  have hfop := is_wrlck_eq (J.j_kind req hmem)
  have hkind : ∀ x ∈ s.outstanding.eraseIdx (k % s.outstanding.length),
      Fop.is_wrlck x.fop = true :=
    fun x hx => J.j_kind x (List.mem_of_mem_eraseIdx hx)
  have hcc := J.j_count
  have h1 := J.j_fault
  have h2 := J.j_nodes
  have h3 := J.j_sources
  have h4 := J.j_source
  have h5 := J.j_block
  have h6 := J.j_size
  have h7 := J.j_offset
  have h8 := J.j_trace
  have h9 := J.j_compl
  have h10 := J.j_fails
  have hnl : ¬ (s.call_count - 1 = 0) := by omega
  rw [heq]
  simp only [callback, hfop, sh_lock_inode_cbk, hnl, if_false]
  refine ⟨?_, hlen⟩
  constructor
  all_goals first
    | assumption
    | (simp only []; omega)
    | (simp_all [open_failures_snoc, Fop.is_open, Fop.is_writev, Fop.is_flush, Fop.is_unlck,
        Fop.is_wrlck]; done)
    | (simp [open_failures_snoc, hfop, Fop.is_open]; split_ifs <;> omega)

theorem join_stay_open (s0 s : Frame) (k : Nat) (r : Response)
    (J : Joining Fop.is_open s0 s) (hn : 2 ≤ s.outstanding.length) :
    Joining Fop.is_open s0 (deliver s k r) ∧
      (deliver s k r).outstanding.length + 1 = s.outstanding.length := by
  have hne : s.outstanding ≠ [] := by
    intro h; rw [h] at hn; simp at hn
  obtain ⟨req, hmem, hlen, heq⟩ := deliver_of_live s k r J.j_fault hne
  have hfop := is_open_eq (J.j_kind req hmem)
  have hkind : ∀ x ∈ s.outstanding.eraseIdx (k % s.outstanding.length),
      Fop.is_open x.fop = true :=
    fun x hx => J.j_kind x (List.mem_of_mem_eraseIdx hx)
  have hcc := J.j_count
  have h1 := J.j_fault
  have h2 := J.j_nodes
  have h3 := J.j_sources
  have h4 := J.j_source
  have h5 := J.j_block
  have h6 := J.j_size
  have h7 := J.j_offset
  have h8 := J.j_trace
  have h9 := J.j_compl
  have h10 := J.j_fails
  have hnl : ¬ (s.call_count - 1 = 0) := by omega
  rw [heq]
  simp only [callback, hfop, sh_open_source_and_sinks_cbk_eq, hnl, if_false]
  refine ⟨?_, hlen⟩
  constructor
  all_goals first
    | assumption
    | (simp only []; omega)
    | (simp_all [open_failures_snoc, Fop.is_open, Fop.is_writev, Fop.is_flush, Fop.is_unlck,
        Fop.is_wrlck]; done)
    | (simp [open_failures_snoc, hfop, Fop.is_open]; split_ifs <;> omega)

theorem join_stay_write (s0 s : Frame) (k : Nat) (r : Response)
    (J : Joining Fop.is_writev s0 s) (hn : 2 ≤ s.outstanding.length) :
    Joining Fop.is_writev s0 (deliver s k r) ∧
      (deliver s k r).outstanding.length + 1 = s.outstanding.length := by
  have hne : s.outstanding ≠ [] := by
    intro h; rw [h] at hn; simp at hn
  obtain ⟨req, hmem, hlen, heq⟩ := deliver_of_live s k r J.j_fault hne
  have hfop := is_writev_eq (J.j_kind req hmem)
  obtain ⟨wv, wo, hfop⟩ := hfop
  have hkind : ∀ x ∈ s.outstanding.eraseIdx (k % s.outstanding.length),
      Fop.is_writev x.fop = true :=
    fun x hx => J.j_kind x (List.mem_of_mem_eraseIdx hx)
  have hcc := J.j_count
  have h1 := J.j_fault
  have h2 := J.j_nodes
  have h3 := J.j_sources
  have h4 := J.j_source
  have h5 := J.j_block
  have h6 := J.j_size
  have h7 := J.j_offset
  have h8 := J.j_trace
  have h9 := J.j_compl
  have h10 := J.j_fails
  have hnl : ¬ (s.call_count - 1 = 0) := by omega
  rw [heq]
  simp only [callback, hfop, sh_write_cbk, hnl, if_false]
  refine ⟨?_, hlen⟩
  constructor
  all_goals first
    | assumption
    | (simp only []; omega)
    | (simp_all [open_failures_snoc, Fop.is_open, Fop.is_writev, Fop.is_flush, Fop.is_unlck,
        Fop.is_wrlck]; done)
    | (simp [open_failures_snoc, hfop, Fop.is_open]; split_ifs <;> omega)

theorem join_stay_flush (s0 s : Frame) (k : Nat) (r : Response)
    (J : Joining Fop.is_flush s0 s) (hn : 2 ≤ s.outstanding.length) :
    Joining Fop.is_flush s0 (deliver s k r) ∧
      (deliver s k r).outstanding.length + 1 = s.outstanding.length := by
  have hne : s.outstanding ≠ [] := by
    intro h; rw [h] at hn; simp at hn
  obtain ⟨req, hmem, hlen, heq⟩ := deliver_of_live s k r J.j_fault hne
  have hfop := is_flush_eq (J.j_kind req hmem)
  have hkind : ∀ x ∈ s.outstanding.eraseIdx (k % s.outstanding.length),
      Fop.is_flush x.fop = true :=
    fun x hx => J.j_kind x (List.mem_of_mem_eraseIdx hx)
  have hcc := J.j_count
  have h1 := J.j_fault
  have h2 := J.j_nodes
  have h3 := J.j_sources
  have h4 := J.j_source
  have h5 := J.j_block
  have h6 := J.j_size
  have h7 := J.j_offset
  have h8 := J.j_trace
  have h9 := J.j_compl
  have h10 := J.j_fails
  have hnl : ¬ (s.call_count - 1 = 0) := by omega
  rw [heq]
  simp only [callback, hfop, sh_close_fds_cbk, sh_erase_pending, hnl, if_false]
  refine ⟨?_, hlen⟩
  constructor
  all_goals first
    | assumption
    | (simp only []; omega)
    | (simp_all [open_failures_snoc, Fop.is_open, Fop.is_writev, Fop.is_flush, Fop.is_unlck,
        Fop.is_wrlck]; done)
    | (simp [open_failures_snoc, hfop, Fop.is_open]; split_ifs <;> omega)

theorem join_stay_unlock (s0 s : Frame) (k : Nat) (r : Response)
    (J : Joining Fop.is_unlck s0 s) (hn : 2 ≤ s.outstanding.length) :
    Joining Fop.is_unlck s0 (deliver s k r) ∧
      (deliver s k r).outstanding.length + 1 = s.outstanding.length := by
  have hne : s.outstanding ≠ [] := by
    intro h; rw [h] at hn; simp at hn
  obtain ⟨req, hmem, hlen, heq⟩ := deliver_of_live s k r J.j_fault hne
  have hfop := is_unlck_eq (J.j_kind req hmem)
  have hkind : ∀ x ∈ s.outstanding.eraseIdx (k % s.outstanding.length),
      Fop.is_unlck x.fop = true :=
    fun x hx => J.j_kind x (List.mem_of_mem_eraseIdx hx)
  have hcc := J.j_count
  have h1 := J.j_fault
  have h2 := J.j_nodes
  have h3 := J.j_sources
  have h4 := J.j_source
  have h5 := J.j_block
  have h6 := J.j_size
  have h7 := J.j_offset
  have h8 := J.j_trace
  have h9 := J.j_compl
  have h10 := J.j_fails
  have hnl : ¬ (s.call_count - 1 = 0) := by omega
  rw [heq]
  simp only [callback, hfop, sh_unlock_inode_cbk, hnl, if_false]
  refine ⟨?_, hlen⟩
  constructor
  all_goals first
    | assumption
    | (simp only []; omega)
    | (simp_all [open_failures_snoc, Fop.is_open, Fop.is_writev, Fop.is_flush, Fop.is_unlck,
        Fop.is_wrlck]; done)
    | (simp [open_failures_snoc, hfop, Fop.is_open]; split_ifs <;> omega)

theorem join_last_lock (s0 s : Frame) (k : Nat) (r : Response)
    (J : Joining Fop.is_wrlck s0 s) (hone : s.outstanding.length = 1) :
    (deliver s k r).trace = s0.trace ++ (targets s0).map (fun i => Request.mk i Fop.open_) ∧
    (deliver s k r).outstanding = (targets s0).map (fun i => Request.mk i Fop.open_) := by
  have hn : 1 ≤ s.outstanding.length := by omega
  have hne : s.outstanding ≠ [] := by
    intro h; rw [h] at hn; simp at hn
  obtain ⟨req, hmem, hlen, heq⟩ := deliver_of_live s k r J.j_fault hne
  have hfop := is_wrlck_eq (J.j_kind req hmem)
  have hkind : ∀ x ∈ s.outstanding.eraseIdx (k % s.outstanding.length),
      Fop.is_wrlck x.fop = true :=
    fun x hx => J.j_kind x (List.mem_of_mem_eraseIdx hx)
  have hcc := J.j_count
  have h1 := J.j_fault
  have h2 := J.j_nodes
  have h3 := J.j_sources
  have h4 := J.j_source
  have h5 := J.j_block
  have h6 := J.j_size
  have h7 := J.j_offset
  have h8 := J.j_trace
  have h9 := J.j_compl
  have h10 := J.j_fails
  have hnil : s.outstanding.eraseIdx (k % s.outstanding.length) = [] := by
    apply List.length_eq_zero.mp; omega
  have hl : s.call_count - 1 = 0 := by omega
  rw [heq]
  simp only [callback, hfop, sh_lock_inode_cbk, hl, if_true, sh_open_source_and_sinks_eq,
    wind_children, hnil, List.nil_append, targets_eq, h2, h3, h4, h8]
  exact ⟨trivial, trivial⟩

theorem join_last_flush (s0 s : Frame) (k : Nat) (r : Response)
    (J : Joining Fop.is_flush s0 s) (hone : s.outstanding.length = 1) :
    (deliver s k r).trace
      = s0.trace ++ (targets s0).map (fun i => Request.mk i (Fop.inodelk LockType.F_UNLCK)) ∧
    (deliver s k r).outstanding
      = (targets s0).map (fun i => Request.mk i (Fop.inodelk LockType.F_UNLCK)) := by
  have hn : 1 ≤ s.outstanding.length := by omega
  have hne : s.outstanding ≠ [] := by
    intro h; rw [h] at hn; simp at hn
  obtain ⟨req, hmem, hlen, heq⟩ := deliver_of_live s k r J.j_fault hne
  have hfop := is_flush_eq (J.j_kind req hmem)
  have hkind : ∀ x ∈ s.outstanding.eraseIdx (k % s.outstanding.length),
      Fop.is_flush x.fop = true :=
    fun x hx => J.j_kind x (List.mem_of_mem_eraseIdx hx)
  have hcc := J.j_count
  have h1 := J.j_fault
  have h2 := J.j_nodes
  have h3 := J.j_sources
  have h4 := J.j_source
  have h5 := J.j_block
  have h6 := J.j_size
  have h7 := J.j_offset
  have h8 := J.j_trace
  have h9 := J.j_compl
  have h10 := J.j_fails
  have hnil : s.outstanding.eraseIdx (k % s.outstanding.length) = [] := by
    apply List.length_eq_zero.mp; omega
  have hl : s.call_count - 1 = 0 := by omega
  rw [heq]
  simp only [callback, hfop, sh_close_fds_cbk, sh_erase_pending, hl, if_true,
    sh_unlock_inode_eq, wind_children, hnil, List.nil_append, targets_eq, h2, h3, h4, h8]
  exact ⟨trivial, trivial⟩

theorem join_last_unlock (s0 s : Frame) (k : Nat) (r : Response)
    (J : Joining Fop.is_unlck s0 s) (hone : s.outstanding.length = 1) :
    ((deliver s k r).trace = s0.trace ++ [] ∧ (deliver s k r).outstanding = []) ∧
    (deliver s k r).completions = s.completions + 1 := by
  have hn : 1 ≤ s.outstanding.length := by omega
  have hne : s.outstanding ≠ [] := by
    intro h; rw [h] at hn; simp at hn
  obtain ⟨req, hmem, hlen, heq⟩ := deliver_of_live s k r J.j_fault hne
  have hfop := is_unlck_eq (J.j_kind req hmem)
  have hkind : ∀ x ∈ s.outstanding.eraseIdx (k % s.outstanding.length),
      Fop.is_unlck x.fop = true :=
    fun x hx => J.j_kind x (List.mem_of_mem_eraseIdx hx)
  have hcc := J.j_count
  have h1 := J.j_fault
  have h2 := J.j_nodes
  have h3 := J.j_sources
  have h4 := J.j_source
  have h5 := J.j_block
  have h6 := J.j_size
  have h7 := J.j_offset
  have h8 := J.j_trace
  have h9 := J.j_compl
  have h10 := J.j_fails
  have hnil : s.outstanding.eraseIdx (k % s.outstanding.length) = [] := by
    apply List.length_eq_zero.mp; omega
  have hl : s.call_count - 1 = 0 := by omega
  rw [heq]
  simp only [callback, hfop, sh_unlock_inode_cbk, hl, if_true, sh_cleanup_and_terminate,
    completion_cbk, hnil, h8, List.append_nil]
  exact ⟨⟨trivial, trivial⟩, trivial⟩

theorem join_last_open (s0 s : Frame) (k : Nat) (r : Response)
    (J : Joining Fop.is_open s0 s) (hone : s.outstanding.length = 1)
    (hv0 : 0 ≤ s0.source) (hv1 : s0.source < (s0.child_count : Int)) :
    (deliver s k r).trace
      = s0.trace ++ [Request.mk s0.source.toNat (Fop.readv s0.block_size s0.offset)] ∧
    (deliver s k r).outstanding
      = [Request.mk s0.source.toNat (Fop.readv s0.block_size s0.offset)] := by
  have hn : 1 ≤ s.outstanding.length := by omega
  have hne : s.outstanding ≠ [] := by
    intro h; rw [h] at hn; simp at hn
  obtain ⟨req, hmem, hlen, heq⟩ := deliver_of_live s k r J.j_fault hne
  have hfop := is_open_eq (J.j_kind req hmem)
  have hkind : ∀ x ∈ s.outstanding.eraseIdx (k % s.outstanding.length),
      Fop.is_open x.fop = true :=
    fun x hx => J.j_kind x (List.mem_of_mem_eraseIdx hx)
  have hcc := J.j_count
  have h1 := J.j_fault
  have h2 := J.j_nodes
  have h3 := J.j_sources
  have h4 := J.j_source
  have h5 := J.j_block
  have h6 := J.j_size
  have h7 := J.j_offset
  have h8 := J.j_trace
  have h9 := J.j_compl
  have h10 := J.j_fails
  have hnil : s.outstanding.eraseIdx (k % s.outstanding.length) = [] := by
    apply List.length_eq_zero.mp; omega
  have hl : s.call_count - 1 = 0 := by omega
  rw [heq]
  simp only [callback, hfop, sh_open_source_and_sinks_cbk_eq, hl, if_true]
  rw [sh_read_write_eq _ (by simp only [h4]; exact hv0) (by simp only [h4, h2]; exact hv1)]
  simp only [wind_children, hnil, List.nil_append, h4, h5, h7, h8, List.map_cons, List.map_nil]
  exact ⟨trivial, trivial⟩

theorem join_last_write (s0 s : Frame) (k : Nat) (r : Response)
    (J : Joining Fop.is_writev s0 s) (hone : s.outstanding.length = 1)
    (hv0 : 0 ≤ s0.source) (hv1 : s0.source < (s0.child_count : Int)) :
    (deliver s k r).trace
      = s0.trace ++
        (if s0.offset < s0.file_size then
          [Request.mk s0.source.toNat (Fop.readv s0.block_size s0.offset)]
        else (targets s0).map (fun i => Request.mk i Fop.flush)) ∧
    (deliver s k r).outstanding
      = (if s0.offset < s0.file_size then
          [Request.mk s0.source.toNat (Fop.readv s0.block_size s0.offset)]
        else (targets s0).map (fun i => Request.mk i Fop.flush)) := by
  have hn : 1 ≤ s.outstanding.length := by omega
  have hne : s.outstanding ≠ [] := by
    intro h; rw [h] at hn; simp at hn
  obtain ⟨req, hmem, hlen, heq⟩ := deliver_of_live s k r J.j_fault hne
  have hfop := is_writev_eq (J.j_kind req hmem)
  obtain ⟨wv, wo, hfop⟩ := hfop
  have hkind : ∀ x ∈ s.outstanding.eraseIdx (k % s.outstanding.length),
      Fop.is_writev x.fop = true :=
    fun x hx => J.j_kind x (List.mem_of_mem_eraseIdx hx)
  have hcc := J.j_count
  have h1 := J.j_fault
  have h2 := J.j_nodes
  have h3 := J.j_sources
  have h4 := J.j_source
  have h5 := J.j_block
  have h6 := J.j_size
  have h7 := J.j_offset
  have h8 := J.j_trace
  have h9 := J.j_compl
  have h10 := J.j_fails
  have hnil : s.outstanding.eraseIdx (k % s.outstanding.length) = [] := by
    apply List.length_eq_zero.mp; omega
  have hl : s.call_count - 1 = 0 := by omega
  rw [heq]
  simp only [callback, hfop, sh_write_cbk, hl, if_true]
  by_cases hoff : s0.offset < s0.file_size
  · have hoff2 : s.offset < s.file_size := by rw [h6, h7]; exact hoff
    simp only [hoff, hoff2, if_true]
    rw [sh_read_write_eq _ (by simp only [h4]; exact hv0) (by simp only [h4, h2]; exact hv1)]
    simp only [wind_children, hnil, List.nil_append, h4, h5, h7, h8, List.map_cons,
      List.map_nil]
    exact ⟨trivial, trivial⟩
  · have hoff2 : ¬ s.offset < s.file_size := by rw [h6, h7]; exact hoff
    simp only [hoff, hoff2, if_false, sh_close_fds_eq, wind_children, hnil, List.nil_append,
      targets_eq, h2, h3, h4, h8]
    exact ⟨trivial, trivial⟩

theorem join_run (K : Fop → Bool)
    (hstay : ∀ (s0 s : Frame) (k : Nat) (r : Response), Joining K s0 s →
      2 ≤ s.outstanding.length →
      Joining K s0 (deliver s k r) ∧
        (deliver s k r).outstanding.length + 1 = s.outstanding.length)
    (s0 : Frame) :
    ∀ (sched : List (Nat × Response)) (s : Frame), Joining K s0 s →
      sched.length < s.outstanding.length →
      Joining K s0 (run s sched) ∧
        (run s sched).outstanding.length + sched.length = s.outstanding.length := by
  intro sched
  induction sched with
  | nil => intro s J _; exact ⟨J, rfl⟩
  | cons e rest ih =>
    intro s J hlt
    simp only [List.length_cons] at hlt
    obtain ⟨J2, hl2⟩ := hstay s0 s e.1 e.2 J (by omega)
    obtain ⟨J3, hl3⟩ := ih (deliver s e.1 e.2) J2 (by omega)
    refine ⟨J3, ?_⟩
    simp only [List.length_cons]
    have : run s (e :: rest) = run (deliver s e.1 e.2) rest := rfl
    rw [this]
    omega

theorem joins_on_last_of (K : Fop → Bool) (s0 : Frame) (next : List Request)
    (hstay : ∀ (s0 s : Frame) (k : Nat) (r : Response), Joining K s0 s →
      2 ≤ s.outstanding.length →
      Joining K s0 (deliver s k r) ∧
        (deliver s k r).outstanding.length + 1 = s.outstanding.length)
    (hlast : ∀ (s : Frame) (k : Nat) (r : Response), Joining K s0 s →
      s.outstanding.length = 1 →
      (deliver s k r).trace = s0.trace ++ next ∧ (deliver s k r).outstanding = next)
    (J0 : Joining K s0 s0) : JoinsOnLast s0 next := by
  refine ⟨J0.j_count, ?_, ?_⟩
  · intro sched hlt
    obtain ⟨J, hl⟩ := join_run K hstay s0 sched s0 J0 hlt
    refine ⟨J.j_trace, ?_⟩
    rw [J.j_count, J0.j_count]
    omega
  · intro sched hlen hne
    have hpos : 0 < s0.outstanding.length := List.length_pos.mpr hne
    have hsn : sched ≠ [] := by
      intro h; rw [h] at hlen; simp at hlen; omega
    obtain ⟨pre, e, rfl⟩ : ∃ pre e, sched = pre ++ [e] :=
      ⟨sched.dropLast, sched.getLast hsn, (List.dropLast_append_getLast hsn).symm⟩
    simp only [List.length_append, List.length_singleton] at hlen
    obtain ⟨J, hl⟩ := join_run K hstay s0 pre s0 J0 (by omega)
    have hrun : run s0 (pre ++ [e]) = deliver (run s0 pre) e.1 e.2 := run_snoc s0 pre e.1 e.2
    rw [hrun]
    exact hlast (run s0 pre) e.1 e.2 J (by omega)

/-! ## The five fan-outs -/

theorem deliver_single (s : Frame) (k : Nat) (r : Response) (req : Request)
    (hf : s.fault = false) (h : s.outstanding = [req]) :
    deliver s k r =
      callback { s with outstanding := [], answered := s.answered ++ [(req, r.op_ret)] }
        req r := by
  simp [deliver, hf, h, Nat.mod_one]

theorem joining_targets (K : Fop → Bool) (fop : Fop) (hK : K fop = true) (f : Frame)
    (hf : f.fault = false) (hq : f.outstanding = [])
    (hv0 : 0 ≤ f.source) (hv1 : f.source < (f.child_count : Int))
    (hv2 : f.sources.getD f.source.toNat 0 ≠ 0) :
    Joining K
      (wind_children { f with call_count := ((sinks f).length : Int) + 1 } (targets f) fop)
      (wind_children { f with call_count := ((sinks f).length : Int) + 1 } (targets f) fop) := by
  have hT := targets_length f hv0 hv1 hv2
  exact
    { j_fault := hf
      j_kind := by
        intro req hreq
        simp only [wind_children, hq, List.nil_append, List.mem_map] at hreq
        obtain ⟨i, _, rfl⟩ := hreq
        exact hK
      j_count := by
        simp only [wind_children, hq, List.nil_append, List.length_map]
        omega
      j_nodes := rfl
      j_sources := rfl
      j_source := rfl
      j_block := rfl
      j_size := rfl
      j_offset := rfl
      j_trace := rfl
      j_compl := by simp only [wind_children]
      j_fails := fun _ => rfl }

theorem joining_sinks (f : Frame) (c : Nat) (r : Response)
    (hf : f.fault = false) (hq : f.outstanding = []) :
    Joining Fop.is_writev (sh_read_cbk f c r) (sh_read_cbk f c r) := by
  rw [sh_read_cbk_eq]
  exact
    { j_fault := hf
      j_kind := by
        intro req hreq
        simp only [wind_children, hq, List.nil_append, List.mem_map] at hreq
        obtain ⟨i, _, rfl⟩ := hreq
        rfl
      j_count := by
        simp only [wind_children, hq, List.nil_append, List.length_map]
      j_nodes := rfl
      j_sources := rfl
      j_source := rfl
      j_block := rfl
      j_size := rfl
      j_offset := rfl
      j_trace := rfl
      j_compl := by simp only [wind_children]
      j_fails := fun _ => rfl }

theorem targets_ne_nil (f : Frame) (hv0 : 0 ≤ f.source) (hv1 : f.source < (f.child_count : Int))
    (hv2 : f.sources.getD f.source.toNat 0 ≠ 0) : targets f ≠ [] := by
  have hT := targets_length f hv0 hv1 hv2
  intro h
  rw [h] at hT
  simp at hT

theorem mem_sinks (f : Frame) (i : Nat) :
    i ∈ sinks f ↔ i < f.child_count ∧ f.sources.getD i 0 = 0 := by
  simp [sinks, is_sink, List.mem_filter, List.mem_range]

theorem mem_targets (f : Frame) (i : Nat) :
    i ∈ targets f ↔ i < f.child_count ∧ ((i : Int) = f.source ∨ f.sources.getD i 0 = 0) := by
  simp [targets, is_target, List.mem_filter, List.mem_range]

theorem joins_lock (f : Frame) (hf : f.fault = false) (hq : f.outstanding = [])
    (hv0 : 0 ≤ f.source) (hv1 : f.source < (f.child_count : Int))
    (hv2 : f.sources.getD f.source.toNat 0 ≠ 0) :
    JoinsOnLast (sh_lock_inode f) ((targets f).map fun i => Request.mk i Fop.open_) := by
  have J := joining_targets Fop.is_wrlck (Fop.inodelk LockType.F_WRLCK) rfl f hf hq hv0 hv1 hv2
  rw [← sh_lock_inode_eq] at J
  exact joins_on_last_of Fop.is_wrlck _ _ join_stay_lock
    (fun s k r Js h1 => join_last_lock _ s k r Js h1) J

theorem joins_open (f : Frame) (hf : f.fault = false) (hq : f.outstanding = [])
    (hv0 : 0 ≤ f.source) (hv1 : f.source < (f.child_count : Int))
    (hv2 : f.sources.getD f.source.toNat 0 ≠ 0) :
    JoinsOnLast (sh_open_source_and_sinks f)
      [Request.mk f.source.toNat (Fop.readv f.block_size f.offset)] := by
  have J := joining_targets Fop.is_open Fop.open_ rfl f hf hq hv0 hv1 hv2
  rw [← sh_open_source_and_sinks_eq] at J
  refine joins_on_last_of Fop.is_open _ _ join_stay_open
    (fun s k r Js h1 => ?_) J
  have := join_last_open _ s k r Js h1
    (by rw [sh_open_source_and_sinks_eq]; exact hv0)
    (by rw [sh_open_source_and_sinks_eq]; exact hv1)
  rw [sh_open_source_and_sinks_eq] at this ⊢
  exact this

theorem joins_write (f : Frame) (c : Nat) (r : Response) (hf : f.fault = false)
    (hq : f.outstanding = [])
    (hv0 : 0 ≤ f.source) (hv1 : f.source < (f.child_count : Int)) :
    JoinsOnLast (sh_read_cbk f c r)
      (if f.offset + r.op_ret < f.file_size then
        [Request.mk f.source.toNat (Fop.readv f.block_size (f.offset + r.op_ret))]
      else (targets f).map fun i => Request.mk i Fop.flush) := by
  have J := joining_sinks f c r hf hq
  refine joins_on_last_of Fop.is_writev _ _ join_stay_write
    (fun s k r2 Js h1 => ?_) J
  have := join_last_write _ s k r2 Js h1
    (by rw [sh_read_cbk_eq]; exact hv0)
    (by rw [sh_read_cbk_eq]; exact hv1)
  rw [sh_read_cbk_eq] at this ⊢
  exact this

theorem joins_flush (f : Frame) (hf : f.fault = false) (hq : f.outstanding = [])
    (hv0 : 0 ≤ f.source) (hv1 : f.source < (f.child_count : Int))
    (hv2 : f.sources.getD f.source.toNat 0 ≠ 0) :
    JoinsOnLast (sh_close_fds f)
      ((targets f).map fun i => Request.mk i (Fop.inodelk LockType.F_UNLCK)) := by
  have J := joining_targets Fop.is_flush Fop.flush rfl f hf hq hv0 hv1 hv2
  rw [← sh_close_fds_eq] at J
  exact joins_on_last_of Fop.is_flush _ _ join_stay_flush
    (fun s k r Js h1 => join_last_flush _ s k r Js h1) J

theorem joins_unlock (f : Frame) (hf : f.fault = false) (hq : f.outstanding = [])
    (hv0 : 0 ≤ f.source) (hv1 : f.source < (f.child_count : Int))
    (hv2 : f.sources.getD f.source.toNat 0 ≠ 0) :
    JoinsOnLast (sh_unlock_inode f) [] := by
  have J := joining_targets Fop.is_unlck (Fop.inodelk LockType.F_UNLCK) rfl f hf hq hv0 hv1 hv2
  rw [← sh_unlock_inode_eq] at J
  exact joins_on_last_of Fop.is_unlck _ _ join_stay_unlock
    (fun s k r Js h1 => (join_last_unlock _ s k r Js h1).1) J

/-! ## What a fan-out completes and releases -/

theorem quiet_lock (s0 s : Frame) (k : Nat) (r : Response)
    (J : Joining Fop.is_wrlck s0 s) (hn : 1 ≤ s.outstanding.length) :
    (deliver s k r).completions = s.completions ∧ (deliver s k r).cleanups = s.cleanups := by
  have hne : s.outstanding ≠ [] := by
    intro h; rw [h] at hn; simp at hn
  obtain ⟨req, hmem, _, heq⟩ := deliver_of_live s k r J.j_fault hne
  have hfop := is_wrlck_eq (J.j_kind req hmem)
  rw [heq]
  simp only [callback, hfop, sh_lock_inode_cbk]
  split_ifs <;> simp [sh_open_source_and_sinks_eq, wind_children]

theorem quiet_open (s0 s : Frame) (k : Nat) (r : Response)
    (J : Joining Fop.is_open s0 s) (hn : 1 ≤ s.outstanding.length) (hok : not_failed r) :
    (deliver s k r).completions = s.completions ∧ (deliver s k r).cleanups = s.cleanups := by
  have hne : s.outstanding ≠ [] := by
    intro h; rw [h] at hn; simp at hn
  obtain ⟨req, hmem, _, heq⟩ := deliver_of_live s k r J.j_fault hne
  have hfop := is_open_eq (J.j_kind req hmem)
  have hok2 : ¬ r.op_ret = -1 := hok
  rw [heq]
  simp only [callback, hfop, sh_open_source_and_sinks_cbk_eq, hok2, if_false]
  split_ifs <;> simp [sh_read_write, wind_source, wind_children]
  split_ifs <;> simp

theorem quiet_write (s0 s : Frame) (k : Nat) (r : Response)
    (J : Joining Fop.is_writev s0 s) (hn : 1 ≤ s.outstanding.length) :
    (deliver s k r).completions = s.completions ∧ (deliver s k r).cleanups = s.cleanups := by
  have hne : s.outstanding ≠ [] := by
    intro h; rw [h] at hn; simp at hn
  obtain ⟨req, hmem, _, heq⟩ := deliver_of_live s k r J.j_fault hne
  obtain ⟨wv, wo, hfop⟩ := is_writev_eq (J.j_kind req hmem)
  rw [heq]
  simp only [callback, hfop, sh_write_cbk]
  split_ifs <;> simp [sh_read_write, wind_source, wind_children, sh_close_fds_eq]
  split_ifs <;> simp

theorem quiet_flush (s0 s : Frame) (k : Nat) (r : Response)
    (J : Joining Fop.is_flush s0 s) (hn : 1 ≤ s.outstanding.length) :
    (deliver s k r).completions = s.completions ∧ (deliver s k r).cleanups = s.cleanups := by
  have hne : s.outstanding ≠ [] := by
    intro h; rw [h] at hn; simp at hn
  obtain ⟨req, hmem, _, heq⟩ := deliver_of_live s k r J.j_fault hne
  have hfop := is_flush_eq (J.j_kind req hmem)
  rw [heq]
  simp only [callback, hfop, sh_close_fds_cbk, sh_erase_pending]
  split_ifs <;> simp [sh_unlock_inode_eq, wind_children]

theorem quiet_unlock (s0 s : Frame) (k : Nat) (r : Response)
    (J : Joining Fop.is_unlck s0 s) (hn : 2 ≤ s.outstanding.length) :
    (deliver s k r).completions = s.completions ∧ (deliver s k r).cleanups = s.cleanups := by
  have hne : s.outstanding ≠ [] := by
    intro h; rw [h] at hn; simp at hn
  obtain ⟨req, hmem, hlen, heq⟩ := deliver_of_live s k r J.j_fault hne
  have hfop := is_unlck_eq (J.j_kind req hmem)
  have hcc := J.j_count
  have hnl : ¬ (s.call_count - 1 = 0) := by omega
  rw [heq]
  simp only [callback, hfop, sh_unlock_inode_cbk, hnl, if_false]
  exact ⟨trivial, trivial⟩

theorem done_unlock (s0 s : Frame) (k : Nat) (r : Response)
    (J : Joining Fop.is_unlck s0 s) (hone : s.outstanding.length = 1) :
    (deliver s k r).completions = s.completions + 1 ∧
      (deliver s k r).cleanups = s.cleanups + 1 := by
  have hne : s.outstanding ≠ [] := by
    intro h; rw [h] at hone; simp at hone
  obtain ⟨req, hmem, hlen, heq⟩ := deliver_of_live s k r J.j_fault hne
  have hfop := is_unlck_eq (J.j_kind req hmem)
  have hcc := J.j_count
  have hl : s.call_count - 1 = 0 := by omega
  rw [heq]
  simp only [callback, hfop, sh_unlock_inode_cbk, hl, if_true, sh_cleanup_and_terminate,
    completion_cbk]
  exact ⟨trivial, trivial⟩

theorem quiet_run (K : Fop → Bool) (allowed : Response → Prop)
    (hstay : ∀ (s0 s : Frame) (k : Nat) (r : Response), Joining K s0 s →
      2 ≤ s.outstanding.length →
      Joining K s0 (deliver s k r) ∧
        (deliver s k r).outstanding.length + 1 = s.outstanding.length)
    (hquiet : ∀ (s0 s : Frame) (k : Nat) (r : Response), Joining K s0 s →
      2 ≤ s.outstanding.length → allowed r →
      (deliver s k r).completions = s.completions ∧ (deliver s k r).cleanups = s.cleanups)
    (s0 : Frame) :
    ∀ (sched : List (Nat × Response)) (s : Frame), Joining K s0 s →
      (∀ e ∈ sched, allowed e.2) → sched.length < s.outstanding.length →
      (run s sched).completions = s.completions ∧ (run s sched).cleanups = s.cleanups := by
  intro sched
  induction sched with
  | nil => intro s _ _ _; exact ⟨rfl, rfl⟩
  | cons e rest ih =>
    intro s J hall hlt
    simp only [List.length_cons] at hlt
    obtain ⟨J2, hl2⟩ := hstay s0 s e.1 e.2 J (by omega)
    obtain ⟨h1, h2⟩ := hquiet s0 s e.1 e.2 J (by omega) (hall e (List.mem_cons_self _ _))
    obtain ⟨h3, h4⟩ := ih (deliver s e.1 e.2) J2
      (fun x hx => hall x (List.mem_cons_of_mem _ hx)) (by omega)
    have : run s (e :: rest) = run (deliver s e.1 e.2) rest := rfl
    rw [this, h3, h4, h1, h2]
    exact ⟨rfl, rfl⟩

theorem joins_quietly_of (K : Fop → Bool) (s0 : Frame) (next : List Request)
    (allowed : Response → Prop) (finishes : Nat)
    (hstay : ∀ (s0 s : Frame) (k : Nat) (r : Response), Joining K s0 s →
      2 ≤ s.outstanding.length →
      Joining K s0 (deliver s k r) ∧
        (deliver s k r).outstanding.length + 1 = s.outstanding.length)
    (hquiet : ∀ (s0 s : Frame) (k : Nat) (r : Response), Joining K s0 s →
      2 ≤ s.outstanding.length → allowed r →
      (deliver s k r).completions = s.completions ∧ (deliver s k r).cleanups = s.cleanups)
    (hdone : ∀ (s : Frame) (k : Nat) (r : Response), Joining K s0 s →
      s.outstanding.length = 1 → allowed r →
      (deliver s k r).completions = s.completions + finishes ∧
        (deliver s k r).cleanups = s.cleanups + finishes)
    (J0 : Joining K s0 s0) (hc : s0.cleanups = 0) (hJ : JoinsOnLast s0 next) :
    JoinsQuietly s0 next allowed finishes := by
  obtain ⟨hcount, hpre, hlast⟩ := hJ
  refine ⟨hc, hcount, ?_, ?_⟩
  · intro sched hall hlt
    obtain ⟨h1, h2⟩ := hpre sched hlt
    obtain ⟨h3, h4⟩ := quiet_run K allowed hstay hquiet s0 sched s0 J0 hall hlt
    exact ⟨h1, h2, h3, by rw [h4, hc]⟩
  · intro sched hall hlen hne
    obtain ⟨h1, h2⟩ := hlast sched hlen hne
    refine ⟨h1, h2, ?_⟩
    have hpos : 0 < s0.outstanding.length := List.length_pos.mpr hne
    have hsn : sched ≠ [] := by
      intro h; rw [h] at hlen; simp at hlen; omega
    obtain ⟨pre, e, rfl⟩ : ∃ pre e, sched = pre ++ [e] :=
      ⟨sched.dropLast, sched.getLast hsn, (List.dropLast_append_getLast hsn).symm⟩
    simp only [List.length_append, List.length_singleton] at hlen
    have hallp : ∀ x ∈ pre, allowed x.2 :=
      fun x hx => hall x (List.mem_append_left _ hx)
    obtain ⟨J, hl⟩ := join_run K hstay s0 pre s0 J0 (by omega)
    obtain ⟨h3, h4⟩ := quiet_run K allowed hstay hquiet s0 pre s0 J0 hallp (by omega)
    obtain ⟨h5, h6⟩ := hdone (run s0 pre) e.1 e.2 J (by omega)
      (hall e (List.mem_append_right _ (List.mem_singleton_self e)))
    have hrun : run s0 (pre ++ [e]) = deliver (run s0 pre) e.1 e.2 := run_snoc s0 pre e.1 e.2
    rw [hrun, h5, h6, h3, h4, hc]
    exact ⟨rfl, by omega⟩

theorem quietly_lock (f : Frame) (hf : f.fault = false) (hq : f.outstanding = [])
    (hc : f.cleanups = 0)
    (hv0 : 0 ≤ f.source) (hv1 : f.source < (f.child_count : Int))
    (hv2 : f.sources.getD f.source.toNat 0 ≠ 0) :
    JoinsQuietly (sh_lock_inode f) ((targets f).map fun i => Request.mk i Fop.open_)
      any_reply 0 := by
  have J := joining_targets Fop.is_wrlck (Fop.inodelk LockType.F_WRLCK) rfl f hf hq hv0 hv1 hv2
  rw [← sh_lock_inode_eq] at J
  exact joins_quietly_of Fop.is_wrlck _ _ any_reply 0 join_stay_lock
    (fun s0 s k r Js h2 _ => quiet_lock s0 s k r Js (by omega))
    (fun s k r Js h1 _ => quiet_lock _ s k r Js (by omega)) J
    (by rw [sh_lock_inode_eq]; exact hc) (joins_lock f hf hq hv0 hv1 hv2)

theorem quietly_open (f : Frame) (hf : f.fault = false) (hq : f.outstanding = [])
    (hc : f.cleanups = 0)
    (hv0 : 0 ≤ f.source) (hv1 : f.source < (f.child_count : Int))
    (hv2 : f.sources.getD f.source.toNat 0 ≠ 0) :
    JoinsQuietly (sh_open_source_and_sinks f)
      [Request.mk f.source.toNat (Fop.readv f.block_size f.offset)] not_failed 0 := by
  have J := joining_targets Fop.is_open Fop.open_ rfl f hf hq hv0 hv1 hv2
  rw [← sh_open_source_and_sinks_eq] at J
  exact joins_quietly_of Fop.is_open _ _ not_failed 0 join_stay_open
    (fun s0 s k r Js h2 hok => quiet_open s0 s k r Js (by omega) hok)
    (fun s k r Js h1 hok => quiet_open _ s k r Js (by omega) hok) J
    (by rw [sh_open_source_and_sinks_eq]; exact hc) (joins_open f hf hq hv0 hv1 hv2)

theorem quietly_write (f : Frame) (c : Nat) (r : Response) (hf : f.fault = false)
    (hq : f.outstanding = []) (hc : f.cleanups = 0)
    (hv0 : 0 ≤ f.source) (hv1 : f.source < (f.child_count : Int)) :
    JoinsQuietly (sh_read_cbk f c r)
      (if f.offset + r.op_ret < f.file_size then
        [Request.mk f.source.toNat (Fop.readv f.block_size (f.offset + r.op_ret))]
      else (targets f).map fun i => Request.mk i Fop.flush) any_reply 0 := by
  have J := joining_sinks f c r hf hq
  exact joins_quietly_of Fop.is_writev _ _ any_reply 0 join_stay_write
    (fun s0 s k r2 Js h2 _ => quiet_write s0 s k r2 Js (by omega))
    (fun s k r2 Js h1 _ => quiet_write _ s k r2 Js (by omega)) J
    (by rw [sh_read_cbk_eq]; exact hc) (joins_write f c r hf hq hv0 hv1)

theorem quietly_flush (f : Frame) (hf : f.fault = false) (hq : f.outstanding = [])
    (hc : f.cleanups = 0)
    (hv0 : 0 ≤ f.source) (hv1 : f.source < (f.child_count : Int))
    (hv2 : f.sources.getD f.source.toNat 0 ≠ 0) :
    JoinsQuietly (sh_close_fds f)
      ((targets f).map fun i => Request.mk i (Fop.inodelk LockType.F_UNLCK)) any_reply 0 := by
  have J := joining_targets Fop.is_flush Fop.flush rfl f hf hq hv0 hv1 hv2
  rw [← sh_close_fds_eq] at J
  exact joins_quietly_of Fop.is_flush _ _ any_reply 0 join_stay_flush
    (fun s0 s k r Js h2 _ => quiet_flush s0 s k r Js (by omega))
    (fun s k r Js h1 _ => quiet_flush _ s k r Js (by omega)) J
    (by rw [sh_close_fds_eq]; exact hc) (joins_flush f hf hq hv0 hv1 hv2)

theorem quietly_unlock (f : Frame) (hf : f.fault = false) (hq : f.outstanding = [])
    (hc : f.cleanups = 0)
    (hv0 : 0 ≤ f.source) (hv1 : f.source < (f.child_count : Int))
    (hv2 : f.sources.getD f.source.toNat 0 ≠ 0) :
    JoinsQuietly (sh_unlock_inode f) [] any_reply 1 := by
  have J := joining_targets Fop.is_unlck (Fop.inodelk LockType.F_UNLCK) rfl f hf hq hv0 hv1 hv2
  rw [← sh_unlock_inode_eq] at J
  exact joins_quietly_of Fop.is_unlck _ _ any_reply 1 join_stay_unlock
    (fun s0 s k r Js h2 _ => quiet_unlock s0 s k r Js h2)
    (fun s k r Js h1 _ => done_unlock _ s k r Js h1) J
    (by rw [sh_unlock_inode_eq]; exact hc) (joins_unlock f hf hq hv0 hv1 hv2)

/-! ## The copy against the backend -/

theorem mem_eraseIdx_of_nodup {α : Type} (x a : α) :
    ∀ (l : List α) (i : Nat), l.Nodup → l[i]? = some a →
      (x ∈ l.eraseIdx i ↔ x ∈ l ∧ x ≠ a) := by
  intro l
  induction l with
  | nil => intro i _ h; simp at h
  | cons y l ih =>
    intro i hnd h
    obtain ⟨hy, hl⟩ := List.nodup_cons.mp hnd
    cases i with
    | zero =>
      simp only [List.getElem?_cons_zero, Option.some.injEq] at h
      subst h
      simp only [List.eraseIdx_cons_zero, List.mem_cons]
      constructor
      · intro hx
        exact ⟨Or.inr hx, fun he => hy (he ▸ hx)⟩
      · rintro ⟨h1 | h1, h2⟩
        · exact absurd h1 h2
        · exact h1
    | succ j =>
      simp only [List.getElem?_cons_succ] at h
      have ha : a ∈ l := List.getElem?_mem h
      simp only [List.eraseIdx_cons_succ, List.mem_cons, ih j hl h]
      constructor
      · rintro (h1 | ⟨h1, h2⟩)
        · exact ⟨Or.inl h1, fun he => hy (h1 ▸ he ▸ ha)⟩
        · exact ⟨Or.inr h1, h2⟩
      · rintro ⟨h1 | h1, h2⟩
        · exact Or.inl h1
        · exact Or.inr ⟨h1, h2⟩

theorem overwrite_copied (src old v : List Nat) (o : Nat)
    (hle : o + v.length ≤ src.length) (hv : v = (src.drop o).take v.length) :
    overwrite (copied src old o) o v = copied src old (o + v.length) := by
  have ho : o ≤ src.length := by omega
  have hlen : (src.take o).length = o := by simp [List.length_take, ho]
  have h1 : (copied src old o).take o = src.take o := by
    unfold copied
    rw [List.take_append_of_le_length (by omega)]
    rw [List.take_take]; simp
  have h2 : o - (copied src old o).length = 0 := by
    unfold copied
    simp only [List.length_append, hlen]
    omega
  have h3 : (copied src old o).drop (o + v.length) = old.drop (o + v.length) := by
    unfold copied
    rw [List.drop_append_eq_append_drop]
    simp only [hlen, List.drop_drop]
    have : (src.take o).drop (o + v.length) = [] := by
      apply List.drop_eq_nil_of_le; omega
    rw [this]
    simp only [List.nil_append]
    congr 1
    omega
  unfold overwrite
  rw [h1, h2, h3]
  simp only [List.replicate_zero, List.append_nil]
  unfold copied
  rw [List.take_add]
  rw [← hv]

theorem read_bytes_spec (src : List Nat) (size : Int) (o pick : Nat) (hsize : 0 < size)
    (ho : o ≤ src.length) :
    read_bytes src size (o : Int) pick
        = (src.drop o).take (read_bytes src size (o : Int) pick).length ∧
      o + (read_bytes src size (o : Int) pick).length ≤ src.length ∧
      (o < src.length → 1 ≤ (read_bytes src size (o : Int) pick).length) := by
  unfold read_bytes
  by_cases h : o < src.length
  · have hc : 0 ≤ (o : Int) ∧ 0 < size ∧ (o : Int) < (src.length : Int) :=
      ⟨by omega, hsize, by exact_mod_cast h⟩
    simp only [hc, and_self, if_true, Int.toNat_ofNat]
    have hmin : 0 < min size.toNat (src.length - o) := by
      have : 0 < size.toNat := by omega
      omega
    have hmod := Nat.mod_lt pick hmin
    have hlen : ((src.drop o).take (1 + pick % min size.toNat (src.length - o))).length
        = 1 + pick % min size.toNat (src.length - o) := by
      rw [List.length_take, List.length_drop]
      omega
    refine ⟨?_, ?_, ?_⟩
    · rw [hlen]
    · rw [hlen]; omega
    · intro _; rw [hlen]; omega
  · have hc : ¬ (0 ≤ (o : Int) ∧ 0 < size ∧ (o : Int) < (src.length : Int)) := by
      intro hh; exact h (by exact_mod_cast hh.2.2)
    simp only [hc, if_false]
    refine ⟨by simp, by simpa using ho, fun h2 => absurd h2 h⟩

theorem world_step_eq (w : World) (k pick : Nat) (hf : w.frame.fault = false)
    (hne : w.frame.outstanding ≠ []) :
    ∃ req, req ∈ w.frame.outstanding ∧
      w.frame.outstanding[k % w.frame.outstanding.length]? = some req ∧
      (w.frame.outstanding.eraseIdx (k % w.frame.outstanding.length)).length + 1
        = w.frame.outstanding.length ∧
      w.step k pick =
        { frame :=
            callback
              { w.frame with
                outstanding := w.frame.outstanding.eraseIdx (k % w.frame.outstanding.length)
                answered := w.frame.answered ++ [(req, (backend_reply w.files req pick).1.op_ret)] }
              req (backend_reply w.files req pick).1
          files := (backend_reply w.files req pick).2 } := by
  have hpos : 0 < w.frame.outstanding.length := List.length_pos.mpr hne
  have hlt : k % w.frame.outstanding.length < w.frame.outstanding.length := Nat.mod_lt _ hpos
  refine ⟨w.frame.outstanding[k % w.frame.outstanding.length], List.getElem_mem _,
    List.getElem?_eq_getElem hlt, List.length_eraseIdx_add_one hlt, ?_⟩
  simp [World.step, deliver, hf, List.getElem?_eq_getElem hlt]

theorem sinks_nodup (f : Frame) : (sinks f).Nodup :=
  (List.nodup_range _).filter _

theorem source_not_sink (f : Frame)
    (hv2 : f.sources.getD f.source.toNat 0 ≠ 0) : f.source.toNat ∉ sinks f := by
  intro h
  exact hv2 ((mem_sinks f _).mp h).2

theorem copying_step_reading (f : Frame) (files0 : Nat → List Nat)
    (hv2 : f.sources.getD f.source.toNat 0 ≠ 0)
    (hsink : sinks f ≠ []) (hblk : 0 < f.block_size)
    (w : World) (m o k pick : Nat)
    (h_out : w.frame.outstanding
      = [Request.mk f.source.toNat (Fop.readv f.block_size (o : Int))])
    (h_off : w.frame.offset = (o : Int))
    (h_le : o ≤ (files0 f.source.toNat).length)
    (h_fault : w.frame.fault = false)
    (h_nodes : w.frame.child_count = f.child_count)
    (h_sources : w.frame.sources = f.sources)
    (h_source : w.frame.source = f.source)
    (h_block : w.frame.block_size = f.block_size)
    (h_size : w.frame.file_size = f.file_size)
    (h_compl : w.frame.completions = f.completions)
    (h_files : ∀ i, w.files i =
      if i ∈ sinks f then copied (files0 f.source.toNat) (files0 i) o else files0 i)
    (h_m : m = 2 * (targets f).length
      + ((files0 f.source.toNat).length - o) * ((sinks f).length + 1)
      + (sinks f).length + 1) :
    ∃ m2, m2 < m ∧ Copying f files0 (w.step k pick) m2 := by
  obtain ⟨req, hmem, _, _, hstep⟩ := world_step_eq w k pick h_fault (by rw [h_out]; simp)
  rw [h_out] at hmem hstep
  simp only [List.mem_singleton] at hmem
  subst hmem
  have hsrc : w.files f.source.toNat = files0 f.source.toNat := by
    rw [h_files]; simp [source_not_sink f hv2]
  obtain ⟨hv, hvle, hvsome⟩ :=
    read_bytes_spec (files0 f.source.toNat) f.block_size o pick hblk h_le
  have hnil : [Request.mk f.source.toNat (Fop.readv f.block_size (o : Int))].eraseIdx
      (k % [Request.mk f.source.toNat (Fop.readv f.block_size (o : Int))].length) = [] := by
    simp [Nat.mod_one]
  rw [hnil] at hstep
  simp only [callback, backend_reply, hsrc, sh_read_cbk_eq, wind_children, List.nil_append,
    sinks_eq, h_nodes, h_sources] at hstep
  simp only [← sinks_eq f] at hstep
  rw [hstep]
  refine ⟨2 * (targets f).length
      + ((files0 f.source.toNat).length - o) * ((sinks f).length + 1)
      + (sinks f).length, by omega, ?_⟩
  refine Copying.writing _ _ o (read_bytes (files0 f.source.toNat) f.block_size o pick)
    ?hk ?hnd ?hne ?hfew ?hcount ?hoff hvle hvsome hv ?_ ?_ ?_ ?_ ?_ ?_ ?_ ?hfiles ?hm
  case hk =>
    intro x hx
    simp only [List.mem_map] at hx
    obtain ⟨i, hi, rfl⟩ := hx
    exact ⟨by simp only [h_off], hi⟩
  case hnd =>
    simp only
    apply List.Nodup.map _ (sinks_nodup f)
    intro a b hab
    simpa using hab
  case hne => simpa using hsink
  case hfew => simp
  case hcount => simp
  case hoff => simp only [h_off]; push_cast; rfl
  case hfiles =>
    intro i
    simp only [h_off]
    rw [h_files i]
    by_cases hi : i ∈ sinks f
    · have : Request.mk i (Fop.writev
          (read_bytes (files0 f.source.toNat) f.block_size (o : Int) pick) (o : Int)) ∈
          (sinks f).map fun i => Request.mk i (Fop.writev
            (read_bytes (files0 f.source.toNat) f.block_size (o : Int) pick) (o : Int)) :=
        List.mem_map.mpr ⟨i, hi, rfl⟩
      simp only [hi, if_true, this]
    · simp only [hi, if_false]
  case hm => simp
  all_goals first | rfl | assumption

theorem copying_step_writing (f : Frame) (files0 : Nat → List Nat)
    (hv0 : 0 ≤ f.source) (hv1 : f.source < (f.child_count : Int))
    (hv2 : f.sources.getD f.source.toNat 0 ≠ 0)
    (hsize : f.file_size = ((files0 f.source.toNat).length : Int))
    (w : World) (m o : Nat) (v : List Nat) (k pick : Nat)
    (h_kind : ∀ req ∈ w.frame.outstanding,
      req.fop = Fop.writev v (o : Int) ∧ req.child ∈ sinks f)
    (h_nodup : w.frame.outstanding.Nodup)
    (h_ne : w.frame.outstanding ≠ [])
    (h_few : w.frame.outstanding.length ≤ (sinks f).length)
    (h_count : w.frame.call_count = (w.frame.outstanding.length : Int))
    (h_off : w.frame.offset = ((o + v.length : Nat) : Int))
    (h_le : o + v.length ≤ (files0 f.source.toNat).length)
    (h_some : o < (files0 f.source.toNat).length → 1 ≤ v.length)
    (h_v : v = ((files0 f.source.toNat).drop o).take v.length)
    (h_fault : w.frame.fault = false)
    (h_nodes : w.frame.child_count = f.child_count)
    (h_sources : w.frame.sources = f.sources)
    (h_source : w.frame.source = f.source)
    (h_block : w.frame.block_size = f.block_size)
    (h_size : w.frame.file_size = f.file_size)
    (h_compl : w.frame.completions = f.completions)
    (h_files : ∀ i, w.files i =
      if i ∈ sinks f then
        (if Request.mk i (Fop.writev v (o : Int)) ∈ w.frame.outstanding then
          copied (files0 f.source.toNat) (files0 i) o
        else copied (files0 f.source.toNat) (files0 i) (o + v.length))
      else files0 i)
    (h_m : m = 2 * (targets f).length
      + ((files0 f.source.toNat).length - o) * ((sinks f).length + 1)
      + w.frame.outstanding.length) :
    ∃ m2, m2 < m ∧ Copying f files0 (w.step k pick) m2 := by
  obtain ⟨req, hmem, hget, hlen, hstep⟩ := world_step_eq w k pick h_fault h_ne
  obtain ⟨hfop, hchild⟩ := h_kind req hmem
  have hreq : req = Request.mk req.child (Fop.writev v (o : Int)) := by
    cases req with
    | mk c fp => simp only at hfop; rw [hfop]
  have hmem2 : ∀ x, x ∈ w.frame.outstanding.eraseIdx (k % w.frame.outstanding.length) ↔
      x ∈ w.frame.outstanding ∧ x ≠ req :=
    fun x => mem_eraseIdx_of_nodup x req _ _ h_nodup hget
  have hfiles2 : ∀ i, (backend_reply w.files req pick).2 i =
      if i ∈ sinks f then
        (if Request.mk i (Fop.writev v (o : Int)) ∈
            w.frame.outstanding.eraseIdx (k % w.frame.outstanding.length) then
          copied (files0 f.source.toNat) (files0 i) o
        else copied (files0 f.source.toNat) (files0 i) (o + v.length))
      else files0 i := by
    intro i
    simp only [backend_reply, hfop, Int.toNat_ofNat]
    by_cases hic : i = req.child
    · subst hic
      have h1 : Request.mk req.child (Fop.writev v (o : Int)) ∈ w.frame.outstanding := by
        rw [← hreq]; exact hmem
      have h2 : Request.mk req.child (Fop.writev v (o : Int)) ∉
          w.frame.outstanding.eraseIdx (k % w.frame.outstanding.length) := by
        rw [hmem2]; intro hh; exact hh.2 hreq.symm
      rw [h_files req.child]
      simp only [hchild, h1, h2, if_true, if_false]
      exact overwrite_copied _ _ _ _ h_le h_v
    · have h3 : Request.mk i (Fop.writev v (o : Int)) ≠ req := by
        intro hh; apply hic; rw [← hh]
      simp only [hic, if_false, hmem2, h3, ne_eq, not_false_eq_true, and_true]
      exact h_files i
  have hsub : ∀ x ∈ w.frame.outstanding.eraseIdx (k % w.frame.outstanding.length),
      x.fop = Fop.writev v (o : Int) ∧ x.child ∈ sinks f :=
    fun x hx => h_kind x (List.mem_of_mem_eraseIdx hx)
  simp only [callback, hfop, sh_write_cbk] at hstep
  by_cases hlast : w.frame.call_count - 1 = 0
  · have hnil : w.frame.outstanding.eraseIdx (k % w.frame.outstanding.length) = [] := by
      apply List.length_eq_zero.mp; omega
    have hone : w.frame.outstanding.length = 1 := by omega
    simp only [hnil, List.not_mem_nil, if_false] at hfiles2
    by_cases hmore : w.frame.offset < w.frame.file_size
    · simp only [hlast, hmore, if_true, hnil] at hstep
      rw [sh_read_write_eq _ (by simp only [h_source]; exact hv0)
        (by simp only [h_source, h_nodes]; exact hv1)] at hstep
      simp only [wind_children, List.nil_append, List.map_cons, List.map_nil] at hstep
      rw [hstep]
      have hlt : o + v.length < (files0 f.source.toNat).length := by
        rw [h_off, h_size, hsize] at hmore
        exact_mod_cast hmore
      have hv1' : 1 ≤ v.length := h_some (by omega)
      have hmul : ((files0 f.source.toNat).length - (o + v.length)) * ((sinks f).length + 1)
          + ((sinks f).length + 1)
          ≤ ((files0 f.source.toNat).length - o) * ((sinks f).length + 1) := by
        have h1 : ((files0 f.source.toNat).length - (o + v.length)) + 1
            ≤ (files0 f.source.toNat).length - o := by omega
        calc ((files0 f.source.toNat).length - (o + v.length)) * ((sinks f).length + 1)
              + ((sinks f).length + 1)
            = (((files0 f.source.toNat).length - (o + v.length)) + 1)
              * ((sinks f).length + 1) := by ring
          _ ≤ ((files0 f.source.toNat).length - o) * ((sinks f).length + 1) :=
            Nat.mul_le_mul_right _ h1
      refine ⟨2 * (targets f).length
          + ((files0 f.source.toNat).length - (o + v.length)) * ((sinks f).length + 1)
          + (sinks f).length + 1, by omega, ?_⟩
      refine Copying.reading _ _ (o + v.length) ?hout ?hoff (by omega) ?_ ?_ ?_ ?_ ?_ ?_ ?_
        ?hfiles rfl
      case hout => simp only [h_source, h_block, h_off]
      case hoff => exact h_off
      case hfiles => exact hfiles2
      all_goals first | rfl | assumption
    · simp only [hlast, hmore, if_true, if_false, hnil, sh_close_fds_eq, wind_children,
        List.nil_append, targets_eq, sinks_eq, h_nodes, h_sources, h_source] at hstep
      simp only [← sinks_eq f, ← targets_eq f] at hstep
      rw [hstep]
      have hge : (files0 f.source.toNat).length ≤ o + v.length := by
        rw [h_off, h_size, hsize] at hmore
        have : ¬ (o + v.length < (files0 f.source.toNat).length) := by
          intro hh; apply hmore; exact_mod_cast hh
        omega
      have heq : o + v.length = (files0 f.source.toNat).length := by omega
      have hT := targets_length f hv0 hv1 hv2
      have hTne := targets_ne_nil f hv0 hv1 hv2
      refine ⟨(targets f).length + (targets f).length, by omega, ?_⟩
      refine Copying.flushing _ _ ?hk ?hne ?hfew ?hcount ?_ ?_ ?_ ?_ ?_ ?hfiles ?hm
      case hk =>
        intro x hx
        simp only [List.mem_map] at hx
        obtain ⟨i, _, rfl⟩ := hx
        rfl
      case hne => simpa using hTne
      case hfew => simp
      case hcount => simp only [List.length_map]; omega
      case hfiles =>
        intro i
        have := hfiles2 i
        rw [heq] at this
        exact this
      case hm => simp
      all_goals first | rfl | assumption
  · simp only [hlast, if_false] at hstep
    rw [hstep]
    have hne2 : w.frame.outstanding.eraseIdx (k % w.frame.outstanding.length) ≠ [] := by
      intro hh
      rw [hh] at hlen
      simp at hlen
      omega
    refine ⟨2 * (targets f).length
        + ((files0 f.source.toNat).length - o) * ((sinks f).length + 1)
        + (w.frame.outstanding.eraseIdx (k % w.frame.outstanding.length)).length,
      by omega, ?_⟩
    refine Copying.writing _ _ o v hsub (h_nodup.eraseIdx _) hne2 (by simp only; omega)
      (by simp only; omega) h_off h_le h_some h_v h_fault h_nodes h_sources h_source h_block
      h_size h_compl hfiles2 rfl

theorem copying_step_flushing (f : Frame) (files0 : Nat → List Nat)
    (hv0 : 0 ≤ f.source) (hv1 : f.source < (f.child_count : Int))
    (hv2 : f.sources.getD f.source.toNat 0 ≠ 0)
    (w : World) (m k pick : Nat)
    (h_kind : ∀ req ∈ w.frame.outstanding, req.fop = Fop.flush)
    (h_ne : w.frame.outstanding ≠ [])
    (h_few : w.frame.outstanding.length ≤ (targets f).length)
    (h_count : w.frame.call_count = (w.frame.outstanding.length : Int))
    (h_fault : w.frame.fault = false)
    (h_nodes : w.frame.child_count = f.child_count)
    (h_sources : w.frame.sources = f.sources)
    (h_source : w.frame.source = f.source)
    (h_compl : w.frame.completions = f.completions)
    (h_files : ∀ i, w.files i =
      if i ∈ sinks f then
        copied (files0 f.source.toNat) (files0 i) (files0 f.source.toNat).length
      else files0 i)
    (h_m : m = (targets f).length + w.frame.outstanding.length) :
    ∃ m2, m2 < m ∧ Copying f files0 (w.step k pick) m2 := by
  obtain ⟨req, hmem, hget, hlen, hstep⟩ := world_step_eq w k pick h_fault h_ne
  have hfop := h_kind req hmem
  have hsub : ∀ x ∈ w.frame.outstanding.eraseIdx (k % w.frame.outstanding.length),
      x.fop = Fop.flush :=
    fun x hx => h_kind x (List.mem_of_mem_eraseIdx hx)
  simp only [callback, hfop, backend_reply, sh_close_fds_cbk, sh_erase_pending] at hstep
  by_cases hlast : w.frame.call_count - 1 = 0
  · have hnil : w.frame.outstanding.eraseIdx (k % w.frame.outstanding.length) = [] := by
      apply List.length_eq_zero.mp; omega
    simp only [hlast, if_true, hnil, sh_unlock_inode_eq, wind_children,
      List.nil_append, targets_eq, sinks_eq, h_nodes, h_sources, h_source] at hstep
    simp only [← sinks_eq f, ← targets_eq f] at hstep
    rw [hstep]
    have hT := targets_length f hv0 hv1 hv2
    have hTne := targets_ne_nil f hv0 hv1 hv2
    have hpos : 0 < w.frame.outstanding.length := List.length_pos.mpr h_ne
    refine ⟨(targets f).length, by omega, ?_⟩
    refine Copying.unlocking _ _ ?hk ?hne ?hcount ?_ ?_ ?hfiles ?hm
    case hk =>
      intro x hx
      simp only [List.mem_map] at hx
      obtain ⟨i, _, rfl⟩ := hx
      rfl
    case hne => simpa using hTne
    case hcount => simp only [List.length_map]; omega
    case hfiles => exact h_files
    case hm => simp
    all_goals first | rfl | assumption
  · simp only [hlast, if_false] at hstep
    rw [hstep]
    have hne2 : w.frame.outstanding.eraseIdx (k % w.frame.outstanding.length) ≠ [] := by
      intro hh
      rw [hh] at hlen
      simp at hlen
      omega
    refine ⟨(targets f).length
      + (w.frame.outstanding.eraseIdx (k % w.frame.outstanding.length)).length,
      by omega, ?_⟩
    exact Copying.flushing _ _ hsub hne2 (by simp only; omega) (by simp only; omega) h_fault
      h_nodes h_sources h_source h_compl h_files rfl

theorem copying_step_unlocking (f : Frame) (files0 : Nat → List Nat)
    (w : World) (m k pick : Nat)
    (h_kind : ∀ req ∈ w.frame.outstanding, req.fop = Fop.inodelk LockType.F_UNLCK)
    (h_ne : w.frame.outstanding ≠ [])
    (h_count : w.frame.call_count = (w.frame.outstanding.length : Int))
    (h_fault : w.frame.fault = false)
    (h_compl : w.frame.completions = f.completions)
    (h_files : ∀ i, w.files i =
      if i ∈ sinks f then
        copied (files0 f.source.toNat) (files0 i) (files0 f.source.toNat).length
      else files0 i)
    (h_m : m = w.frame.outstanding.length) :
    ∃ m2, m2 < m ∧ Copying f files0 (w.step k pick) m2 := by
  obtain ⟨req, hmem, hget, hlen, hstep⟩ := world_step_eq w k pick h_fault h_ne
  have hfop := h_kind req hmem
  have hsub : ∀ x ∈ w.frame.outstanding.eraseIdx (k % w.frame.outstanding.length),
      x.fop = Fop.inodelk LockType.F_UNLCK :=
    fun x hx => h_kind x (List.mem_of_mem_eraseIdx hx)
  simp only [callback, hfop, backend_reply, sh_unlock_inode_cbk] at hstep
  have hpos : 0 < w.frame.outstanding.length := List.length_pos.mpr h_ne
  by_cases hlast : w.frame.call_count - 1 = 0
  · have hnil : w.frame.outstanding.eraseIdx (k % w.frame.outstanding.length) = [] := by
      apply List.length_eq_zero.mp; omega
    simp only [hlast, if_true, hnil, sh_cleanup_and_terminate, completion_cbk] at hstep
    rw [hstep]
    refine ⟨0, by omega, ?_⟩
    exact Copying.finished _ _ rfl (by simp only [h_compl]) h_files rfl
  · simp only [hlast, if_false] at hstep
    rw [hstep]
    have hne2 : w.frame.outstanding.eraseIdx (k % w.frame.outstanding.length) ≠ [] := by
      intro hh
      rw [hh] at hlen
      simp at hlen
      omega
    refine ⟨(w.frame.outstanding.eraseIdx (k % w.frame.outstanding.length)).length,
      by omega, ?_⟩
    exact Copying.unlocking _ _ hsub hne2 (by simp only; omega) h_fault h_compl h_files rfl

/-- One step of a copy that is not finished brings it closer to its end. -/
theorem copying_step (f : Frame) (files0 : Nat → List Nat)
    (hv0 : 0 ≤ f.source) (hv1 : f.source < (f.child_count : Int))
    (hv2 : f.sources.getD f.source.toNat 0 ≠ 0) (hsink : sinks f ≠ [])
    (hsize : f.file_size = ((files0 f.source.toNat).length : Int)) (hblk : 0 < f.block_size)
    (w : World) (m k pick : Nat) (H : Copying f files0 w m) (hm : 0 < m) :
    ∃ m2, m2 < m ∧ Copying f files0 (w.step k pick) m2 := by
  cases H with
  | reading o h_out h_off h_le h_fault h_nodes h_sources h_source h_block h_size h_compl
      h_files h_m =>
    exact copying_step_reading f files0 hv2 hsink hblk w m o k pick h_out h_off h_le
      h_fault h_nodes h_sources h_source h_block h_size h_compl h_files h_m
  | writing o v h_kind h_nodup h_ne h_few h_count h_off h_le h_some h_v h_fault h_nodes
      h_sources h_source h_block h_size h_compl h_files h_m =>
    exact copying_step_writing f files0 hv0 hv1 hv2 hsize w m o v k pick h_kind h_nodup h_ne
      h_few h_count h_off h_le h_some h_v h_fault h_nodes h_sources h_source h_block h_size
      h_compl h_files h_m
  | flushing h_kind h_ne h_few h_count h_fault h_nodes h_sources h_source h_compl h_files
      h_m =>
    exact copying_step_flushing f files0 hv0 hv1 hv2 w m k pick h_kind h_ne h_few h_count
      h_fault h_nodes h_sources h_source h_compl h_files h_m
  | unlocking h_kind h_ne h_count h_fault h_compl h_files h_m =>
    exact copying_step_unlocking f files0 w m k pick h_kind h_ne h_count h_fault h_compl
      h_files h_m
  | finished h_out h_compl h_files h_m => omega

theorem copying_pending (f : Frame) (files0 : Nat → List Nat) (w : World) (m : Nat)
    (H : Copying f files0 w m) (hm : 0 < m) : w.frame.completions = f.completions := by
  cases H with
  | reading o h_out h_off h_le h_fault h_nodes h_sources h_source h_block h_size h_compl
      h_files h_m => exact h_compl
  | writing o v h_kind h_nodup h_ne h_few h_count h_off h_le h_some h_v h_fault h_nodes
      h_sources h_source h_block h_size h_compl h_files h_m => exact h_compl
  | flushing h_kind h_ne h_few h_count h_fault h_nodes h_sources h_source h_compl h_files
      h_m => exact h_compl
  | unlocking h_kind h_ne h_count h_fault h_compl h_files h_m => exact h_compl
  | finished h_out h_compl h_files h_m => omega

theorem copying_finished (f : Frame) (files0 : Nat → List Nat) (w : World)
    (H : Copying f files0 w 0) :
    w.frame.outstanding = [] ∧ w.frame.completions = f.completions + 1 ∧
      ∀ i, w.files i =
        if i ∈ sinks f then
          copied (files0 f.source.toNat) (files0 i) (files0 f.source.toNat).length
        else files0 i := by
  cases H with
  | reading o h_out h_off h_le h_fault h_nodes h_sources h_source h_block h_size h_compl
      h_files h_m => omega
  | writing o v h_kind h_nodup h_ne h_few h_count h_off h_le h_some h_v h_fault h_nodes
      h_sources h_source h_block h_size h_compl h_files h_m =>
    have := List.length_pos.mpr h_ne
    omega
  | flushing h_kind h_ne h_few h_count h_fault h_nodes h_sources h_source h_compl h_files
      h_m =>
    have := List.length_pos.mpr h_ne
    omega
  | unlocking h_kind h_ne h_count h_fault h_compl h_files h_m =>
    have := List.length_pos.mpr h_ne
    omega
  | finished h_out h_compl h_files h_m => exact ⟨h_out, h_compl, h_files⟩

theorem first_choices_succ (ch : Nat → Nat × Nat) (t : Nat) :
    first_choices ch (t + 1) = ch 0 :: first_choices (fun i => ch (i + 1)) t := by
  unfold first_choices
  rw [List.range_succ_eq_map]
  simp [List.map_map, Function.comp_def]

/-- A copy reaches its end, and `completion_cbk` is not called before. -/
theorem copying_run (f : Frame) (files0 : Nat → List Nat)
    (hv0 : 0 ≤ f.source) (hv1 : f.source < (f.child_count : Int))
    (hv2 : f.sources.getD f.source.toNat 0 ≠ 0) (hsink : sinks f ≠ [])
    (hsize : f.file_size = ((files0 f.source.toNat).length : Int)) (hblk : 0 < f.block_size) :
    ∀ (m : Nat) (w : World) (ch : Nat → Nat × Nat), Copying f files0 w m →
      ∃ T, Copying f files0 (w.run (first_choices ch T)) 0 ∧
        ∀ t, t < T → (w.run (first_choices ch t)).frame.completions = f.completions := by
  intro m
  induction m using Nat.strong_induction_on with
  | _ m ih =>
    intro w ch H
    by_cases hm : m = 0
    · subst hm
      exact ⟨0, H, fun t ht => by omega⟩
    · obtain ⟨m2, hlt, H2⟩ :=
        copying_step f files0 hv0 hv1 hv2 hsink hsize hblk w m (ch 0).1 (ch 0).2 H (by omega)
      obtain ⟨T, HT, hbefore⟩ := ih m2 hlt (w.step (ch 0).1 (ch 0).2) (fun i => ch (i + 1)) H2
      refine ⟨T + 1, ?_, ?_⟩
      · rw [first_choices_succ]
        exact HT
      · intro t ht
        cases t with
        | zero => exact copying_pending f files0 w m H (by omega)
        | succ t =>
          rw [first_choices_succ]
          exact hbefore t (by omega)

/-! ## Claims about whole runs -/

theorem lookups_ne_nil (n : Nat) (up : List Bool) (hup : ∃ i, i < n ∧ up.getD i false = true) :
    lookups n up ≠ [] := by
  obtain ⟨i, hi, hu⟩ := hup
  intro h
  have hmem : i ∈ (List.range n).filter fun i => up.getD i false := by
    simp only [List.mem_filter, List.mem_range]
    exact ⟨hi, hu⟩
  have : (List.range n).filter (fun i => up.getD i false) = [] := by
    simpa [lookups] using h
  rw [this] at hmem
  simp at hmem

theorem quiet_of_not_live (n : Nat) (up : List Bool) (src : List Int) (ph : Phase) (s : Frame)
    (H : PhaseFacts n up src ph s) (hj : ph.joins = false) (hs : ph.single = false) :
    s.outstanding = [] := by
  apply List.eq_nil_iff_forall_not_mem.mpr
  intro x hx
  have := H.h_kind x hx
  cases ph <;> simp [Phase.expects, Phase.joins, Phase.single] at this hj hs

/-- C8 (amended): no-op heal.  For every number of replicas and every
`child_up` vector with at least one replica up, as long as the pending matrix
of the frame is all zero (the caller's zeroed matrix before the Arbiter runs,
the matrix built from the lookup replies after), the requests wound are exactly
one lookup to each up replica and nothing else, and `completion_cbk` has been
called exactly once if no request is in flight any more and not at all while a
lookup is still unanswered. -/
theorem C8_noop_heal (n : Nat) (up : List Bool) (src : List Int)
    (sched : List (Nat × Response))
    (hup : ∃ i, i < n ∧ up.getD i false = true)
    (hzero : afr_sh_is_matrix_zero (run (start n up src) sched).pending_matrix n = true) :
    (run (start n up src) sched).trace = lookups n up ∧
    (run (start n up src) sched).completions =
      (if (run (start n up src) sched).outstanding = [] then 1 else 0) := by
  obtain ⟨ph, H⟩ := phase_of_run n up src sched
  have hne := lookups_ne_nil n up hup
  have hnz := H.h_nonzero
  have hid := H.h_idle
  have hc := H.h_compl
  have hnf := H.h_nofail
  have hp := H.h_probe
  have hj := H.h_join
  rw [hzero] at hnz
  cases ph
  case idle => exact absurd (hid rfl) hne
  case probe =>
    have := hj rfl
    have hne2 : (run (start n up src) sched).outstanding ≠ [] :=
      List.length_pos.mp this.2
    refine ⟨hp rfl, ?_⟩
    rw [hc, hnf rfl]
    simp [hne2, Phase.finished]
  case noop =>
    have hq := quiet_of_not_live n up src _ _ H rfl rfl
    refine ⟨hp rfl, ?_⟩
    rw [hc, hnf rfl]
    simp [hq, Phase.finished]
  case faulted => simp at hnz
  all_goals simp [Phase.elected] at hnz

/-- C9: stat failure.  In every run, when the stat of the elected source is in
flight and is answered with `op_ret = -1`, the callback goes through
`sh_cleanup_and_terminate` (one more cleanup) and `completion_cbk` is called
(for the first and only time), nothing new is wound, the only requests of the
whole run are lookups and the stat (no inodelk, open, readv, writev or flush on
any replica), `block_size` and `file_size` are as they were, and no request is
left in flight, so that nothing is ever wound afterwards. -/
theorem C9_stat_failure (n : Nat) (up : List Bool) (src : List Int)
    (sched : List (Nat × Response)) (k : Nat) (r : Response)
    (hstat : ∃ req ∈ (run (start n up src) sched).outstanding, req.fop = Fop.stat)
    (hr : r.op_ret = -1) :
    (run (start n up src) sched).completions = 0 ∧
    (deliver (run (start n up src) sched) k r).completions = 1 ∧
    (deliver (run (start n up src) sched) k r).cleanups
      = (run (start n up src) sched).cleanups + 1 ∧
    (deliver (run (start n up src) sched) k r).trace = (run (start n up src) sched).trace ∧
    (∀ req ∈ (deliver (run (start n up src) sched) k r).trace,
      req.fop = Fop.lookup ∨ req.fop = Fop.stat) ∧
    (deliver (run (start n up src) sched) k r).block_size
      = (run (start n up src) sched).block_size ∧
    (deliver (run (start n up src) sched) k r).file_size
      = (run (start n up src) sched).file_size ∧
    (deliver (run (start n up src) sched) k r).outstanding = [] ∧
    (∀ later : List (Nat × Response),
      run (deliver (run (start n up src) sched) k r) later
        = deliver (run (start n up src) sched) k r) := by
  obtain ⟨ph, H⟩ := phase_of_run n up src sched
  generalize run (start n up src) sched = s at H hstat ⊢
  obtain ⟨q, hq, hqf⟩ := hstat
  have hk := H.h_kind q hq
  have hph : ph = Phase.sizer := by
    cases ph <;> simp [Phase.expects, hqf, Fop.is_stat, Fop.is_lookup, Fop.is_wrlck,
      Fop.is_open, Fop.is_readv, Fop.is_writev, Fop.is_flush, Fop.is_unlck] at hk ⊢
  subst hph
  have hf : s.fault = false := by simpa using H.h_fault
  have hone := H.h_single rfl
  have hpos : 0 < s.outstanding.length := by omega
  obtain ⟨req, hmem, hlen, heq⟩ := deliver_of_live s k r hf (List.length_pos.mp hpos)
  have hfop := is_stat_eq (H.h_kind req hmem)
  have hnil : s.outstanding.eraseIdx (k % s.outstanding.length) = [] := by
    apply List.length_eq_zero.mp; omega
  have hc : s.completions = 0 := by
    rw [H.h_compl, H.h_nofail rfl]; rfl
  have ht := H.h_stat (Or.inl rfl)
  have hd : deliver s k r =
      sh_cleanup_and_terminate
        { s with outstanding := [], answered := s.answered ++ [(req, r.op_ret)] } := by
    rw [heq]
    simp only [callback, hfop, sh_source_stat_cbk, hr, if_true, hnil]
  have hout : (deliver s k r).outstanding = [] := by rw [hd]; rfl
  refine ⟨hc, ?_, ?_, ?_, ?_, ?_, ?_, hout, ?_⟩
  · rw [hd]; simp [sh_cleanup_and_terminate, completion_cbk, hc]
  · rw [hd]; rfl
  · rw [hd]; rfl
  · intro x hx
    have hx2 : x ∈ s.trace := by rw [hd] at hx; exact hx
    rw [ht] at hx2
    rcases List.mem_append.mp hx2 with h | h
    · left
      simp only [lookups, List.mem_map] at h
      obtain ⟨i, _, rfl⟩ := h
      rfl
    · right
      simp only [List.mem_singleton] at h
      rw [h]
  · rw [hd]; rfl
  · rw [hd]; rfl
  · exact run_of_quiet _ hout

/-- C6 (amended): the same replica set through lock, open, flush and unlock.
In every run in which an open was wound and no open failed, once
`completion_cbk` has been called the replicas that received the F_WRLCK
inodelk, the open, the flush and the F_UNLCK inodelk are, in this order of
index, the replicas i below `child_count` with `i = source` or
`sources[i] = 0`, whether they are up or not; `completion_cbk` has been called
once and no request is in flight, so every replica that was locked was sent its
unlock, and answered it, before completion. -/
theorem C6_same_replica_set (n : Nat) (up : List Bool) (src : List Int)
    (sched : List (Nat × Response))
    (hopen : children_of Fop.is_open (run (start n up src) sched).trace ≠ [])
    (hok : open_failures (run (start n up src) sched).answered = 0)
    (hdone : 1 ≤ (run (start n up src) sched).completions) :
    children_of Fop.is_wrlck (run (start n up src) sched).trace
      = targets (run (start n up src) sched) ∧
    children_of Fop.is_open (run (start n up src) sched).trace
      = targets (run (start n up src) sched) ∧
    children_of Fop.is_flush (run (start n up src) sched).trace
      = targets (run (start n up src) sched) ∧
    children_of Fop.is_unlck (run (start n up src) sched).trace
      = targets (run (start n up src) sched) ∧
    (∀ i, i ∈ targets (run (start n up src) sched) ↔
      i < n ∧ ((i : Int) = (run (start n up src) sched).source ∨ src.getD i 0 = 0)) ∧
    (run (start n up src) sched).completions = 1 ∧
    (run (start n up src) sched).outstanding = [] := by
  obtain ⟨ph, H⟩ := phase_of_run n up src sched
  generalize run (start n up src) sched = s at H hopen hok hdone ⊢
  have hc := H.h_compl
  have ho := H.h_open
  rw [hok] at hc
  have hph : ph = Phase.done := by
    cases ph <;> simp [Phase.finished, Phase.opened] at hc ho ⊢ <;> first | omega | exact hopen ho
  subst hph
  obtain ⟨hsrc, _⟩ := H.h_source rfl
  have hT : targets s = targets_of n src (afr_sh_select_source src n) := by
    rw [targets_eq, H.h_count, H.h_src, hsrc]
  have hq := quiet_of_not_live n up src _ _ H rfl rfl
  refine ⟨?_, ?_, ?_, ?_, ?_, ?_, hq⟩
  · rw [hT]; simpa [Phase.locked] using H.h_lock
  · rw [hT]; simpa [Phase.opened] using H.h_open
  · rw [hT]; simpa [Phase.flushed] using H.h_flush
  · rw [hT]; simpa [Phase.unlocked] using H.h_unlck
  · intro i
    rw [hT, ← hsrc]
    simp [targets_of, List.mem_filter, List.mem_range]
  · rw [hc]; rfl

/-! ## Concrete runs -/

/-- C8 (witness): three replicas, all up, all xattrs zero: exactly three
lookups, nothing else, and one completion. -/
theorem C8_noop_heal_witness :
    (∃ i, i < 3 ∧ [true, true, true].getD i false = true) ∧
    afr_sh_is_matrix_zero
      (run (start 3 [true, true, true] [0, 0, 0])
        [(0, Response.lookup_ok [0, 0, 0]), (1, Response.lookup_ok [0, 0, 0]),
          (0, Response.lookup_ok [0, 0, 0])]).pending_matrix 3 = true ∧
    (run (start 3 [true, true, true] [0, 0, 0])
        [(0, Response.lookup_ok [0, 0, 0]), (1, Response.lookup_ok [0, 0, 0]),
          (0, Response.lookup_ok [0, 0, 0])]).trace
      = [Request.mk 0 Fop.lookup, Request.mk 1 Fop.lookup, Request.mk 2 Fop.lookup] ∧
    (run (start 3 [true, true, true] [0, 0, 0])
        [(0, Response.lookup_ok [0, 0, 0]), (1, Response.lookup_ok [0, 0, 0]),
          (0, Response.lookup_ok [0, 0, 0])]).completions = 1 := by
  have h := C8_noop_heal 3 [true, true, true] [0, 0, 0]
    [(0, Response.lookup_ok [0, 0, 0]), (1, Response.lookup_ok [0, 0, 0]),
      (0, Response.lookup_ok [0, 0, 0])] ⟨0, by decide⟩ (by decide)
  have hq : (run (start 3 [true, true, true] [0, 0, 0])
      [(0, Response.lookup_ok [0, 0, 0]), (1, Response.lookup_ok [0, 0, 0]),
        (0, Response.lookup_ok [0, 0, 0])]).outstanding = [] := by decide
  refine ⟨⟨0, by decide⟩, by decide, ?_, ?_⟩
  · rw [h.1]; decide
  · rw [h.2, hq]; rfl

/-- C8 (counterexample): three replicas, none up.  `afr_self_heal_data` winds
no lookup, so every lookup (there is none) has been answered; the matrix of the
frame is all zero, and so is the matrix built from the xattrs collected; yet
`completion_cbk` has not been called, and with nothing in flight no callback
will ever call it. -/
theorem C8_counterexample_none_up :
    (run (start 3 [false, false, false] [0, 0, 0]) []).outstanding = [] ∧
    (run (start 3 [false, false, false] [0, 0, 0]) []).trace = [] ∧
    afr_sh_is_matrix_zero
      (run (start 3 [false, false, false] [0, 0, 0]) []).pending_matrix 3 = true ∧
    afr_sh_is_matrix_zero
      (afr_sh_build_pending_matrix
        (run (start 3 [false, false, false] [0, 0, 0]) []).xattr 3) 3 = true ∧
    (run (start 3 [false, false, false] [0, 0, 0]) []).completions = 0 ∧
    (run (start 3 [false, false, false] [0, 0, 0])
      [(0, Response.ok), (1, Response.ok)]).completions = 0 := by
  decide

/-- C9 (witness): two replicas, replica 0 accuses replica 1, the stat of
replica 0 fails. -/
theorem C9_stat_failure_witness :
    (∃ req ∈ (run (start 2 [true, true] [1, 0])
        [(0, Response.lookup_ok [0, 1]), (0, Response.lookup_ok [0, 0])]).outstanding,
      req.fop = Fop.stat) ∧
    Response.failed.op_ret = -1 ∧
    (deliver (run (start 2 [true, true] [1, 0])
        [(0, Response.lookup_ok [0, 1]), (0, Response.lookup_ok [0, 0])])
      0 Response.failed).completions = 1 :=
  ⟨⟨Request.mk 0 Fop.stat, by decide, rfl⟩, rfl,
    (C9_stat_failure 2 [true, true] [1, 0]
      [(0, Response.lookup_ok [0, 1]), (0, Response.lookup_ok [0, 0])] 0 Response.failed
      ⟨Request.mk 0 Fop.stat, by decide, rfl⟩ rfl).2.1⟩

/-- C6 (witness): three replicas, replica 0 accuses replica 2, caller's sources
{1,1,0}; a file of 3 bytes copied in blocks of 2. -/
theorem C6_same_replica_set_witness :
    children_of Fop.is_open
      (run (start 3 [true, true, true] [1, 1, 0])
        [(0, Response.lookup_ok [0, 0, 1]), (0, Response.lookup_ok [0, 0, 0]),
          (0, Response.lookup_ok [0, 0, 0]), (0, Response.stat_ok 2 3),
          (1, Response.ok), (0, Response.ok), (0, Response.ok), (0, Response.ok),
          (0, Response.read_ok [7, 8]), (0, Response.ok), (0, Response.read_ok [9]),
          (0, Response.ok), (1, Response.ok), (0, Response.ok), (0, Response.ok),
          (0, Response.ok)]).trace ≠ [] ∧
    children_of Fop.is_wrlck
      (run (start 3 [true, true, true] [1, 1, 0])
        [(0, Response.lookup_ok [0, 0, 1]), (0, Response.lookup_ok [0, 0, 0]),
          (0, Response.lookup_ok [0, 0, 0]), (0, Response.stat_ok 2 3),
          (1, Response.ok), (0, Response.ok), (0, Response.ok), (0, Response.ok),
          (0, Response.read_ok [7, 8]), (0, Response.ok), (0, Response.read_ok [9]),
          (0, Response.ok), (1, Response.ok), (0, Response.ok), (0, Response.ok),
          (0, Response.ok)]).trace
      = targets
        (run (start 3 [true, true, true] [1, 1, 0])
          [(0, Response.lookup_ok [0, 0, 1]), (0, Response.lookup_ok [0, 0, 0]),
            (0, Response.lookup_ok [0, 0, 0]), (0, Response.stat_ok 2 3),
            (1, Response.ok), (0, Response.ok), (0, Response.ok), (0, Response.ok),
            (0, Response.read_ok [7, 8]), (0, Response.ok), (0, Response.read_ok [9]),
            (0, Response.ok), (1, Response.ok), (0, Response.ok), (0, Response.ok),
            (0, Response.ok)]) :=
  ⟨by decide,
    (C6_same_replica_set 3 [true, true, true] [1, 1, 0] _ (by decide) (by decide)
      (by decide)).1⟩

/-- C6 (counterexample): two replicas, replica 1 down, caller's sources {1,0}.
The run opens the heal descriptor and completes once; replica 1, which is down,
was sent the write lock, the open, the flush and the unlock, so the four sets
are {0,1} and not {source} ∪ {i : sources[i] = 0 and child_up[i]} = {0}. -/
theorem C6_counterexample_down_replica :
    (run (start 2 [true, false] [1, 0])
      [(0, Response.lookup_ok [0, 1]), (0, Response.stat_ok 2 1), (0, Response.ok),
        (0, Response.ok), (0, Response.ok), (0, Response.ok), (0, Response.read_ok [7]),
        (0, Response.ok), (0, Response.ok), (0, Response.ok), (0, Response.ok),
        (0, Response.ok)]).healing_fd = true ∧
    (run (start 2 [true, false] [1, 0])
      [(0, Response.lookup_ok [0, 1]), (0, Response.stat_ok 2 1), (0, Response.ok),
        (0, Response.ok), (0, Response.ok), (0, Response.ok), (0, Response.read_ok [7]),
        (0, Response.ok), (0, Response.ok), (0, Response.ok), (0, Response.ok),
        (0, Response.ok)]).completions = 1 ∧
    children_of Fop.is_wrlck
      (run (start 2 [true, false] [1, 0])
        [(0, Response.lookup_ok [0, 1]), (0, Response.stat_ok 2 1), (0, Response.ok),
          (0, Response.ok), (0, Response.ok), (0, Response.ok), (0, Response.read_ok [7]),
          (0, Response.ok), (0, Response.ok), (0, Response.ok), (0, Response.ok),
          (0, Response.ok)]).trace = [0, 1] ∧
    children_of Fop.is_open
      (run (start 2 [true, false] [1, 0])
        [(0, Response.lookup_ok [0, 1]), (0, Response.stat_ok 2 1), (0, Response.ok),
          (0, Response.ok), (0, Response.ok), (0, Response.ok), (0, Response.read_ok [7]),
          (0, Response.ok), (0, Response.ok), (0, Response.ok), (0, Response.ok),
          (0, Response.ok)]).trace = [0, 1] ∧
    children_of Fop.is_flush
      (run (start 2 [true, false] [1, 0])
        [(0, Response.lookup_ok [0, 1]), (0, Response.stat_ok 2 1), (0, Response.ok),
          (0, Response.ok), (0, Response.ok), (0, Response.ok), (0, Response.read_ok [7]),
          (0, Response.ok), (0, Response.ok), (0, Response.ok), (0, Response.ok),
          (0, Response.ok)]).trace = [0, 1] ∧
    children_of Fop.is_unlck
      (run (start 2 [true, false] [1, 0])
        [(0, Response.lookup_ok [0, 1]), (0, Response.stat_ok 2 1), (0, Response.ok),
          (0, Response.ok), (0, Response.ok), (0, Response.ok), (0, Response.read_ok [7]),
          (0, Response.ok), (0, Response.ok), (0, Response.ok), (0, Response.ok),
          (0, Response.ok)]).trace = [0, 1] ∧
    ((List.range 2).filter fun (i : Nat) =>
      ((i : Int) == 0) || (([1, 0] : List Int).getD i 0 == 0 && [true, false].getD i false))
      = [0] := by
  decide

/-! ## Runs on which the code departs from the specification -/

/-- C1: `completion_cbk` is called twice.  Two replicas, replica 0 accuses
replica 1, caller's sources {1,0}; the open on replica 1 fails and the open on
replica 0 succeeds.  The failing open callback calls `completion_cbk` while the
other open is still in flight, the run goes on through copy, flush and unlock,
and the unlock join calls it again: two completions and two cleanups when no
request remains in flight.  What follows the first cleanup runs on the released
context: the end of the run is the control flow as it is if the freed memory
still reads as before. -/
theorem C1_completion_called_twice :
    (run (start 2 [true, true] [1, 0])
      [(0, Response.lookup_ok [0, 1]), (0, Response.lookup_ok [0, 0]),
        (0, Response.stat_ok 2 1), (0, Response.ok), (0, Response.ok),
        (1, Response.failed)]).completions = 1 ∧
    (run (start 2 [true, true] [1, 0])
      [(0, Response.lookup_ok [0, 1]), (0, Response.lookup_ok [0, 0]),
        (0, Response.stat_ok 2 1), (0, Response.ok), (0, Response.ok),
        (1, Response.failed)]).outstanding = [Request.mk 0 Fop.open_] ∧
    (run (start 2 [true, true] [1, 0])
      [(0, Response.lookup_ok [0, 1]), (0, Response.lookup_ok [0, 0]),
        (0, Response.stat_ok 2 1), (0, Response.ok), (0, Response.ok),
        (1, Response.failed), (0, Response.ok), (0, Response.read_ok [7]),
        (0, Response.ok), (0, Response.ok), (0, Response.ok), (0, Response.ok),
        (0, Response.ok)]).outstanding = [] ∧
    (run (start 2 [true, true] [1, 0])
      [(0, Response.lookup_ok [0, 1]), (0, Response.lookup_ok [0, 0]),
        (0, Response.stat_ok 2 1), (0, Response.ok), (0, Response.ok),
        (1, Response.failed), (0, Response.ok), (0, Response.read_ok [7]),
        (0, Response.ok), (0, Response.ok), (0, Response.ok), (0, Response.ok),
        (0, Response.ok)]).completions = 2 ∧
    (run (start 2 [true, true] [1, 0])
      [(0, Response.lookup_ok [0, 1]), (0, Response.lookup_ok [0, 0]),
        (0, Response.stat_ok 2 1), (0, Response.ok), (0, Response.ok),
        (1, Response.failed), (0, Response.ok), (0, Response.read_ok [7]),
        (0, Response.ok), (0, Response.ok), (0, Response.ok), (0, Response.ok),
        (0, Response.ok)]).cleanups = 2 := by
  decide

/-- C2: split-brain is not detected.  Two replicas accusing each other.  With
the sources vector all zero (no candidate) the Arbiter does not call
`completion_cbk`: it elects source -1 and winds the stat to `children[-1]`.
With the caller's vector {1,0} it winds the stat to replica 0. -/
theorem C2_split_brain_not_detected :
    (run (start 2 [true, true] [0, 0])
      [(0, Response.lookup_ok [0, 1]), (0, Response.lookup_ok [1, 0])]).pending_matrix
      = [[0, 1], [1, 0]] ∧
    (run (start 2 [true, true] [0, 0])
      [(0, Response.lookup_ok [0, 1]), (0, Response.lookup_ok [1, 0])]).completions = 0 ∧
    (run (start 2 [true, true] [0, 0])
      [(0, Response.lookup_ok [0, 1]), (0, Response.lookup_ok [1, 0])]).source = -1 ∧
    (run (start 2 [true, true] [0, 0])
      [(0, Response.lookup_ok [0, 1]), (0, Response.lookup_ok [1, 0])]).fault = true ∧
    (run (start 2 [true, true] [1, 0])
      [(0, Response.lookup_ok [0, 1]), (0, Response.lookup_ok [1, 0])]).completions = 0 ∧
    (run (start 2 [true, true] [1, 0])
      [(0, Response.lookup_ok [0, 1]), (0, Response.lookup_ok [1, 0])]).trace
      = [Request.mk 0 Fop.lookup, Request.mk 1 Fop.lookup, Request.mk 0 Fop.stat] := by
  decide

/-- The Arbiter never writes the sources vector. -/
theorem sh_do_data_self_heal_sources (s : Frame) :
    (sh_do_data_self_heal s).sources = s.sources := by
  unfold sh_do_data_self_heal sh_sync_source_and_sinks sh_get_source_stat wind_source
    wind_children completion_cbk
  simp only []
  split_ifs <;> rfl

/-- C3: the sources vector is not computed from the matrix.  Three replicas,
only replica 0 accuses replica 2, so the classification of the specification is
{1,1,0}.  The vector handed to source selection is the caller's: with {0,0,0}
it stays {0,0,0} and the elected source is -1; with {0,1,1} it stays {0,1,1},
replica 1 is elected and the write lock goes to replicas 0 and 1. -/
theorem C3_sources_not_classified :
    (run (start 3 [true, true, true] [0, 0, 0])
      [(0, Response.lookup_ok [0, 0, 1]), (0, Response.lookup_ok [0, 0, 0]),
        (0, Response.lookup_ok [0, 0, 0])]).pending_matrix
      = [[0, 0, 1], [0, 0, 0], [0, 0, 0]] ∧
    (run (start 3 [true, true, true] [0, 0, 0])
      [(0, Response.lookup_ok [0, 0, 1]), (0, Response.lookup_ok [0, 0, 0]),
        (0, Response.lookup_ok [0, 0, 0])]).sources = [0, 0, 0] ∧
    (run (start 3 [true, true, true] [0, 0, 0])
      [(0, Response.lookup_ok [0, 0, 1]), (0, Response.lookup_ok [0, 0, 0]),
        (0, Response.lookup_ok [0, 0, 0])]).source = -1 ∧
    (run (start 3 [true, true, true] [0, 1, 1])
      [(0, Response.lookup_ok [0, 0, 1]), (0, Response.lookup_ok [0, 0, 0]),
        (0, Response.lookup_ok [0, 0, 0]), (0, Response.stat_ok 2 1)]).sources
      = [0, 1, 1] ∧
    (run (start 3 [true, true, true] [0, 1, 1])
      [(0, Response.lookup_ok [0, 0, 1]), (0, Response.lookup_ok [0, 0, 0]),
        (0, Response.lookup_ok [0, 0, 0]), (0, Response.stat_ok 2 1)]).source = 1 ∧
    (run (start 3 [true, true, true] [0, 1, 1])
      [(0, Response.lookup_ok [0, 0, 1]), (0, Response.lookup_ok [0, 0, 0]),
        (0, Response.lookup_ok [0, 0, 0]), (0, Response.stat_ok 2 1)]).outstanding
      = [Request.mk 0 (Fop.inodelk LockType.F_WRLCK),
          Request.mk 1 (Fop.inodelk LockType.F_WRLCK)] := by
  decide

/-- C4: a failed read does not abort the chunk.  Two replicas, replica 0 the
source and replica 1 the sink, a file of 4 bytes in blocks of 2.  The first
readv is answered with `op_ret = -1`: `sh_read_cbk` winds a writev to the sink
and moves the offset to -1, and after the write reply the next readv is wound
at offset -1; no flush has been wound.  Answered with `op_ret = 0` the writev
is wound as well and the next readv is wound at offset 0 again. -/
theorem C4_read_failure_not_handled :
    (run (start 2 [true, true] [1, 0])
      [(0, Response.lookup_ok [0, 1]), (0, Response.lookup_ok [0, 0]),
        (0, Response.stat_ok 2 4), (0, Response.ok), (0, Response.ok), (0, Response.ok),
        (0, Response.ok), (0, Response.failed)]).outstanding
      = [Request.mk 1 (Fop.writev [] 0)] ∧
    (run (start 2 [true, true] [1, 0])
      [(0, Response.lookup_ok [0, 1]), (0, Response.lookup_ok [0, 0]),
        (0, Response.stat_ok 2 4), (0, Response.ok), (0, Response.ok), (0, Response.ok),
        (0, Response.ok), (0, Response.failed)]).offset = -1 ∧
    (run (start 2 [true, true] [1, 0])
      [(0, Response.lookup_ok [0, 1]), (0, Response.lookup_ok [0, 0]),
        (0, Response.stat_ok 2 4), (0, Response.ok), (0, Response.ok), (0, Response.ok),
        (0, Response.ok), (0, Response.failed), (0, Response.ok)]).outstanding
      = [Request.mk 0 (Fop.readv 2 (-1))] ∧
    children_of Fop.is_flush
      (run (start 2 [true, true] [1, 0])
        [(0, Response.lookup_ok [0, 1]), (0, Response.lookup_ok [0, 0]),
          (0, Response.stat_ok 2 4), (0, Response.ok), (0, Response.ok), (0, Response.ok),
          (0, Response.ok), (0, Response.failed), (0, Response.ok)]).trace = [] ∧
    (run (start 2 [true, true] [1, 0])
      [(0, Response.lookup_ok [0, 1]), (0, Response.lookup_ok [0, 0]),
        (0, Response.stat_ok 2 4), (0, Response.ok), (0, Response.ok), (0, Response.ok),
        (0, Response.ok), (0, Response.ok)]).outstanding
      = [Request.mk 1 (Fop.writev [] 0)] ∧
    (run (start 2 [true, true] [1, 0])
      [(0, Response.lookup_ok [0, 1]), (0, Response.lookup_ok [0, 0]),
        (0, Response.stat_ok 2 4), (0, Response.ok), (0, Response.ok), (0, Response.ok),
        (0, Response.ok), (0, Response.ok), (0, Response.ok)]).outstanding
      = [Request.mk 0 (Fop.readv 2 0)] := by
  decide

/-! ## Claims about one fan-out -/

/-- C10 (amended): join counters match their fan-outs.  The callbacks are run
one at a time, each to its end before the next.  For every frame with nothing
in flight, whose context has not been released (`cleanups = 0`), whose source
is the one elected from its sources vector and is a replica (`0 ≤ source`),
each of the fan-outs lock, open, per-chunk write, flush and unlock winds
exactly the requests listed and sets `call_count` to their number.  While some
of them are unanswered nothing is wound, `call_count` is the number unanswered,
`completion_cbk` is not called and nothing is released.  When the fan-out wound
at least one request, the reply that answers the last of them winds the first
request of the next phase, once: the opens after the locks, the readv after the
opens, the next readv or the flushes after the writes, the unlocks after the
flushes, and after the unlocks nothing but one release of the context and one
call of `completion_cbk`, the only one.  For the open fan-out this is stated of
opens none of which is answered with -1 (`not_failed`); for the other fan-outs
of replies of any kind.  Lock, open, flush and unlock always wind at least one
request; the write fan-out winds none exactly when no replica has
`sources[i] = 0`. -/
theorem C10_join_counters (f : Frame) (c : Nat) (r : Response)
    (hf : f.fault = false) (hq : f.outstanding = []) (hclean : f.cleanups = 0)
    (hsel : f.source = afr_sh_select_source f.sources f.child_count)
    (hsrc : 0 ≤ f.source) :
    ((sh_lock_inode f).outstanding
        = (targets f).map (fun i => Request.mk i (Fop.inodelk LockType.F_WRLCK)) ∧
      JoinsQuietly (sh_lock_inode f) ((targets f).map fun i => Request.mk i Fop.open_)
        any_reply 0) ∧
    ((sh_open_source_and_sinks f).outstanding
        = (targets f).map (fun i => Request.mk i Fop.open_) ∧
      JoinsQuietly (sh_open_source_and_sinks f)
        [Request.mk f.source.toNat (Fop.readv f.block_size f.offset)] not_failed 0) ∧
    ((sh_read_cbk f c r).outstanding
        = (sinks f).map (fun i => Request.mk i (Fop.writev r.vector f.offset)) ∧
      JoinsQuietly (sh_read_cbk f c r)
        (if f.offset + r.op_ret < f.file_size then
          [Request.mk f.source.toNat (Fop.readv f.block_size (f.offset + r.op_ret))]
        else (targets f).map fun i => Request.mk i Fop.flush) any_reply 0) ∧
    ((sh_close_fds f).outstanding = (targets f).map (fun i => Request.mk i Fop.flush) ∧
      JoinsQuietly (sh_close_fds f)
        ((targets f).map fun i => Request.mk i (Fop.inodelk LockType.F_UNLCK)) any_reply 0) ∧
    ((sh_unlock_inode f).outstanding
        = (targets f).map (fun i => Request.mk i (Fop.inodelk LockType.F_UNLCK)) ∧
      (sh_unlock_inode f).completions = f.completions ∧
      JoinsQuietly (sh_unlock_inode f) [] any_reply 1) ∧
    targets f ≠ [] ∧
    (sinks f = [] ↔ ∀ i, i < f.child_count → f.sources.getD i 0 ≠ 0) := by
  have hv := select_source_valid f.sources f.child_count (by rw [← hsel]; exact hsrc)
  rw [← hsel] at hv
  obtain ⟨hv1, hv2⟩ := hv
  refine ⟨⟨?_, quietly_lock f hf hq hclean hsrc hv1 hv2⟩,
    ⟨?_, quietly_open f hf hq hclean hsrc hv1 hv2⟩,
    ⟨?_, quietly_write f c r hf hq hclean hsrc hv1⟩,
    ⟨?_, quietly_flush f hf hq hclean hsrc hv1 hv2⟩,
    ⟨?_, ?_, quietly_unlock f hf hq hclean hsrc hv1 hv2⟩,
    targets_ne_nil f hsrc hv1 hv2, ?_⟩
  · rw [sh_lock_inode_eq]; simp [wind_children, hq]
  · rw [sh_open_source_and_sinks_eq]; simp [wind_children, hq]
  · rw [sh_read_cbk_eq]; simp [wind_children, hq]
  · rw [sh_close_fds_eq]; simp [wind_children, hq]
  · rw [sh_unlock_inode_eq]; simp [wind_children, hq]
  · rw [sh_unlock_inode_eq]; rfl
  · rw [List.eq_nil_iff_forall_not_mem]
    constructor
    · intro h i hi h0
      exact h i ((mem_sinks f i).mpr ⟨hi, h0⟩)
    · intro h i hi
      obtain ⟨h1, h2⟩ := (mem_sinks f i).mp hi
      exact h i h1 h2

/-- C7 (amended): the copier step with short reads.  Let the only request in
flight be a readv at offset `o`, that offset being the frame's, the source a
replica, and at least one replica a sink.  When the readv is answered with
`n > 0` bytes, `sh_read_cbk` winds a writev of the returned vector at offset
`o` to every replica i with `sources[i] = 0` and to no other replica and sets
the offset to `o + n`; no request is wound while some of these writes are
unanswered, in whatever order they are answered; and the reply to the last of
them winds the next readv, at offset `o + n` and of size `block_size`, if
`o + n < file_size`, and otherwise winds no readv but the flush fan-out. -/
theorem C7_copier_step (s : Frame) (k c : Nat) (size o : Int) (r : Response)
    (hf : s.fault = false) (hout : s.outstanding = [Request.mk c (Fop.readv size o)])
    (hoff : s.offset = o)
    (hv0 : 0 ≤ s.source) (hv1 : s.source < (s.child_count : Int))
    (_hn : 0 < r.op_ret) (hsink : sinks s ≠ []) :
    (deliver s k r).outstanding
      = (sinks s).map (fun i => Request.mk i (Fop.writev r.vector o)) ∧
    (deliver s k r).trace
      = s.trace ++ (sinks s).map (fun i => Request.mk i (Fop.writev r.vector o)) ∧
    (∀ i, i ∈ sinks s ↔ i < s.child_count ∧ s.sources.getD i 0 = 0) ∧
    (deliver s k r).offset = o + r.op_ret ∧
    (∀ sched : List (Nat × Response), sched.length < (sinks s).length →
      (run (deliver s k r) sched).trace = (deliver s k r).trace) ∧
    (∀ sched : List (Nat × Response), sched.length = (sinks s).length →
      (run (deliver s k r) sched).outstanding
        = (if o + r.op_ret < s.file_size then
            [Request.mk s.source.toNat (Fop.readv s.block_size (o + r.op_ret))]
          else (targets s).map fun i => Request.mk i Fop.flush) ∧
      (run (deliver s k r) sched).trace
        = (deliver s k r).trace ++
          (if o + r.op_ret < s.file_size then
            [Request.mk s.source.toNat (Fop.readv s.block_size (o + r.op_ret))]
          else (targets s).map fun i => Request.mk i Fop.flush)) := by
  obtain ⟨t, hd, htf, hto, htn, hts, htsrc, htoff, htfs, htbs, httr⟩ :
      ∃ t : Frame, deliver s k r = sh_read_cbk t c r ∧ t.fault = false ∧ t.outstanding = [] ∧
        t.child_count = s.child_count ∧ t.sources = s.sources ∧ t.source = s.source ∧
        t.offset = o ∧ t.file_size = s.file_size ∧ t.block_size = s.block_size ∧
        t.trace = s.trace :=
    ⟨_, deliver_single s k r _ hf hout, hf, rfl, rfl, rfl, rfl, hoff, rfl, rfl, rfl⟩
  have hS : sinks t = sinks s := sinks_congr t s htn hts
  have hT : targets t = targets s := targets_congr t s htn htsrc hts
  have hJ := joins_write t c r htf hto (by rw [htsrc]; exact hv0)
    (by rw [htsrc, htn]; exact hv1)
  rw [← hd, hT, htoff, htfs, htbs, htsrc] at hJ
  have ho : (deliver s k r).outstanding
      = (sinks s).map (fun i => Request.mk i (Fop.writev r.vector o)) := by
    rw [hd, sh_read_cbk_eq]
    simp [wind_children, hS, htoff, hto]
  have hol : (deliver s k r).outstanding.length = (sinks s).length := by
    rw [ho, List.length_map]
  obtain ⟨_, hpre, hlast⟩ := hJ
  refine ⟨ho, ?_, mem_sinks s, ?_, ?_, ?_⟩
  · rw [hd, sh_read_cbk_eq]
    simp [wind_children, hS, htoff, httr]
  · rw [hd, sh_read_cbk_eq]
    simp [wind_children, htoff]
  · intro sched hlt
    exact (hpre sched (by rw [hol]; exact hlt)).1
  · intro sched hlen
    have hne : (deliver s k r).outstanding ≠ [] := by
      rw [ho]
      simpa using hsink
    obtain ⟨h1, h2⟩ := hlast sched (by rw [hol]; exact hlen) hne
    exact ⟨h2, h1⟩

/-- C7 (witness): a file of 10000 bytes, blocks of 4096, the first readv
answered with 3000 bytes: a writev of those 3000 bytes at offset 0 to the sink,
replica 1, and on its reply the next readv, at offset 3000 and of size 4096. -/
theorem C7_copier_step_witness :
    short_read_frame.fault = false ∧
    short_read_frame.outstanding = [Request.mk 0 (Fop.readv 4096 0)] ∧
    short_read_frame.offset = 0 ∧
    0 ≤ short_read_frame.source ∧
    short_read_frame.source < (short_read_frame.child_count : Int) ∧
    0 < (Response.read_ok (List.replicate 3000 0)).op_ret ∧
    sinks short_read_frame ≠ [] ∧
    (deliver short_read_frame 0 (Response.read_ok (List.replicate 3000 0))).outstanding
      = [Request.mk 1 (Fop.writev (List.replicate 3000 0) 0)] ∧
    (deliver short_read_frame 0 (Response.read_ok (List.replicate 3000 0))).offset = 3000 ∧
    (∀ sched : List (Nat × Response), sched.length = 1 →
      (run (deliver short_read_frame 0 (Response.read_ok (List.replicate 3000 0)))
          sched).outstanding
        = [Request.mk 0 (Fop.readv 4096 3000)]) := by
  have h := C7_copier_step short_read_frame 0 0 4096 0
    (Response.read_ok (List.replicate 3000 0))
    (by decide) (by decide) (by decide) (by decide) (by decide)
    (by simp only [Response.read_ok, List.length_replicate]; decide) (by decide)
  have hs : sinks short_read_frame = [1] := by decide
  have hr : (Response.read_ok (List.replicate 3000 0)).op_ret = 3000 := by
    simp only [Response.read_ok, List.length_replicate]; rfl
  refine ⟨by decide, by decide, by decide, by decide, by decide,
    by rw [hr]; decide, by decide, ?_, ?_, ?_⟩
  · rw [h.1, hs]; rfl
  · rw [h.2.2.2.1, hr]; rfl
  · intro sched hlen
    rw [(h.2.2.2.2.2 sched (by rw [hs]; exact hlen)).1, hr]
    decide

/-- C7 (counterexample): two replicas, caller's sources {1,1} (no sink), a file
of 10 bytes in blocks of 4.  The first readv returns 3 bytes; no writev is
wound, so all the writes of the chunk have been answered, yet neither the next
readv (3 < 10) nor a flush is wound: nothing is in flight and the run has not
completed. -/
theorem C7_counterexample_no_sink :
    (run (start 2 [true, true] [1, 1])
      [(0, Response.lookup_ok [0, 1]), (0, Response.lookup_ok [0, 0]),
        (0, Response.stat_ok 4 10), (0, Response.ok), (0, Response.ok),
        (0, Response.read_ok [1, 2, 3])]).trace
      = [Request.mk 0 Fop.lookup, Request.mk 1 Fop.lookup, Request.mk 0 Fop.stat,
          Request.mk 0 (Fop.inodelk LockType.F_WRLCK), Request.mk 0 Fop.open_,
          Request.mk 0 (Fop.readv 4 0)] ∧
    (run (start 2 [true, true] [1, 1])
      [(0, Response.lookup_ok [0, 1]), (0, Response.lookup_ok [0, 0]),
        (0, Response.stat_ok 4 10), (0, Response.ok), (0, Response.ok),
        (0, Response.read_ok [1, 2, 3])]).outstanding = [] ∧
    (run (start 2 [true, true] [1, 1])
      [(0, Response.lookup_ok [0, 1]), (0, Response.lookup_ok [0, 0]),
        (0, Response.stat_ok 4 10), (0, Response.ok), (0, Response.ok),
        (0, Response.read_ok [1, 2, 3])]).offset = 3 ∧
    (run (start 2 [true, true] [1, 1])
      [(0, Response.lookup_ok [0, 1]), (0, Response.lookup_ok [0, 0]),
        (0, Response.stat_ok 4 10), (0, Response.ok), (0, Response.ok),
        (0, Response.read_ok [1, 2, 3])]).file_size = 10 ∧
    (run (start 2 [true, true] [1, 1])
      [(0, Response.lookup_ok [0, 1]), (0, Response.lookup_ok [0, 0]),
        (0, Response.stat_ok 4 10), (0, Response.ok), (0, Response.ok),
        (0, Response.read_ok [1, 2, 3])]).completions = 0 := by
  decide

/-- C10 (witness): three replicas, sources {1,1,0}, replica 0 elected, the
context not released: the open fan-out winds to replicas 0 and 2 and, no open
failing, joins on its second reply with the readv to replica 0. -/
theorem C10_join_counters_witness :
    elected_frame.fault = false ∧
    elected_frame.outstanding = [] ∧
    elected_frame.cleanups = 0 ∧
    elected_frame.source = afr_sh_select_source elected_frame.sources elected_frame.child_count ∧
    0 ≤ elected_frame.source ∧
    ((sh_open_source_and_sinks elected_frame).outstanding
        = (targets elected_frame).map (fun i => Request.mk i Fop.open_) ∧
      JoinsQuietly (sh_open_source_and_sinks elected_frame)
        [Request.mk elected_frame.source.toNat
          (Fop.readv elected_frame.block_size elected_frame.offset)] not_failed 0) :=
  ⟨by decide, by decide, by decide, by decide, by decide,
    (C10_join_counters elected_frame 0 (Response.read_ok [7]) (by decide) (by decide)
      (by decide) (by decide) (by decide)).2.1⟩

/-- C10 (counterexample): three replicas, caller's sources {1,1,1}, replica 0
elected, replica 0 accusing replica 2.  After the reply to the first readv the
write fan-out has set `call_count` to 0 and wound nothing; no reply can bring
`call_count` to 0, the first request of the next phase is never wound, and the
run rests with nothing in flight and no completion. -/
theorem C10_counterexample_empty_write_fanout :
    afr_sh_select_source [1, 1, 1] 3 = 0 ∧
    (run (start 3 [true, true, true] [1, 1, 1])
      [(0, Response.lookup_ok [0, 0, 1]), (0, Response.lookup_ok [0, 0, 0]),
        (0, Response.lookup_ok [0, 0, 0]), (0, Response.stat_ok 4 10), (0, Response.ok),
        (0, Response.ok), (0, Response.read_ok [1, 2, 3, 4])]).call_count = 0 ∧
    (run (start 3 [true, true, true] [1, 1, 1])
      [(0, Response.lookup_ok [0, 0, 1]), (0, Response.lookup_ok [0, 0, 0]),
        (0, Response.lookup_ok [0, 0, 0]), (0, Response.stat_ok 4 10), (0, Response.ok),
        (0, Response.ok), (0, Response.read_ok [1, 2, 3, 4])]).outstanding = [] ∧
    children_of Fop.is_writev
      (run (start 3 [true, true, true] [1, 1, 1])
        [(0, Response.lookup_ok [0, 0, 1]), (0, Response.lookup_ok [0, 0, 0]),
          (0, Response.lookup_ok [0, 0, 0]), (0, Response.stat_ok 4 10), (0, Response.ok),
          (0, Response.ok), (0, Response.read_ok [1, 2, 3, 4])]).trace = [] ∧
    children_of Fop.is_readv
      (run (start 3 [true, true, true] [1, 1, 1])
        [(0, Response.lookup_ok [0, 0, 1]), (0, Response.lookup_ok [0, 0, 0]),
          (0, Response.lookup_ok [0, 0, 0]), (0, Response.stat_ok 4 10), (0, Response.ok),
          (0, Response.ok), (0, Response.read_ok [1, 2, 3, 4])]).trace = [0] ∧
    children_of Fop.is_flush
      (run (start 3 [true, true, true] [1, 1, 1])
        [(0, Response.lookup_ok [0, 0, 1]), (0, Response.lookup_ok [0, 0, 0]),
          (0, Response.lookup_ok [0, 0, 0]), (0, Response.stat_ok 4 10), (0, Response.ok),
          (0, Response.ok), (0, Response.read_ok [1, 2, 3, 4])]).trace = [] ∧
    (run (start 3 [true, true, true] [1, 1, 1])
      [(0, Response.lookup_ok [0, 0, 1]), (0, Response.lookup_ok [0, 0, 0]),
        (0, Response.lookup_ok [0, 0, 0]), (0, Response.stat_ok 4 10), (0, Response.ok),
        (0, Response.ok), (0, Response.read_ok [1, 2, 3, 4])]).completions = 0 := by
  decide

/-! ## Claim about the contents after a heal -/

theorem copying_start (f : Frame) (files : Nat → List Nat)
    (hf : f.fault = false) (hq : f.outstanding = [])
    (hv0 : 0 ≤ f.source) (hv1 : f.source < (f.child_count : Int)) (hoff : f.offset = 0) :
    Copying f files { frame := sh_read_write f, files := files }
      (2 * (targets f).length
        + ((files f.source.toNat).length - 0) * ((sinks f).length + 1)
        + (sinks f).length + 1) := by
  rw [sh_read_write_eq f hv0 hv1]
  refine Copying.reading _ _ 0 ?hout ?hoff (Nat.zero_le _) hf rfl rfl rfl rfl rfl rfl ?hfiles rfl
  case hout => simp [wind_children, hq, hoff]
  case hoff => simp [wind_children, hoff]
  case hfiles =>
    intro i
    by_cases hi : i ∈ sinks f <;> simp [hi, copied]

/-- C5 (amended): healed contents.  The files of the replicas are byte
sequences; a readv at an offset before the end of the source returns between 1
and `size` bytes from that offset, a writev overwrites the file at its offset
and succeeds, flush and unlock succeed.  Let the copy start at offset 0 in a
frame with nothing in flight, with `file_size` the length of the source, a
positive `block_size`, a source that is a replica and a candidate, and at least
one sink.  Then for every initial content of the sinks and every sequence of
choices (which request is served next, how short each read is) the run reaches
`completion_cbk`, which has not been called before; at that moment nothing is
in flight, every replica i with `sources[i] = 0` holds the bytes of the source
followed by the bytes of its own initial content beyond the length of the
source (so it equals the source byte for byte when it was not longer than the
source), and no other file has changed. -/
theorem C5_healed_contents (f : Frame) (files : Nat → List Nat) (ch : Nat → Nat × Nat)
    (hf : f.fault = false) (hq : f.outstanding = [])
    (hv0 : 0 ≤ f.source) (hv1 : f.source < (f.child_count : Int))
    (hv2 : f.sources.getD f.source.toNat 0 ≠ 0) (hsink : sinks f ≠ [])
    (hoff : f.offset = 0)
    (hsize : f.file_size = ((files f.source.toNat).length : Int))
    (hblk : 0 < f.block_size) :
    ∃ T,
      ((World.mk (sh_read_write f) files).run (first_choices ch T)).frame.completions
        = f.completions + 1 ∧
      ((World.mk (sh_read_write f) files).run (first_choices ch T)).frame.outstanding = [] ∧
      (∀ t, t < T →
        ((World.mk (sh_read_write f) files).run (first_choices ch t)).frame.completions
          = f.completions) ∧
      (∀ i, i < f.child_count → f.sources.getD i 0 = 0 →
        ((World.mk (sh_read_write f) files).run (first_choices ch T)).files i
          = files f.source.toNat ++ (files i).drop (files f.source.toNat).length) ∧
      (∀ i, i < f.child_count → f.sources.getD i 0 = 0 →
        (files i).length ≤ (files f.source.toNat).length →
        ((World.mk (sh_read_write f) files).run (first_choices ch T)).files i
          = files f.source.toNat) ∧
      (∀ i, ¬ (i < f.child_count ∧ f.sources.getD i 0 = 0) →
        ((World.mk (sh_read_write f) files).run (first_choices ch T)).files i = files i) := by
  obtain ⟨T, HT, hbefore⟩ :=
    copying_run f files hv0 hv1 hv2 hsink hsize hblk _ _ ch
      (copying_start f files hf hq hv0 hv1 hoff)
  obtain ⟨hout, hcompl, hfiles⟩ := copying_finished f files _ HT
  have hsinkfile : ∀ i, i < f.child_count → f.sources.getD i 0 = 0 →
      ((World.mk (sh_read_write f) files).run (first_choices ch T)).files i
        = files f.source.toNat ++ (files i).drop (files f.source.toNat).length := by
    intro i hi h0
    rw [hfiles i]
    simp [(mem_sinks f i).mpr ⟨hi, h0⟩, copied]
  refine ⟨T, hcompl, hout, hbefore, hsinkfile, ?_, ?_⟩
  · intro i hi h0 hlen
    rw [hsinkfile i hi h0, List.drop_eq_nil_of_le hlen, List.append_nil]
  · intro i hi
    rw [hfiles i]
    have : i ∉ sinks f := fun h => hi ((mem_sinks f i).mp h)
    simp [this]

/-- C5 (witness): the copy example, every request served in order and every
read as long as it may be. -/
theorem C5_healed_contents_witness :
    copy_frame.fault = false ∧ copy_frame.outstanding = [] ∧
    0 ≤ copy_frame.source ∧ copy_frame.source < (copy_frame.child_count : Int) ∧
    copy_frame.sources.getD copy_frame.source.toNat 0 ≠ 0 ∧ sinks copy_frame ≠ [] ∧
    copy_frame.offset = 0 ∧
    copy_frame.file_size = ((copy_files copy_frame.source.toNat).length : Int) ∧
    0 < copy_frame.block_size ∧
    ∃ T,
      ((World.mk (sh_read_write copy_frame) copy_files).run
          (first_choices (fun _ => (0, 1)) T)).frame.completions
        = copy_frame.completions + 1 ∧
      ((World.mk (sh_read_write copy_frame) copy_files).run
          (first_choices (fun _ => (0, 1)) T)).frame.outstanding = [] ∧
      (∀ t, t < T →
        ((World.mk (sh_read_write copy_frame) copy_files).run
            (first_choices (fun _ => (0, 1)) t)).frame.completions
          = copy_frame.completions) ∧
      (∀ i, i < copy_frame.child_count → copy_frame.sources.getD i 0 = 0 →
        ((World.mk (sh_read_write copy_frame) copy_files).run
            (first_choices (fun _ => (0, 1)) T)).files i
          = copy_files copy_frame.source.toNat
            ++ (copy_files i).drop (copy_files copy_frame.source.toNat).length) ∧
      (∀ i, i < copy_frame.child_count → copy_frame.sources.getD i 0 = 0 →
        (copy_files i).length ≤ (copy_files copy_frame.source.toNat).length →
        ((World.mk (sh_read_write copy_frame) copy_files).run
            (first_choices (fun _ => (0, 1)) T)).files i
          = copy_files copy_frame.source.toNat) ∧
      (∀ i, ¬ (i < copy_frame.child_count ∧ copy_frame.sources.getD i 0 = 0) →
        ((World.mk (sh_read_write copy_frame) copy_files).run
            (first_choices (fun _ => (0, 1)) T)).files i = copy_files i) :=
  ⟨by decide, by decide, by decide, by decide, by decide, by decide, by decide, by decide,
    by decide,
    C5_healed_contents copy_frame copy_files (fun _ => (0, 1)) (by decide) (by decide)
      (by decide) (by decide) (by decide) (by decide) (by decide) (by decide) (by decide)⟩

/-- C5 (counterexample): the copy example, where the sink (3 bytes) is longer
than the source (2 bytes).  After the read, the write, the two flushes and the
two unlocks the run has called `completion_cbk` once and nothing is in flight;
the sink, a replica with `sources[i] = 0`, holds the 2 bytes of the source
followed by its own third byte, which is not the content of the source. -/
theorem C5_counterexample_longer_sink :
    copy_frame.sources.getD 1 0 = 0 ∧
    ((World.mk (sh_read_write copy_frame) copy_files).run
      [(0, 1), (0, 0), (0, 0), (0, 0), (0, 0), (0, 0)]).frame.completions = 1 ∧
    ((World.mk (sh_read_write copy_frame) copy_files).run
      [(0, 1), (0, 0), (0, 0), (0, 0), (0, 0), (0, 0)]).frame.outstanding = [] ∧
    ((World.mk (sh_read_write copy_frame) copy_files).run
      [(0, 1), (0, 0), (0, 0), (0, 0), (0, 0), (0, 0)]).frame.trace
      = [Request.mk 0 (Fop.readv 4 0), Request.mk 1 (Fop.writev [1, 2] 0),
          Request.mk 0 Fop.flush, Request.mk 1 Fop.flush,
          Request.mk 0 (Fop.inodelk LockType.F_UNLCK),
          Request.mk 1 (Fop.inodelk LockType.F_UNLCK)] ∧
    ((World.mk (sh_read_write copy_frame) copy_files).run
      [(0, 1), (0, 0), (0, 0), (0, 0), (0, 0), (0, 0)]).files 0 = [1, 2] ∧
    ((World.mk (sh_read_write copy_frame) copy_files).run
      [(0, 1), (0, 0), (0, 0), (0, 0), (0, 0), (0, 0)]).files 1 = [1, 2, 9] := by
  decide
end AfrSelfHealData
